import Mathlib

/-!
# The room controller, the study rooms and the peer matching of the repository

A shallow embedding of

* class `WebRTCManager` of `src/webrtc.js`: the registry `peerConnections`, the
  presence handlers registered by `listenForParticipants`, the per-peer mailbox
  handler registered by `listenForSignalingMessages`, the `onicecandidate` handler,
  `joinRoom`, `leaveRoom` and the media toggles;
* `joinStudyRoom` and `createRoomCardHTML` of `src/study-rooms.js`;
* `calculateCompatibility`, `getCommonItems` and `findMatches` of `src/matching.js`,
  and `calculateCompatibility`, `getCommonItems` and `loadRecommendedPeers` of
  `src/dashboard.js`.

Modelling conventions.

* Identifiers (`participantId`, `roomId`, `uid`) are natural numbers; `none` stands
  for JavaScript `null` / `undefined`.  Session descriptions and candidates are
  opaque payloads, also numbers.
* Objects living on the JavaScript heap (`RTCPeerConnection`, `MediaStreamTrack`)
  are stored in lists and referred to by their index, so that "the same object"
  is "the same index".
* The browser's answers to the asynchronous calls on a connection are not part of
  the repository; they are a parameter (`Link`).  The outcome of `getUserMedia`, of
  the Realtime-Database `set()` / `remove()` calls and of the Firestore `get()` /
  `update()` calls is an argument of the operation that makes the call.
* `new RTCPeerConnection(this.pcConfig)`, `addTrack`, `close()`, `track.stop()` and
  the fire-and-forget `push()` / `snapshot.ref.remove()` do not throw.
* Every callback runs to completion before the next one starts.  Which callback
  the database invokes next is an input: `run` takes the list of invocations, and
  `deliverMail` is the schedule that hands every child of a mailbox to the
  callbacks listening on it.  Where a statement is about another call running
  while an `async` method is suspended, the method is split at its first `await`
  (`joinRoomBegin` / `joinRoomResume`, `createPeerConnectionBegin` /
  `createPeerConnectionResume`).  `joinRoomRun` is `joinRoom` with the actions that
  run at its two suspension points, and `joinStudyRoomRun` is `joinStudyRoom` with
  the room document changing between its `get()` and its `update()`; `joinRoom` and
  `joinStudyRoom` themselves are the runs in which nothing happens meanwhile.
* `Rtdb.pushed` and `RTCPeerConnection.calls` / `offerer` are histories kept for
  the statements; the operations never read them, except that the next push key
  is the number of children pushed so far.
* Numbers in `calculateCompatibility` are doubles: every arithmetic operation
  rounds its exact result to 53 significant bits (`JsNumber.toDouble`).
* A Firestore collection is the list of its documents in the order in which a
  query returns them; `Array.prototype.sort` is a stable sort.
* DOM updates (video elements, the modal, button icons, the cards other than the
  join button) are left out.
-/

namespace Dejes

abbrev ParticipantId := Nat

abbrev RoomId := Nat

/-! ## Browser objects -/

inductive TrackKind
  | video
  | audio
  deriving DecidableEq, Repr

/-- A `MediaStreamTrack`: `stopped` is set by `track.stop()`. -/
structure MediaStreamTrack where
  kind : TrackKind
  enabled : Bool
  stopped : Bool
  deriving DecidableEq, Repr

/-- Method invocations that an `RTCPeerConnection` object receives. -/
inductive LinkCall
  | addTrack (track : Nat)
  | createOffer
  | createAnswer
  | setLocalDescription (description : Nat)
  | setRemoteDescription (description : Nat)
  | addIceCandidate (candidate : Nat)
  | close
  deriving DecidableEq, Repr

/-- An `RTCPeerConnection` object.  `calls` lists every method invocation in the
order it was made, whether it succeeded or not; `candidates` lists the candidates
whose `addIceCandidate` succeeded.  `offerer` remembers the `createOffer` argument
of the `createPeerConnection` call that built the object. -/
structure RTCPeerConnection where
  closed : Bool
  localDescription : Option Nat
  remoteDescription : Option Nat
  candidates : List Nat
  calls : List LinkCall
  offerer : Bool
  deriving DecidableEq, Repr

/-- The browser's side of the link: whether the constructors
`new RTCSessionDescription(x)` / `new RTCIceCandidate(x)` accept a payload, and
the result of each asynchronous method on a connection in a given state
(`none` / `false` is a rejected promise). -/
structure Link where
  newSessionDescription : Nat → Bool
  newIceCandidate : Nat → Bool
  createOffer : RTCPeerConnection → Option Nat
  createAnswer : RTCPeerConnection → Option Nat
  setLocalDescription : RTCPeerConnection → Nat → Bool
  setRemoteDescription : RTCPeerConnection → Nat → Bool
  addIceCandidate : RTCPeerConnection → Nat → Bool

/-- Error names of a rejected `getUserMedia`. -/
inductive MediaError
  | notAllowed
  | notFound
  | other
  deriving DecidableEq, Repr

/-! ## Signaling messages and the Realtime Database -/

inductive MsgType
  | offer
  | answer
  | iceCandidate
  | other
  deriving DecidableEq, Repr

/-- A signaling message object.  `sender` is the field `from`; `payload` is the
field named after the type (`offer`, `answer` or `candidate`). -/
structure Message where
  type : MsgType
  payload : Nat
  sender : Option ParticipantId
  timestamp : Option Nat
  deriving DecidableEq, Repr

/-- A child of `signaling/{room}/{recipient}` with its push key. -/
structure MailItem where
  room : RoomId
  recipient : ParticipantId
  key : Nat
  msg : Message
  deriving DecidableEq, Repr

/-- The shared Realtime Database: presence records under
`room-participants/{room}/{uid}`, the mailboxes under `signaling`, and the
`onDisconnect().remove()` hooks.  `pushed` is the history of every child ever
pushed under `signaling`, in push order; the next push key is its length. -/
structure Rtdb where
  roomParticipants : List (RoomId × ParticipantId)
  signaling : List MailItem
  pushed : List MailItem
  serverTime : Nat
  onDisconnect : List (RoomId × ParticipantId)
  deriving DecidableEq, Repr

/-- A callback registered by `listenForSignalingMessages`: the path
`signaling/{room}/{uid}` it listens on and the two values it closes over. -/
structure SignalingListener where
  room : Option RoomId
  uid : Option ParticipantId
  participantId : ParticipantId
  peerConnection : Nat
  deriving DecidableEq, Repr

/-- One browser tab: the fields of `WebRTCManager`, the globals it reads
(`window.firebaseConfig.rtdb`, `window.authManager.getCurrentUser()`), its heap
and the callbacks it has registered. -/
structure Tab where
  localStream : Option (List Nat)
  peerConnections : List (ParticipantId × Nat)
  roomId : Option RoomId
  isVideoEnabled : Bool
  isAudioEnabled : Bool
  rtdb : Bool
  currentUser : Option ParticipantId
  conns : List RTCPeerConnection
  tracks : List MediaStreamTrack
  participantListeners : List RoomId
  signalingListeners : List SignalingListener
  notifications : List String
  deriving DecidableEq, Repr

structure World where
  tab : Tab
  db : Rtdb
  deriving DecidableEq, Repr

/-! ## `Map` operations on `peerConnections` -/

/-- `Map.prototype.get`. -/
def mapGet : List (ParticipantId × Nat) → ParticipantId → Option Nat
  | [], _ => none
  | (k, v) :: rest, p => if k = p then some v else mapGet rest p

/-- `Map.prototype.set`: an existing key keeps its position and gets the new
value, a new key is appended. -/
def mapSet : List (ParticipantId × Nat) → ParticipantId → Nat → List (ParticipantId × Nat)
  | [], p, v => [(p, v)]
  | (k, w) :: rest, p, v => if k = p then (p, v) :: rest else (k, w) :: mapSet rest p v

/-- `Map.prototype.delete`. -/
def mapDelete (m : List (ParticipantId × Nat)) (p : ParticipantId) : List (ParticipantId × Nat) :=
  m.filter (fun e => e.1 ≠ p)

/-- The keys of the registry. -/
def keys (m : List (ParticipantId × Nat)) : List ParticipantId :=
  m.map Prod.fst

/-! ## Heap updates -/

/-- Overwrite the connection object number `id`. -/
def putConn (id : Nat) (pc : RTCPeerConnection) (w : World) : World :=
  { w with tab := { w.tab with conns := w.tab.conns.set id pc } }

/-- `pc.close()`. -/
def RTCPeerConnection.close (pc : RTCPeerConnection) : RTCPeerConnection :=
  { pc with closed := true, calls := pc.calls ++ [LinkCall.close] }

/-- `pc.close()` on the object number `id`. -/
def closeConn (conns : List RTCPeerConnection) (id : Nat) : List RTCPeerConnection :=
  match conns[id]? with
  | some pc => conns.set id pc.close
  | none => conns

/-- `track.stop()` on the track number `id`. -/
def stopTrack (tracks : List MediaStreamTrack) (id : Nat) : List MediaStreamTrack :=
  match tracks[id]? with
  | some t => tracks.set id { t with stopped := true }
  | none => tracks

/-- `showNotification(message, ...)`. -/
def showNotification (text : String) (w : World) : World :=
  { w with tab := { w.tab with notifications := w.tab.notifications ++ [text] } }

/-! ## Signaling -/

/-- `sendSignalingMessage(participantId, message)`: the pushed object is
`{...message, from: uid, timestamp: TIMESTAMP}`. -/
def sendSignalingMessage (participantId : ParticipantId) (message : Message) (w : World) : World :=
  match w.tab.rtdb, w.tab.roomId with
  | true, some room =>
    let item : MailItem :=
      { room := room, recipient := participantId, key := w.db.pushed.length,
        msg := { message with sender := w.tab.currentUser,
                              timestamp := some w.db.serverTime } }
    { w with db := { w.db with
        signaling := w.db.signaling ++ [item],
        pushed := w.db.pushed ++ [item] } }
  | _, _ => w

/-- `sendIceCandidate(participantId, candidate)`. -/
def sendIceCandidate (participantId : ParticipantId) (candidate : Nat) (w : World) : World :=
  sendSignalingMessage participantId
    { type := MsgType.iceCandidate, payload := candidate, sender := none, timestamp := none } w

/-- The callback that `listenForSignalingMessages` builds in the tab `tab`: it
listens on `signaling/{this.roomId}/{uid}`. -/
def newListener (tab : Tab) (participantId : ParticipantId) (peerConnection : Nat) :
    SignalingListener :=
  { room := tab.roomId, uid := tab.currentUser, participantId := participantId,
    peerConnection := peerConnection }

/-- `listenForSignalingMessages(participantId, peerConnection)`: registers one
more `child_added` callback on `signaling/{this.roomId}/{uid}`. -/
def listenForSignalingMessages (participantId : ParticipantId) (peerConnection : Nat)
    (w : World) : World :=
  if w.tab.rtdb then
    let l := newListener w.tab participantId peerConnection
    { w with tab := { w.tab with signalingListeners := w.tab.signalingListeners ++ [l] } }
  else w

/-- How the `try` block of a callback ended: `threw` when an awaited call was
rejected, `done answer` when it ran through, `answer` being the description that
the `offer` branch sends back. -/
inductive Outcome
  | threw
  | done (answer : Option Nat)
  deriving DecidableEq, Repr

/-- The `offer` branch up to the call of `sendSignalingMessage`:
`setRemoteDescription`, `createAnswer`, `setLocalDescription`. -/
def applyOffer (link : Link) (d : Nat) (pc : RTCPeerConnection) : RTCPeerConnection × Outcome :=
  if link.newSessionDescription d then
    let pc1 := { pc with calls := pc.calls ++ [LinkCall.setRemoteDescription d] }
    if link.setRemoteDescription pc d then
      let pc2 := { pc1 with remoteDescription := some d }
      let pc3 := { pc2 with calls := pc2.calls ++ [LinkCall.createAnswer] }
      match link.createAnswer pc2 with
      | some answer =>
        let pc4 := { pc3 with calls := pc3.calls ++ [LinkCall.setLocalDescription answer] }
        if link.setLocalDescription pc3 answer then
          ({ pc4 with localDescription := some answer }, Outcome.done (some answer))
        else (pc4, Outcome.threw)
      | none => (pc3, Outcome.threw)
    else (pc1, Outcome.threw)
  else (pc, Outcome.threw)

/-- The `answer` branch: `setRemoteDescription`. -/
def applyAnswer (link : Link) (d : Nat) (pc : RTCPeerConnection) : RTCPeerConnection × Outcome :=
  if link.newSessionDescription d then
    let pc1 := { pc with calls := pc.calls ++ [LinkCall.setRemoteDescription d] }
    if link.setRemoteDescription pc d then
      ({ pc1 with remoteDescription := some d }, Outcome.done none)
    else (pc1, Outcome.threw)
  else (pc, Outcome.threw)

/-- The `ice-candidate` branch: `addIceCandidate`. -/
def applyCandidate (link : Link) (c : Nat) (pc : RTCPeerConnection) : RTCPeerConnection × Outcome :=
  if link.newIceCandidate c then
    let pc1 := { pc with calls := pc.calls ++ [LinkCall.addIceCandidate c] }
    if link.addIceCandidate pc c then
      ({ pc1 with candidates := pc1.candidates ++ [c] }, Outcome.done none)
    else (pc1, Outcome.threw)
  else (pc, Outcome.threw)

/-- The `if / else if` chain on `message.type` inside the `try` block. -/
def applyMessage (link : Link) (message : Message) (pc : RTCPeerConnection) :
    RTCPeerConnection × Outcome :=
  match message.type with
  | MsgType.offer => applyOffer link message.payload pc
  | MsgType.answer => applyAnswer link message.payload pc
  | MsgType.iceCandidate => applyCandidate link message.payload pc
  | MsgType.other => (pc, Outcome.done none)

/-- `snapshot.ref.remove()` for the child `key` of the listener's path. -/
def removeSnapshot (l : SignalingListener) (key : Nat) (w : World) : World :=
  { w with db := { w.db with
      signaling := w.db.signaling.filter
        (fun it => ¬ (some it.room = l.room ∧ some it.recipient = l.uid ∧ it.key = key)) } }

/-- The `child_added` callback registered by `listenForSignalingMessages`, run
on the snapshot `(key, message)`. -/
def onSignalingMessage (link : Link) (l : SignalingListener) (key : Nat) (message : Message)
    (w : World) : World :=
  if message.sender ≠ some l.participantId then w
  else
    match w.tab.conns[l.peerConnection]? with
    | none => w
    | some pc =>
      match applyMessage link message pc with
      | (pc1, Outcome.threw) => putConn l.peerConnection pc1 w
      | (pc1, Outcome.done none) => removeSnapshot l key (putConn l.peerConnection pc1 w)
      | (pc1, Outcome.done (some answer)) =>
        removeSnapshot l key
          (sendSignalingMessage l.participantId
            { type := MsgType.answer, payload := answer, sender := none, timestamp := none }
            (putConn l.peerConnection pc1 w))

/-! ## Peer connections -/

/-- The `if (createOffer)` block up to the call of `sendSignalingMessage`:
`createOffer` and `setLocalDescription`; the offer to send when both succeed. -/
def startOffer (link : Link) (pc : RTCPeerConnection) : RTCPeerConnection × Option Nat :=
  let pc1 := { pc with calls := pc.calls ++ [LinkCall.createOffer] }
  match link.createOffer pc with
  | some offer =>
    let pc2 := { pc1 with calls := pc1.calls ++ [LinkCall.setLocalDescription offer] }
    if link.setLocalDescription pc1 offer then
      ({ pc2 with localDescription := some offer }, some offer)
    else (pc2, none)
  | none => (pc1, none)

/-- The object built by `new RTCPeerConnection(this.pcConfig)` followed by
`addTrack` for every track of the local stream. -/
def newPeerConnection (localStream : Option (List Nat)) (createOffer : Bool) : RTCPeerConnection :=
  { closed := false, localDescription := none, remoteDescription := none, candidates := [],
    calls := (localStream.getD []).map LinkCall.addTrack, offerer := createOffer }

/-- `createPeerConnection(participantId, createOffer)`.  The new object gets the
next free index of the heap. -/
def createPeerConnection (link : Link) (participantId : ParticipantId) (createOffer : Bool)
    (w : World) : World :=
  let fresh := w.tab.conns.length
  let pc := newPeerConnection w.tab.localStream createOffer
  let w1 : World := { w with tab := { w.tab with
    conns := w.tab.conns ++ [pc],
    peerConnections := mapSet w.tab.peerConnections participantId fresh } }
  let w2 := listenForSignalingMessages participantId fresh w1
  if createOffer then
    match startOffer link pc with
    | (pc1, some offer) =>
      sendSignalingMessage participantId
        { type := MsgType.offer, payload := offer, sender := none, timestamp := none }
        (putConn fresh pc1 w2)
    | (pc1, none) => putConn fresh pc1 w2
  else w2

/-- `removePeerConnection(participantId)`. -/
def removePeerConnection (participantId : ParticipantId) (w : World) : World :=
  match mapGet w.tab.peerConnections participantId with
  | some id =>
    { w with tab := { w.tab with
        conns := closeConn w.tab.conns id,
        peerConnections := mapDelete w.tab.peerConnections participantId } }
  | none => w

/-! ## Presence -/

/-- The `child_added` callback registered by `listenForParticipants`. -/
def onChildAdded (link : Link) (participantId : ParticipantId) (w : World) : World :=
  if some participantId = w.tab.currentUser then w
  else createPeerConnection link participantId true w

/-- The `child_removed` callback registered by `listenForParticipants`. -/
def onChildRemoved (participantId : ParticipantId) (w : World) : World :=
  removePeerConnection participantId w

/-- `listenForParticipants()`: registers the two callbacks on
`room-participants/{this.roomId}`. -/
def listenForParticipants (w : World) : World :=
  match w.tab.roomId, w.tab.rtdb with
  | some room, true =>
    { w with tab := { w.tab with participantListeners := w.tab.participantListeners ++ [room] } }
  | _, _ => w

/-- A callback invocation delivered to the tab. -/
inductive Event
  | childAdded (participantId : ParticipantId)
  | childRemoved (participantId : ParticipantId)
  | signaling (listener : SignalingListener) (key : Nat) (message : Message)
  deriving DecidableEq, Repr

/-- Run the callback that an event invokes. -/
def handle (link : Link) (e : Event) (w : World) : World :=
  match e with
  | Event.childAdded p => onChildAdded link p w
  | Event.childRemoved p => onChildRemoved p w
  | Event.signaling l key message => onSignalingMessage link l key message w

/-- Process events one after another. -/
def run (link : Link) (es : List Event) (w : World) : World :=
  es.foldl (fun s e => handle link e s) w

/-! ## Joining and leaving a room -/

/-- A fresh, live track of the given kind. -/
def newTrack (kind : TrackKind) : MediaStreamTrack :=
  { kind := kind, enabled := true, stopped := false }

/-- `startLocalStream()`; `media` is the outcome of `getUserMedia`.  The second
component is `false` when the method throws. -/
def startLocalStream (media : Except MediaError (List TrackKind)) (w : World) : World × Bool :=
  match media with
  | Except.ok kinds =>
    ({ w with tab := { w.tab with
        tracks := w.tab.tracks ++ kinds.map newTrack,
        localStream := some (List.range' w.tab.tracks.length kinds.length) } }, true)
  | Except.error MediaError.notAllowed =>
    (showNotification "Camera/microphone access denied. Please allow access and try again." w,
      false)
  | Except.error MediaError.notFound =>
    (showNotification "Camera or microphone not found." w, false)
  | Except.error MediaError.other =>
    (showNotification "Failed to access camera/microphone." w, false)

/-- `participantsRef.set(...)`: the record for `(room, uid)` exists afterwards. -/
def dbSet (records : List (RoomId × ParticipantId)) (room : RoomId) (uid : ParticipantId) :
    List (RoomId × ParticipantId) :=
  if (room, uid) ∈ records then records else records ++ [(room, uid)]

/-- `ref.remove()` of the record for `(room, uid)`. -/
def dbRemove (records : List (RoomId × ParticipantId)) (room : RoomId) (uid : ParticipantId) :
    List (RoomId × ParticipantId) :=
  records.filter (fun r => r ≠ (room, uid))

/-- `addToRoomParticipants()`; `setOk` is the outcome of the awaited `set()`.  The
second component is `false` when the method throws. -/
def addToRoomParticipants (setOk : Bool) (w : World) : World × Bool :=
  match w.tab.rtdb, w.tab.roomId, w.tab.currentUser with
  | true, some room, some uid =>
    if setOk then
      ({ w with db := { w.db with
          roomParticipants := dbSet w.db.roomParticipants room uid,
          onDisconnect := w.db.onDisconnect ++ [(room, uid)] } }, true)
    else (w, false)
  | _, _, _ => (w, true)

/-- `joinRoom(roomId)`; the second component is the returned boolean.  This is the
run in which nothing else happens in the tab while the call waits for
`getUserMedia` and for `set()`; `joinRoomRun` below is the run in which other
actions do. -/
def joinRoom (roomId : RoomId) (media : Except MediaError (List TrackKind)) (setOk : Bool)
    (w : World) : World × Bool :=
  let w1 : World := { w with tab := { w.tab with roomId := some roomId } }
  match startLocalStream media w1 with
  | (w2, false) => (showNotification "Failed to join video chat." w2, false)
  | (w2, true) =>
    match addToRoomParticipants setOk (listenForParticipants w2) with
    | (w3, false) => (showNotification "Failed to join video chat." w3, false)
    | (w3, true) => (w3, true)

/-- Whether `leaveRoom` reaches the awaited `remove()` of the presence record. -/
def callsRemove (w : World) : Bool :=
  w.tab.rtdb && w.tab.roomId.isSome && w.tab.currentUser.isSome

/-- The statements of `leaveRoom` after the presence record has been dealt with:
close and clear the registry, stop the local stream, reset `roomId`. -/
def leaveCleanup (w : World) : World :=
  { w with tab := { w.tab with
      conns := (w.tab.peerConnections.map Prod.snd).foldl closeConn w.tab.conns,
      peerConnections := [],
      tracks := (w.tab.localStream.getD []).foldl stopTrack w.tab.tracks,
      localStream := none,
      roomId := none } }

/-- `leaveRoom()`; `removeOk` is the outcome of the awaited `remove()` when it is
reached.  A rejected `remove()` lands in the `catch` block. -/
def leaveRoom (removeOk : Bool) (w : World) : World :=
  match w.tab.rtdb, w.tab.roomId, w.tab.currentUser with
  | true, some room, some uid =>
    if removeOk then
      leaveCleanup { w with db := { w.db with
        roomParticipants := dbRemove w.db.roomParticipants room uid } }
    else w
  | _, _, _ => leaveCleanup w

/-! ## Two tabs sharing one database -/

structure Duo where
  a : Tab
  b : Tab
  db : Rtdb
  deriving DecidableEq, Repr

/-- Run a step in the first tab. -/
def Duo.onA (f : World → World) (d : Duo) : Duo :=
  let w := f { tab := d.a, db := d.db }
  { d with a := w.tab, db := w.db }

/-- Run a step in the second tab. -/
def Duo.onB (f : World → World) (d : Duo) : Duo :=
  let w := f { tab := d.b, db := d.db }
  { d with b := w.tab, db := w.db }

/-- The state `new WebRTCManager()` starts from, in a tab where the database is
available and `uid` is signed in. -/
def freshTab (uid : ParticipantId) : Tab :=
  { localStream := none, peerConnections := [], roomId := none,
    isVideoEnabled := true, isAudioEnabled := true, rtdb := true, currentUser := some uid,
    conns := [], tracks := [], participantListeners := [], signalingListeners := [],
    notifications := [] }

def emptyDb : Rtdb :=
  { roomParticipants := [], signaling := [], pushed := [], serverTime := 0, onDisconnect := [] }

/-- A granted `getUserMedia` with one video and one audio track. -/
def cameraAndMic : Except MediaError (List TrackKind) :=
  Except.ok [TrackKind.video, TrackKind.audio]

/-- The participants recorded under `room-participants/{room}`. -/
def presentIn (room : RoomId) (db : Rtdb) : List ParticipantId :=
  (db.roomParticipants.filter (fun r => r.1 = room)).map Prod.snd

/-- The database invokes every signaling callback of the tab for every child
found under the callback's path. -/
def deliverMail (link : Link) (w : World) : World :=
  w.db.signaling.foldl
    (fun s it =>
      w.tab.signalingListeners.foldl
        (fun s l =>
          if some it.room = l.room ∧ some it.recipient = l.uid then
            onSignalingMessage link l it.key it.msg s
          else s)
        s)
    w

/-- Participant `a` has joined `room` alone: its subscription reports its own
record. -/
def aloneInRoom (link : Link) (a b : ParticipantId) (room : RoomId) : Duo :=
  let w := (joinRoom room cameraAndMic true { tab := freshTab a, db := emptyDb }).1
  let w := handle link (Event.childAdded a) w
  { a := w.tab, b := freshTab b, db := w.db }

/-- Participant `b` then joins: `joinRoom` in the second tab, whose new
subscription reports every record under the room; the first tab's subscription
reports the new record of `b`. -/
def thenJoins (link : Link) (a b : ParticipantId) (room : RoomId) : Duo :=
  let d := (aloneInRoom link a b room).onB (fun w => (joinRoom room cameraAndMic true w).1)
  let d := (presentIn room d.db).foldl (fun d p => d.onB (handle link (Event.childAdded p))) d
  d.onA (handle link (Event.childAdded b))

/-- The two-party scenario run to quiescence: after the presence callbacks the
mailboxes are delivered to the first tab, to the second, and to the first again. -/
def twoParty (link : Link) (a b : ParticipantId) (room : RoomId) : Duo :=
  (((thenJoins link a b room).onA (deliverMail link)).onB (deliverMail link)).onA
    (deliverMail link)

/-! ## Sample links -/

/-- A link on which every call succeeds; offers and answers are numbered after the
calls the connection has seen. -/
def permissiveLink : Link :=
  { newSessionDescription := fun _ => true,
    newIceCandidate := fun _ => true,
    createOffer := fun pc => some (100 + pc.calls.length),
    createAnswer := fun pc => some (200 + pc.calls.length),
    setLocalDescription := fun _ _ => true,
    setRemoteDescription := fun _ _ => true,
    addIceCandidate := fun _ _ => true }

/-- A link that behaves like a browser in the respects the handlers depend on:
every call on a closed connection is rejected, and `addIceCandidate` is rejected
while the connection has no remote description. -/
def browserLink : Link :=
  { newSessionDescription := fun _ => true,
    newIceCandidate := fun _ => true,
    createOffer := fun pc => if pc.closed then none else some (100 + pc.calls.length),
    createAnswer := fun pc => if pc.closed then none else some (200 + pc.calls.length),
    setLocalDescription := fun pc _ => !pc.closed,
    setRemoteDescription := fun pc _ => !pc.closed,
    addIceCandidate := fun pc _ => !pc.closed && pc.remoteDescription.isSome }

/-- The link accepts every payload and never rejects an offer/answer call. -/
def Link.Accepting (link : Link) : Prop :=
  (∀ d, link.newSessionDescription d = true) ∧
  (∀ pc, ∃ offer, link.createOffer pc = some offer) ∧
  (∀ pc, ∃ answer, link.createAnswer pc = some answer) ∧
  (∀ pc d, link.setLocalDescription pc d = true) ∧
  (∀ pc d, link.setRemoteDescription pc d = true)

/-! ## Views used in the statements -/

/-- One step of `lastAdded`: a presence event about `p` overrides what is known
about `p`, any other event leaves it. -/
def lastAddedStep (p : ParticipantId) (b : Bool) (e : Event) : Bool :=
  match e with
  | Event.childAdded q => if q = p then true else b
  | Event.childRemoved q => if q = p then false else b
  | Event.signaling _ _ _ => b

/-- Whether the most recent presence event about `p` in `es` is `child_added`
(`false` when there is none): the last-observed room membership. -/
def lastAdded (es : List Event) (p : ParticipantId) : Bool :=
  es.foldl (lastAddedStep p) false

/-- The object pushed by `sendSignalingMessage(p, message)` from the state `w`
while the manager is in `room`. -/
def pushedItem (w : World) (room : RoomId) (p : ParticipantId) (message : Message) : MailItem :=
  { room := room, recipient := p, key := w.db.pushed.length,
    msg := { message with sender := w.tab.currentUser, timestamp := some w.db.serverTime } }

/-- The sender, recipient and type of every message ever pushed. -/
def sentLog (db : Rtdb) : List (Option ParticipantId × ParticipantId × MsgType) :=
  db.pushed.map (fun it => (it.msg.sender, it.recipient, it.msg.type))

/-- Every object in the registry was created after the heap had `n` objects. -/
def CreatedAfter (n : Nat) (w : World) : Prop :=
  n ≤ w.tab.conns.length ∧ ∀ e ∈ w.tab.peerConnections, n ≤ e.2

/-! ## Sample states -/

/-- The argument `{ type: 'ice-candidate', candidate: c }` of `sendSignalingMessage`. -/
def candidateMsg (c : Nat) : Message :=
  { type := MsgType.iceCandidate, payload := c, sender := none, timestamp := none }

/-- The argument `{ type: 'answer', answer: d }` of `sendSignalingMessage`. -/
def answerMsg (d : Nat) : Message :=
  { type := MsgType.answer, payload := d, sender := none, timestamp := none }

/-- The argument `{ type: 'offer', offer: d }` of `sendSignalingMessage`. -/
def offerMsg (d : Nat) : Message :=
  { type := MsgType.offer, payload := d, sender := none, timestamp := none }

/-- Participant `sender`, in `room`, calls `sendSignalingMessage(recipient, message)`
from its own tab: only the shared database changes. -/
def remoteSend (sender : ParticipantId) (room : RoomId) (recipient : ParticipantId)
    (message : Message) (w : World) : World :=
  { w with db :=
      (sendSignalingMessage recipient message
        { tab := { freshTab sender with roomId := some room }, db := w.db }).db }

/-- User 1 has joined room 7 from a fresh tab, with camera and microphone. -/
def inRoom : World :=
  (joinRoom 7 cameraAndMic true { tab := freshTab 1, db := emptyDb }).1

/-- User 1 is in room 7 and has handled the `child_added` of participant 2: one
registry entry, object 0, whose offer has been pushed. -/
def withPeer : World :=
  handle browserLink (Event.childAdded 2) inRoom

/-- Participant 2 pushes the candidates 11 and 12 and then the answer 300 into the
mailbox of user 1, who has a connection to 2 without remote description. -/
def candidatesThenAnswer : World :=
  remoteSend 2 7 1 (answerMsg 300)
    (remoteSend 2 7 1 (candidateMsg 12) (remoteSend 2 7 1 (candidateMsg 11) withPeer))

/-- User 1 is in room 7 with a connection to participant 3 only; participant 2
pushes an offer into the mailbox of user 1. -/
def unsolicitedOffer : World :=
  remoteSend 2 7 1 (offerMsg 500) (handle browserLink (Event.childAdded 3) inRoom)

/-! ## Local candidates and media toggles -/

/-- The `onicecandidate` handler that `createPeerConnection(participantId, ...)`
installs; `candidate` is `event.candidate`, `none` for `null`. -/
def onIceCandidate (participantId : ParticipantId) (candidate : Option Nat) (w : World) :
    World :=
  match candidate with
  | some c => sendIceCandidate participantId c w
  | none => w

/-- `stream.getVideoTracks()[0]` / `stream.getAudioTracks()[0]`: the first track
of the given kind among the tracks of the stream. -/
def firstTrack (kind : TrackKind) (tracks : List MediaStreamTrack) (stream : List Nat) :
    Option Nat :=
  stream.find? (fun i =>
    match tracks[i]? with
    | some t => decide (t.kind = kind)
    | none => false)

/-- `track.enabled = value` on the track number `i`. -/
def setEnabled (tracks : List MediaStreamTrack) (i : Nat) (value : Bool) :
    List MediaStreamTrack :=
  match tracks[i]? with
  | some t => tracks.set i { t with enabled := value }
  | none => tracks

/-- `toggleVideo()`. -/
def toggleVideo (w : World) : World :=
  match w.tab.localStream with
  | none => w
  | some stream =>
    match firstTrack TrackKind.video w.tab.tracks stream with
    | some i =>
      { w with tab := { w.tab with
          isVideoEnabled := !w.tab.isVideoEnabled,
          tracks := setEnabled w.tab.tracks i (!w.tab.isVideoEnabled) } }
    | none => w

/-- `toggleAudio()`. -/
def toggleAudio (w : World) : World :=
  match w.tab.localStream with
  | none => w
  | some stream =>
    match firstTrack TrackKind.audio w.tab.tracks stream with
    | some i =>
      { w with tab := { w.tab with
          isAudioEnabled := !w.tab.isAudioEnabled,
          tracks := setEnabled w.tab.tracks i (!w.tab.isAudioEnabled) } }
    | none => w

/-! ## Study rooms (`src/study-rooms.js`) -/

/-- A document of the Firestore collection `study-rooms`, reduced to the fields
that `joinStudyRoom` reads: `participants` may be missing, and `maxParticipants`
is `none` when it is `NaN` or `undefined` (every comparison with it is false). -/
structure RoomDoc where
  participants : Option (List ParticipantId)
  maxParticipants : Option Int
  deriving DecidableEq, Repr

/-- The page: the field `currentRoom` of `StudyRoomsManager`, the collection
`study-rooms`, whether `window.webrtcManager` exists, and the tab with the shared
database. -/
structure App where
  currentRoom : Option RoomId
  studyRooms : List (RoomId × RoomDoc)
  webrtcManager : Bool
  world : World
  deriving DecidableEq, Repr

/-- `collection('study-rooms').doc(roomId).get()`: `none` when the document does
not exist. -/
def getRoom : List (RoomId × RoomDoc) → RoomId → Option RoomDoc
  | [], _ => none
  | (k, d) :: rest, roomId => if k = roomId then some d else getRoom rest roomId

/-- `FieldValue.arrayUnion(uid)` applied to the field `participants`. -/
def arrayUnion (participants : Option (List ParticipantId)) (uid : ParticipantId) :
    List ParticipantId :=
  if uid ∈ participants.getD [] then participants.getD [] else participants.getD [] ++ [uid]

/-- `doc(roomId).update({ participants: arrayUnion(uid) })`. -/
def addParticipant : List (RoomId × RoomDoc) → RoomId → ParticipantId → List (RoomId × RoomDoc)
  | [], _, _ => []
  | (k, d) :: rest, roomId, uid =>
    if k = roomId then (k, { d with participants := some (arrayUnion d.participants uid) }) :: rest
    else (k, d) :: addParticipant rest roomId uid

/-- The test `currentParticipants.length >= roomData.maxParticipants` of
`joinStudyRoom`, with `currentParticipants = roomData.participants || []`. -/
def roomIsFull (room : RoomDoc) : Bool :=
  match room.maxParticipants with
  | some m => decide (m ≤ ((room.participants.getD []).length : Int))
  | none => false

/-- `showNotification` on the page. -/
def App.notify (text : String) (a : App) : App :=
  { a with world := showNotification text a.world }

/-- `joinStudyRoom(roomId)`.  `getOk` and `updateOk` are the outcomes of the awaited
Firestore `get()` and `update()`, `media` and `setOk` those of the calls made by
`webrtcManager.joinRoom`, whose returned boolean is not looked at.  The final
`setupRoomChat` only registers chat callbacks and is left out.  This is the run in
which the room document is not written by anyone else between the `get()` and the
`update()`; `joinStudyRoomRun` below is the run in which it may be. -/
def joinStudyRoom (roomId : RoomId) (getOk updateOk : Bool)
    (media : Except MediaError (List TrackKind)) (setOk : Bool) (a : App) : App :=
  match a.world.tab.currentUser with
  | none => a.notify "Please sign in to join a room."
  | some uid =>
    if getOk then
      match getRoom a.studyRooms roomId with
      | none => a.notify "Room not found."
      | some room =>
        if roomIsFull room then a.notify "Room is full."
        else if uid ∈ room.participants.getD [] ∨ updateOk then
          let rooms :=
            if uid ∈ room.participants.getD [] then a.studyRooms
            else addParticipant a.studyRooms roomId uid
          let a1 : App := { a with studyRooms := rooms, currentRoom := some roomId }
          if a.webrtcManager then
            { a1 with world := (joinRoom roomId media setOk a1.world).1 }
          else a1
        else a.notify "Failed to join room. Please try again."
    else a.notify "Failed to join room. Please try again."

/-! ## Further views used in the statements -/

/-- The notification that `startLocalStream` shows for a rejected `getUserMedia`. -/
def mediaErrorText (e : MediaError) : String :=
  match e with
  | MediaError.notAllowed =>
    "Camera/microphone access denied. Please allow access and try again."
  | MediaError.notFound => "Camera or microphone not found."
  | MediaError.other => "Failed to access camera/microphone."

/-- The `enabled` flag of the first local track of the given kind, `none` when
there is no local stream or no such track. -/
def localTrackEnabled (kind : TrackKind) (w : World) : Option Bool :=
  match w.tab.localStream with
  | none => none
  | some stream =>
    match firstTrack kind w.tab.tracks stream with
    | some i => (w.tab.tracks[i]?).map (fun t => t.enabled)
    | none => none

/-- Well-formedness of the heap references of a tab: registry entries and
registered mailbox callbacks point to existing connection objects, and a callback
that holds the object of a registry entry was registered for the participant of
that entry. -/
def Wired (w : World) : Prop :=
  (∀ e ∈ w.tab.peerConnections, e.2 < w.tab.conns.length) ∧
  (∀ l ∈ w.tab.signalingListeners, l.peerConnection < w.tab.conns.length) ∧
  (∀ l ∈ w.tab.signalingListeners, ∀ e ∈ w.tab.peerConnections,
    l.peerConnection = e.2 → l.participantId = e.1)

/-! ## Further sample links and states -/

/-- A browser-like link for which the payload 0 is malformed:
`setRemoteDescription` rejects the description 0 and `addIceCandidate` the
candidate 0. -/
def pickyLink : Link :=
  { browserLink with
    setRemoteDescription := fun pc d => !pc.closed && d != 0,
    addIceCandidate := fun pc c => !pc.closed && pc.remoteDescription.isSome && c != 0 }

/-- A fresh tab in which nobody is signed in. -/
def signedOutTab : Tab :=
  { freshTab 1 with currentUser := none }

/-- A fresh tab in which `window.firebaseConfig.rtdb` is undefined. -/
def noDatabaseTab : Tab :=
  { freshTab 1 with rtdb := false }

/-- The page of user 1 with one study room, number 7, holding participant 2 and
room for six. -/
def lobby : App :=
  { currentRoom := none,
    studyRooms := [(7, { participants := some [2], maxParticipants := some 6 })],
    webrtcManager := true,
    world := { tab := freshTab 1, db := emptyDb } }

/-- User 1 has left room 7 and then handled a `child_added` for participant 3 on
the subscription that is still registered: object 1 is an open connection to 3,
with a local offer, while `roomId` is `null`. -/
def peerAfterLeave : World :=
  handle browserLink (Event.childAdded 3) (leaveRoom true withPeer)

/-- User 1, in room 7 with a connection to participant 2, has called `joinRoom(8)`
without leaving. -/
def movedRoom : World :=
  (joinRoom 8 cameraAndMic true withPeer).1

/-- Participant 2 pushes the malformed answer 0 into the mailbox of user 1, who is
in room 7 with a connection to 2. -/
def malformedAnswer : World :=
  remoteSend 2 7 1 (answerMsg 0) withPeer

/-- User 1, in room 7, has handled two `child_added` events for participant 2
(objects 0 and 1, both open, each with its own mailbox callback); participant 2
then pushes the answer 300. -/
def answerAfterDuplicateAdd : World :=
  remoteSend 2 7 1 (answerMsg 300) (handle browserLink (Event.childAdded 2) withPeer)

/-- Participant 2 pushes the candidate 11 into the mailbox of user 1, whose
connection to 2 has no remote description. -/
def earlyCandidate : World :=
  remoteSend 2 7 1 (candidateMsg 11) withPeer

/-- From a fresh tab, user 1 joins room 7, switches the camera and the microphone
off with `toggleVideo()` and `toggleAudio()`, leaves, and joins room 7 again. -/
def rejoinedMuted : World :=
  (joinRoom 7 cameraAndMic true (leaveRoom true (toggleAudio (toggleVideo inRoom)))).1

/-! ## Runs of the manager -/

/-- Something that happens in the tab: a call of a public method of the manager,
or the invocation of a callback it has installed. -/
inductive Action
  | joinRoom (roomId : RoomId) (media : Except MediaError (List TrackKind)) (setOk : Bool)
  | leaveRoom (removeOk : Bool)
  | toggleVideo
  | toggleAudio
  | iceCandidate (participantId : ParticipantId) (candidate : Option Nat)
  | callback (e : Event)

/-- Run one action. -/
def act (link : Link) (a : Action) (w : World) : World :=
  match a with
  | Action.joinRoom roomId media setOk => (joinRoom roomId media setOk w).1
  | Action.leaveRoom removeOk => leaveRoom removeOk w
  | Action.toggleVideo => toggleVideo w
  | Action.toggleAudio => toggleAudio w
  | Action.iceCandidate p c => onIceCandidate p c w
  | Action.callback e => handle link e w

/-- Run actions one after another. -/
def exec (link : Link) (actions : List Action) (w : World) : World :=
  actions.foldl (fun s a => act link a s) w

/-- The action is not a `child_added` callback for a remote participant who has a
registry entry in `w`. -/
def addsFresh (a : Action) (w : World) : Bool :=
  match a with
  | Action.callback (Event.childAdded p) =>
    decide (some p = w.tab.currentUser) || (mapGet w.tab.peerConnections p).isNone
  | _ => true

/-- No `child_added` callback of the run is invoked for a remote participant who
has a registry entry at that moment. -/
def FreshAdds (link : Link) : List Action → World → Bool
  | [], _ => true
  | a :: rest, w => addsFresh a w && FreshAdds link rest (act link a w)

/-- The connection objects created so far and not closed. -/
def openConnections (w : World) : List Nat :=
  (List.range w.tab.conns.length).filter (fun i =>
    match w.tab.conns[i]? with
    | some pc => !pc.closed
    | none => false)

/-- The registry maps different participants to different connection objects, all
of them open. -/
def RegistryOpen (w : World) : Prop :=
  (keys w.tab.peerConnections).Nodup ∧
  (w.tab.peerConnections.map Prod.snd).Nodup ∧
  ∀ e ∈ w.tab.peerConnections, e.2 ∈ openConnections w

/-- Every open connection object is stored in the registry. -/
def NoOrphan (w : World) : Prop :=
  ∀ i ∈ openConnections w, i ∈ w.tab.peerConnections.map Prod.snd

/-- User 1 joins room 7 and the `child_added` callback for participant 2 runs. -/
def joinThenAdd : List Action :=
  [Action.joinRoom 7 cameraAndMic true, Action.callback (Event.childAdded 2)]

/-- User 1, in room 7, has handled two `child_added` events for participant 2. -/
def duplicateAdd : World :=
  handle browserLink (Event.childAdded 2) withPeer

/-! ## Suspension points of `joinRoom` and `createPeerConnection` -/

/-- `joinRoom(roomId)` up to its first suspension: `this.roomId = roomId`, then
`startLocalStream` calls `getUserMedia` and awaits its promise. -/
def joinRoomBegin (roomId : RoomId) (w : World) : World :=
  { w with tab := { w.tab with roomId := some roomId } }

/-- The rest of `joinRoom`, run when the promise of `getUserMedia` settles with
`media`; `setOk` is the outcome of the awaited `set()`. -/
def joinRoomResume (media : Except MediaError (List TrackKind)) (setOk : Bool) (w : World) :
    World × Bool :=
  match startLocalStream media w with
  | (w2, false) => (showNotification "Failed to join video chat." w2, false)
  | (w2, true) =>
    match addToRoomParticipants setOk (listenForParticipants w2) with
    | (w3, false) => (showNotification "Failed to join video chat." w3, false)
    | (w3, true) => (w3, true)

/-- `createPeerConnection(participantId, true)` up to its first suspension: the
object is built, stored in the registry and given its callbacks, `createOffer()`
is called on it and its promise awaited. -/
def createPeerConnectionBegin (participantId : ParticipantId) (w : World) : World :=
  let fresh := w.tab.conns.length
  let pc := newPeerConnection w.tab.localStream true
  let w1 : World := { w with tab := { w.tab with
    conns := w.tab.conns ++ [pc],
    peerConnections := mapSet w.tab.peerConnections participantId fresh } }
  let w2 := listenForSignalingMessages participantId fresh w1
  putConn fresh { pc with calls := pc.calls ++ [LinkCall.createOffer] } w2

/-- The rest of `createPeerConnection(participantId, true)`, run when the promise
of `createOffer()` settles with `offer` (`none` when it is rejected):
`setLocalDescription(offer)` on the object `peerConnection` that the call closed
over, then `sendSignalingMessage`. -/
def createPeerConnectionResume (link : Link) (participantId : ParticipantId)
    (peerConnection : Nat) (offer : Option Nat) (w : World) : World :=
  match offer, w.tab.conns[peerConnection]? with
  | some offer, some pc =>
    let pc2 := { pc with calls := pc.calls ++ [LinkCall.setLocalDescription offer] }
    if link.setLocalDescription pc offer then
      sendSignalingMessage participantId
        { type := MsgType.offer, payload := offer, sender := none, timestamp := none }
        (putConn peerConnection { pc2 with localDescription := some offer } w)
    else putConn peerConnection pc2 w
  | _, _ => w

/-- The interleaving in which `leaveRoom()` runs to completion while `joinRoom(roomId)`
is suspended in `getUserMedia`, and `joinRoom` then runs to its end. -/
def leaveDuringJoin (roomId : RoomId) (media : Except MediaError (List TrackKind))
    (setOk : Bool) (w : World) : World × Bool :=
  joinRoomResume media setOk (leaveRoom true (joinRoomBegin roomId w))

/-- The interleaving in which `leaveRoom()` runs to completion while
`createPeerConnection(participantId, true)` is suspended in `createOffer()`, and
`createPeerConnection` then runs to its end. -/
def leaveDuringOffer (link : Link) (participantId : ParticipantId) (offer : Option Nat)
    (w : World) : World :=
  createPeerConnectionResume link participantId w.tab.conns.length offer
    (leaveRoom true (createPeerConnectionBegin participantId w))

/-- From a fresh tab, user 1 calls `joinRoom(7)`; while `getUserMedia` is pending
`leaveRoom()` runs to completion; then `getUserMedia` resolves with camera and
microphone. -/
def leftWhileJoining : World × Bool :=
  leaveDuringJoin 7 cameraAndMic true { tab := freshTab 1, db := emptyDb }

/-! ## JavaScript numbers

The numbers of `calculateCompatibility` are IEEE 754 doubles.  They are finite,
non-negative, and far from the ends of the exponent range, so a number is held as a
fraction of natural numbers and every arithmetic operation rounds its exact result
to the nearest number with a 53-bit significand, ties to the even significand.
Overflow, subnormal numbers, `NaN` and the sign of zero are left out. -/

/-- A finite non-negative number, held as the fraction `num / den`. -/
structure JsNumber where
  num : Nat
  den : Nat
  deriving DecidableEq, Repr

/-- The integer `n` as a number (exact below `2 ^ 53`). -/
def JsNumber.ofNat (n : Nat) : JsNumber :=
  { num := n, den := 1 }

/-- The value of the fraction. -/
def JsNumber.toRat (x : JsNumber) : ℚ :=
  (x.num : ℚ) / (x.den : ℚ)

/-- Count the binary digits of `n`, with `fuel` steps at most. -/
def bitsAux : Nat → Nat → Nat
  | 0, _ => 0
  | fuel + 1, n => if n = 0 then 0 else bitsAux fuel (n / 2) + 1

/-- The number of binary digits of `n`. -/
def bits (n : Nat) : Nat :=
  bitsAux n n

/-- The fraction times `2 ^ s`. -/
def JsNumber.shift (x : JsNumber) (s : Int) : JsNumber :=
  if 0 ≤ s then { num := x.num * 2 ^ s.toNat, den := x.den }
  else { num := x.num, den := x.den * 2 ^ (-s).toNat }

/-- The integer nearest to `n / d`, the even one of the two in a tie. -/
def roundHalfEven (n d : Nat) : Nat :=
  if 2 * (n % d) < d then n / d
  else if d < 2 * (n % d) then n / d + 1
  else if n / d % 2 = 0 then n / d else n / d + 1

/-- The exponent `s` for which `2 ^ 52 ≤ x * 2 ^ s < 2 ^ 53`, for positive `x`: the
difference of the digit counts gives it up to one, and a comparison settles it. -/
def JsNumber.scale (x : JsNumber) : Int :=
  let s0 : Int := 53 + (bits x.den : Int) - (bits x.num : Int)
  if 2 ^ 53 * (x.shift s0).den ≤ (x.shift s0).num then s0 - 1 else s0

/-- Rounding to double precision: the significand is `x * 2 ^ s` rounded to the
nearest integer, ties to even. -/
def JsNumber.toDouble (x : JsNumber) : JsNumber :=
  if x.num = 0 then { num := 0, den := 1 }
  else
    JsNumber.shift
      { num := roundHalfEven (x.shift x.scale).num (x.shift x.scale).den, den := 1 }
      (-x.scale)

/-- The sum `x + y` of two numbers. -/
def JsNumber.add (x y : JsNumber) : JsNumber :=
  JsNumber.toDouble { num := x.num * y.den + y.num * x.den, den := x.den * y.den }

/-- The product `x * y` of two numbers. -/
def JsNumber.mul (x y : JsNumber) : JsNumber :=
  JsNumber.toDouble { num := x.num * y.num, den := x.den * y.den }

/-- The quotient `x / y` of two numbers, `y` not zero. -/
def JsNumber.div (x y : JsNumber) : JsNumber :=
  JsNumber.toDouble { num := x.num * y.den, den := x.den * y.num }

/-- `Math.round(x)`: the integer nearest to `x`, the larger one in a tie. -/
def mathRound (x : JsNumber) : Nat :=
  (2 * x.num + x.den) / (2 * x.den)

/-- The number `X` is the value `x` up to `k` roundings, each of relative error at
most `2 ^ (-53)`. -/
def Near (k : Nat) (X : JsNumber) (x : ℚ) : Prop :=
  0 < X.den ∧ x * (1 - 1 / 2 ^ 53) ^ k ≤ X.toRat ∧ X.toRat ≤ x * (1 + 1 / 2 ^ 53) ^ k

/-! ## Study preferences and compatibility (`src/matching.js`, `src/dashboard.js`) -/

/-- The `preferences` object of a user document; a missing field is `none`. -/
structure Preferences where
  subjects : Option (List String)
  studyTimes : Option (List String)
  studyStyle : Option String
  deriving DecidableEq, Repr

/-- The expression `list?.length || 1`. -/
def lengthOrOne (list : Option (List String)) : Nat :=
  match list with
  | some l => if l.length = 0 then 1 else l.length
  | none => 1

/-- `MatchingManager.getCommonItems(array1, array2)`. -/
def MatchingManager.getCommonItems (array1 array2 : List String) : List String :=
  array1.filter (fun item => decide (item ∈ array2))

/-- `MatchingManager.calculateCompatibility(userPrefs, otherPrefs)` of
`src/matching.js`. -/
def MatchingManager.calculateCompatibility (userPrefs otherPrefs : Preferences) : Nat :=
  let score := JsNumber.ofNat 0
  let maxScore := JsNumber.ofNat 0
  let subjectWeight := JsNumber.ofNat 40
  let commonSubjects :=
    MatchingManager.getCommonItems (userPrefs.subjects.getD []) (otherPrefs.subjects.getD [])
  let subjectScore :=
    if 0 < commonSubjects.length then
      ((JsNumber.ofNat commonSubjects.length).div
        (JsNumber.ofNat
          (max (lengthOrOne userPrefs.subjects) (lengthOrOne otherPrefs.subjects)))).mul
        subjectWeight
    else JsNumber.ofNat 0
  let score := score.add subjectScore
  let maxScore := maxScore.add subjectWeight
  let timeWeight := JsNumber.ofNat 30
  let commonTimes :=
    MatchingManager.getCommonItems (userPrefs.studyTimes.getD []) (otherPrefs.studyTimes.getD [])
  let timeScore :=
    if 0 < commonTimes.length then
      ((JsNumber.ofNat commonTimes.length).div
        (JsNumber.ofNat
          (max (lengthOrOne userPrefs.studyTimes) (lengthOrOne otherPrefs.studyTimes)))).mul
        timeWeight
    else JsNumber.ofNat 0
  let score := score.add timeScore
  let maxScore := maxScore.add timeWeight
  let styleWeight := JsNumber.ofNat 30
  let styleScore :=
    if userPrefs.studyStyle = otherPrefs.studyStyle then styleWeight else JsNumber.ofNat 0
  let score := score.add styleScore
  let maxScore := maxScore.add styleWeight
  mathRound ((score.div maxScore).mul (JsNumber.ofNat 100))


/-- `DashboardManager.getCommonItems(array1, array2)`. -/
def DashboardManager.getCommonItems (array1 array2 : List String) : List String :=
  array1.filter (fun item => decide (item ∈ array2))

/-- `DashboardManager.calculateCompatibility(userPrefs, otherPrefs)` of
`src/dashboard.js`. -/
def DashboardManager.calculateCompatibility (userPrefs otherPrefs : Preferences) : Nat :=
  let score := JsNumber.ofNat 0
  let maxScore := JsNumber.ofNat 0
  let subjectWeight := JsNumber.ofNat 40
  let commonSubjects :=
    DashboardManager.getCommonItems (userPrefs.subjects.getD []) (otherPrefs.subjects.getD [])
  let subjectScore :=
    if 0 < commonSubjects.length then
      ((JsNumber.ofNat commonSubjects.length).div
        (JsNumber.ofNat
          (max (lengthOrOne userPrefs.subjects) (lengthOrOne otherPrefs.subjects)))).mul
        subjectWeight
    else JsNumber.ofNat 0
  let score := score.add subjectScore
  let maxScore := maxScore.add subjectWeight
  let timeWeight := JsNumber.ofNat 30
  let commonTimes :=
    DashboardManager.getCommonItems (userPrefs.studyTimes.getD []) (otherPrefs.studyTimes.getD [])
  let timeScore :=
    if 0 < commonTimes.length then
      ((JsNumber.ofNat commonTimes.length).div
        (JsNumber.ofNat
          (max (lengthOrOne userPrefs.studyTimes) (lengthOrOne otherPrefs.studyTimes)))).mul
        timeWeight
    else JsNumber.ofNat 0
  let score := score.add timeScore
  let maxScore := maxScore.add timeWeight
  let styleWeight := JsNumber.ofNat 30
  let styleScore :=
    if userPrefs.studyStyle = otherPrefs.studyStyle then styleWeight else JsNumber.ofNat 0
  let score := score.add styleScore
  let maxScore := maxScore.add styleWeight
  mathRound ((score.div maxScore).mul (JsNumber.ofNat 100))


/-- The ratio of the claim: the number of entries of `mine` that occur in `theirs`,
divided by the largest of the two lengths and 1; a missing list counts as empty. -/
def overlapRatio (mine theirs : Option (List String)) : ℚ :=
  (((mine.getD []).filter (fun item => decide (item ∈ theirs.getD []))).length : ℚ) /
    ((max (max (mine.getD []).length (theirs.getD []).length) 1 : Nat) : ℚ)

/-- The weighted sum `40 s + 30 t + 30 e` of the claim, in exact arithmetic. -/
def weightedScore (u o : Preferences) : ℚ :=
  40 * overlapRatio u.subjects o.subjects + 30 * overlapRatio u.studyTimes o.studyTimes +
    30 * (if u.studyStyle = o.studyStyle then 1 else 0)

/-- Sample preferences: two subjects, four study times, group study. -/
def prefsA : Preferences :=
  { subjects := some ["Math", "Physics"],
    studyTimes := some ["Morning", "Evening", "Night", "Weekend"],
    studyStyle := some "group" }

/-- Preferences sharing one of two subjects, one of four study times and the
study style with `prefsA`: the weighted sum is `20 + 7.5 + 30 = 57.5`. -/
def prefsB : Preferences :=
  { subjects := some ["Math", "Chemistry"], studyTimes := some ["Morning"],
    studyStyle := some "group" }

/-! ## Matches and recommendations -/

/-- A document of the Firestore collection `users`, reduced to the fields read
here. -/
structure UserDoc where
  uid : ParticipantId
  preferences : Option Preferences
  deriving DecidableEq, Repr

/-- An entry `{ ...userData, compatibility }` of `potentialMatches`. -/
structure PotentialMatch where
  userData : UserDoc
  compatibility : Nat
  deriving DecidableEq, Repr

/-- `potentialMatches.sort((a, b) => b.compatibility - a.compatibility)`: the sort
of `Array.prototype.sort` is stable, and the comparator orders by decreasing
compatibility. -/
def sortByCompatibility (l : List PotentialMatch) : List PotentialMatch :=
  l.insertionSort (fun a b => b.compatibility ≤ a.compatibility)

/-- The query `collection('users').where('uid', '!=', uid)`; the collection is
listed in the order in which Firestore returns its documents. -/
def usersOtherThan (users : List UserDoc) (uid : ParticipantId) : List UserDoc :=
  users.filter (fun d => d.uid ≠ uid)

/-- The `forEach` loop of `findMatches`: the array `potentialMatches` it fills. -/
def MatchingManager.collectMatches (userPreferences : Preferences)
    (usersSnapshot : List UserDoc) : List PotentialMatch :=
  usersSnapshot.filterMap (fun userData =>
    match userData.preferences with
    | some preferences =>
      if 0 < MatchingManager.calculateCompatibility userPreferences preferences then
        some { userData := userData,
               compatibility :=
                 MatchingManager.calculateCompatibility userPreferences preferences }
      else none
    | none => none)

/-- `MatchingManager.findMatches()`: the value of `this.potentialMatches` when it
returns.  `getOk` is the outcome of the awaited `get()`. -/
def MatchingManager.findMatches (currentUser : Option ParticipantId)
    (userPreferences : Option Preferences) (getOk : Bool) (users : List UserDoc)
    (potentialMatches : List PotentialMatch) : List PotentialMatch :=
  match currentUser, userPreferences with
  | some uid, some preferences =>
    if getOk then
      (sortByCompatibility
        (MatchingManager.collectMatches preferences (usersOtherThan users uid))).take 10
    else potentialMatches
  | _, _ => potentialMatches

/-- The users that `findMatches` has to rank: the documents of the collection, in
its order, whose `uid` is not that of the current user and whose preferences have a
positive compatibility with `userPreferences`. -/
def eligibleUsers (userPreferences : Preferences) (uid : ParticipantId)
    (users : List UserDoc) : List UserDoc :=
  users.filter (fun d =>
    decide (d.uid ≠ uid) &&
      match d.preferences with
      | some p => decide (0 < MatchingManager.calculateCompatibility userPreferences p)
      | none => false)

/-- The `forEach` loop of `loadRecommendedPeers`: the array `potentialMatches` it
fills.  The source line reads
`if (compatibility > 30) { // At least 30% compatibility`. -/
def DashboardManager.collectCandidates (userPrefs : Preferences)
    (usersSnapshot : List UserDoc) : List PotentialMatch :=
  usersSnapshot.filterMap (fun userData =>
    match userData.preferences with
    | some preferences =>
      if 30 < DashboardManager.calculateCompatibility userPrefs preferences then
        some { userData := userData,
               compatibility :=
                 DashboardManager.calculateCompatibility userPrefs preferences }
      else none
    | none => none)

/-- `DashboardManager.loadRecommendedPeers()`: the value of
`this.dashboardData.recommendedPeers` when it returns.  `userProfile` is what the
awaited `getUserProfile()` returns and `getOk` the outcome of the awaited `get()`
of the query, which carries `.limit(20)`. -/
def DashboardManager.loadRecommendedPeers (currentUser : Option ParticipantId)
    (userProfile : Option UserDoc) (getOk : Bool) (users : List UserDoc)
    (recommendedPeers : List PotentialMatch) : List PotentialMatch :=
  match currentUser, userProfile with
  | some uid, some profile =>
    match profile.preferences with
    | some userPrefs =>
      if getOk then
        (sortByCompatibility
          (DashboardManager.collectCandidates userPrefs
            ((usersOtherThan users uid).take 20))).take 3
      else recommendedPeers
    | none => recommendedPeers
  | _, _ => recommendedPeers

/-- Preferences that share only the study style with `prefsA`: the weighted sum is
`0 + 0 + 30 = 30`. -/
def prefsC : Preferences :=
  { subjects := some ["History"], studyTimes := some ["Afternoon"],
    studyStyle := some "group" }

/-- A collection of users: user 1 with `prefsA`, user 2 with `prefsB`, user 3
without preferences, user 4 with `prefsA`, and user 5 with `prefsC`. -/
def sampleUsers : List UserDoc :=
  [{ uid := 1, preferences := some prefsA }, { uid := 2, preferences := some prefsB },
   { uid := 3, preferences := none }, { uid := 4, preferences := some prefsA },
   { uid := 5, preferences := some prefsC }]

/-! ## The room card (`src/study-rooms.js`) -/

/-- The join button of the card rendered by `createRoomCardHTML(roomId, room)`: its
`disabled` attribute and its label.  The rest of the card is left out. -/
structure JoinButton where
  disabled : Bool
  label : String
  deriving DecidableEq, Repr

/-- `createRoomCardHTML(roomId, room)`, reduced to the join button.
`participantCount` is `room.participants?.length || 0` and `maxParticipants` is
`room.maxParticipants || 6`, which is 6 when the field is missing, `NaN` or 0. -/
def createRoomCardHTML (room : RoomDoc) : JoinButton :=
  let participantCount : Int :=
    match room.participants with
    | some l => l.length
    | none => 0
  let maxParticipants : Int :=
    match room.maxParticipants with
    | some m => if m = 0 then 6 else m
    | none => 6
  let isRoomFull := decide (maxParticipants ≤ participantCount)
  { disabled := isRoomFull, label := if isRoomFull then "Room Full" else "Join Room" }

/-- A room created with capacity 0 by user 1, who is its only participant. -/
def zeroCapacityRoom : RoomDoc :=
  { participants := some [1], maxParticipants := some 0 }

/-- A room created with an empty capacity field (`parseInt` gives `NaN`), holding
six participants. -/
def noCapacityRoom : RoomDoc :=
  { participants := some [1, 2, 3, 4, 5, 6], maxParticipants := none }

/-- The page of user 9 with the two rooms above, numbers 7 and 8. -/
def oddLobby : App :=
  { currentRoom := none,
    studyRooms := [(7, zeroCapacityRoom), (8, noCapacityRoom)],
    webrtcManager := true,
    world := { tab := freshTab 9, db := emptyDb } }

/-! ## A second sender -/

/-- The tab of participant 2, in room 7, sharing the database of `withPeer`. -/
def peerTab : World :=
  { tab := { freshTab 2 with roomId := some 7 }, db := withPeer.db }

/-- An answer whose payload object carries `from` and `timestamp` fields of its
own. -/
def forgedAnswer : Message :=
  { type := MsgType.answer, payload := 300, sender := some 9, timestamp := some 42 }

/-! ## Suspension points of `joinStudyRoom` -/

/-- The rest of `joinStudyRoom(roomId)`, run when the promise of `get()` resolves
with the snapshot `roomDoc` (`none` when the document does not exist); `uid` is the
user read before the call.  The two tests look at `roomData`, the data of the
snapshot, while `update()` with `arrayUnion` acts on the document as it is in the
collection `a.studyRooms` when the update is applied. -/
def joinStudyRoomResume (roomId : RoomId) (uid : ParticipantId) (roomDoc : Option RoomDoc)
    (updateOk : Bool) (media : Except MediaError (List TrackKind)) (setOk : Bool)
    (a : App) : App :=
  match roomDoc with
  | none => a.notify "Room not found."
  | some roomData =>
    if roomIsFull roomData then a.notify "Room is full."
    else if uid ∈ roomData.participants.getD [] ∨ updateOk then
      let rooms :=
        if uid ∈ roomData.participants.getD [] then a.studyRooms
        else addParticipant a.studyRooms roomId uid
      let a1 : App := { a with studyRooms := rooms, currentRoom := some roomId }
      if a.webrtcManager then
        { a1 with world := (joinRoom roomId media setOk a1.world).1 }
      else a1
    else a.notify "Failed to join room. Please try again."

/-- A run of `joinStudyRoom(roomId)` during which other pages write to the
collection: `a.studyRooms` is the collection as the `get()` of the call reads it,
and `studyRooms1` is the collection as it is when the `update()` of the call is
applied (when the call makes no update: as it is when the call ends). -/
def joinStudyRoomRun (roomId : RoomId) (getOk updateOk : Bool)
    (media : Except MediaError (List TrackKind)) (setOk : Bool)
    (studyRooms1 : List (RoomId × RoomDoc)) (a : App) : App :=
  let a1 : App := { a with studyRooms := studyRooms1 }
  match a.world.tab.currentUser with
  | none => a1.notify "Please sign in to join a room."
  | some uid =>
    if getOk then
      joinStudyRoomResume roomId uid (getRoom a.studyRooms roomId) updateOk media setOk a1
    else a1.notify "Failed to join room. Please try again."

/-- The page of user `uid` with one study room, number 7, holding participant 2 and
room for two. -/
def smallLobby (uid : ParticipantId) : App :=
  { currentRoom := none,
    studyRooms := [(7, { participants := some [2], maxParticipants := some 2 })],
    webrtcManager := true,
    world := { tab := freshTab uid, db := emptyDb } }

/-! ## Runs in which `joinRoom` is suspended -/

/-- Whether the action is a call of `joinRoom` or of `leaveRoom`, the two methods
that assign `this.roomId`. -/
def Action.entersOrLeaves : Action → Bool
  | Action.joinRoom _ _ _ => true
  | Action.leaveRoom _ => true
  | _ => false

/-- `addToRoomParticipants()` up to its suspension: the two guards, then the
reference `participantsRef` to `room-participants/{this.roomId}/{user.uid}` on which
`set()` is called and its promise awaited.  `none` when a guard makes the method
return. -/
def addToRoomParticipantsBegin (w : World) : Option (RoomId × ParticipantId) :=
  match w.tab.rtdb, w.tab.roomId, w.tab.currentUser with
  | true, some room, some uid => some (room, uid)
  | _, _, _ => none

/-- The rest of `addToRoomParticipants()`, run when the promise of `set()` on
`participantsRef` settles: when it resolves the record exists and
`participantsRef.onDisconnect().remove()` is registered; when it is rejected the
method throws (second component `false`). -/
def addToRoomParticipantsResume (participantsRef : RoomId × ParticipantId) (setOk : Bool)
    (w : World) : World × Bool :=
  if setOk then
    ({ w with db := { w.db with
        roomParticipants := dbSet w.db.roomParticipants participantsRef.1 participantsRef.2,
        onDisconnect := w.db.onDisconnect ++ [participantsRef] } }, true)
  else (w, false)

/-- A run of `joinRoom(roomId)` together with what else happens in the tab while it
is suspended.  After `this.roomId = roomId` the call waits for `getUserMedia`, and
the actions `during1` run; when the promise settles with `media` the call goes on
with the rest of `startLocalStream` and with `listenForParticipants`, calls `set()`
in `addToRoomParticipants` and waits again, and the actions `during2` run; when that
promise settles with `setOk` the call runs to its end.  The second component is the
returned boolean. -/
def joinRoomRun (link : Link) (roomId : RoomId) (media : Except MediaError (List TrackKind))
    (setOk : Bool) (during1 during2 : List Action) (w : World) : World × Bool :=
  match startLocalStream media (exec link during1 (joinRoomBegin roomId w)) with
  | (w2, false) => (showNotification "Failed to join video chat." w2, false)
  | (w2, true) =>
    match addToRoomParticipantsBegin (listenForParticipants w2) with
    | none => (listenForParticipants w2, true)
    | some participantsRef =>
      match addToRoomParticipantsResume participantsRef setOk
          (exec link during2 (listenForParticipants w2)) with
      | (w3, false) => (showNotification "Failed to join video chat." w3, false)
      | (w3, true) => (w3, true)

/-- The kind of every track ever created in the tab, and whether it has been
stopped. -/
def trackStates (w : World) : List (TrackKind × Bool) :=
  w.tab.tracks.map (fun t => (t.kind, t.stopped))

/-- The part of the state that `joinRoom` reads and writes and that the callbacks,
the toggles and the `onicecandidate` handler leave alone. -/
structure Session where
  roomId : Option RoomId
  rtdb : Bool
  currentUser : Option ParticipantId
  localStream : Option (List Nat)
  trackStates : List (TrackKind × Bool)
  participantListeners : List RoomId
  roomParticipants : List (RoomId × ParticipantId)
  onDisconnect : List (RoomId × ParticipantId)
  deriving DecidableEq, Repr

/-- The session part of a state. -/
def session (w : World) : Session :=
  { roomId := w.tab.roomId, rtdb := w.tab.rtdb, currentUser := w.tab.currentUser,
    localStream := w.tab.localStream, trackStates := trackStates w,
    participantListeners := w.tab.participantListeners,
    roomParticipants := w.db.roomParticipants, onDisconnect := w.db.onDisconnect }

/-! # Theorems -/

/-! ## The registry as a map -/

theorem mem_keys_mapSet (m : List (ParticipantId × Nat)) (p q : ParticipantId) (v : Nat) :
    q ∈ keys (mapSet m p v) ↔ q = p ∨ q ∈ keys m := by
  induction m with
  | nil => simp [mapSet, keys]
  | cons e rest ih =>
    obtain ⟨k, x⟩ := e
    by_cases hk : k = p
    · subst hk
      simp [mapSet, keys]
    · simp only [keys] at ih
      simp [mapSet, keys, hk, ih]
      tauto

theorem mem_keys_mapDelete (m : List (ParticipantId × Nat)) (p q : ParticipantId) :
    q ∈ keys (mapDelete m p) ↔ q ≠ p ∧ q ∈ keys m := by
  simp only [keys, mapDelete, List.mem_map, List.mem_filter]
  constructor
  · rintro ⟨e, ⟨he, hne⟩, rfl⟩
    exact ⟨by simpa using hne, e, he, rfl⟩
  · rintro ⟨hne, e, he, rfl⟩
    exact ⟨e, ⟨he, by simpa using hne⟩, rfl⟩

theorem mapGet_eq_none_iff (m : List (ParticipantId × Nat)) (p : ParticipantId) :
    mapGet m p = none ↔ p ∉ keys m := by
  induction m with
  | nil => simp [mapGet, keys]
  | cons e rest ih =>
    obtain ⟨k, x⟩ := e
    by_cases hk : k = p
    · simp [mapGet, keys, hk]
    · simp only [keys] at ih
      simp [mapGet, keys, hk, ih, Ne.symm hk]

theorem mapGet_mapDelete_self (m : List (ParticipantId × Nat)) (p : ParticipantId) :
    mapGet (mapDelete m p) p = none := by
  rw [mapGet_eq_none_iff, mem_keys_mapDelete]
  simp

theorem mapGet_mapDelete_of_ne (m : List (ParticipantId × Nat)) (p q : ParticipantId)
    (h : q ≠ p) : mapGet (mapDelete m p) q = mapGet m q := by
  induction m with
  | nil => simp [mapGet, mapDelete]
  | cons e rest ih =>
    obtain ⟨k, x⟩ := e
    unfold mapDelete at ih ⊢
    rw [List.filter_cons]
    by_cases hk : k = p
    · have hkq : ¬ k = q := fun hkq => h (hkq ▸ hk)
      simp only [hk, ne_eq, not_true_eq_false, decide_False, Bool.false_eq_true, if_false]
      rw [ih]
      have hpq : ¬ p = q := fun e => h e.symm
      simp [mapGet, hpq]
    · simp only [hk, ne_eq, not_false_eq_true, decide_True, if_true]
      simp only [mapGet, ih]

theorem mapGet_mapSet_self (m : List (ParticipantId × Nat)) (p : ParticipantId) (v : Nat) :
    mapGet (mapSet m p v) p = some v := by
  induction m with
  | nil => simp [mapGet, mapSet]
  | cons e rest ih =>
    obtain ⟨k, x⟩ := e
    by_cases hk : k = p
    · simp [mapGet, mapSet, hk]
    · simp [mapGet, mapSet, hk, ih]

theorem mapGet_mapSet_of_ne (m : List (ParticipantId × Nat)) (p q : ParticipantId) (v : Nat)
    (h : q ≠ p) : mapGet (mapSet m p v) q = mapGet m q := by
  induction m with
  | nil => simp [mapGet, mapSet, Ne.symm h]
  | cons e rest ih =>
    obtain ⟨k, x⟩ := e
    by_cases hk : k = p
    · subst hk
      simp [mapGet, mapSet, Ne.symm h]
    · simp only [mapSet, hk, if_false, mapGet, ih]

theorem keys_mapSet_of_mem (m : List (ParticipantId × Nat)) (p : ParticipantId) (v : Nat)
    (h : p ∈ keys m) : keys (mapSet m p v) = keys m := by
  induction m with
  | nil => simp [keys] at h
  | cons e rest ih =>
    obtain ⟨k, x⟩ := e
    by_cases hk : k = p
    · simp [mapSet, keys, hk]
    · have hrest : p ∈ keys rest := by
        simp only [keys, List.map_cons, List.mem_cons] at h
        rcases h with h | h
        · exact absurd h.symm hk
        · exact h
      simp only [keys] at ih
      simp [mapSet, keys, hk, ih hrest]

/-! ## What each step leaves alone -/

@[simp] theorem sendSignalingMessage_tab (p : ParticipantId) (m : Message) (w : World) :
    (sendSignalingMessage p m w).tab = w.tab := by
  unfold sendSignalingMessage
  split <;> rfl

@[simp] theorem putConn_db (i : Nat) (pc : RTCPeerConnection) (w : World) :
    (putConn i pc w).db = w.db := rfl

@[simp] theorem putConn_peerConnections (i : Nat) (pc : RTCPeerConnection) (w : World) :
    (putConn i pc w).tab.peerConnections = w.tab.peerConnections := rfl

@[simp] theorem putConn_roomId (i : Nat) (pc : RTCPeerConnection) (w : World) :
    (putConn i pc w).tab.roomId = w.tab.roomId := rfl

@[simp] theorem putConn_currentUser (i : Nat) (pc : RTCPeerConnection) (w : World) :
    (putConn i pc w).tab.currentUser = w.tab.currentUser := rfl

@[simp] theorem putConn_rtdb (i : Nat) (pc : RTCPeerConnection) (w : World) :
    (putConn i pc w).tab.rtdb = w.tab.rtdb := rfl

@[simp] theorem putConn_conns (i : Nat) (pc : RTCPeerConnection) (w : World) :
    (putConn i pc w).tab.conns = w.tab.conns.set i pc := rfl

@[simp] theorem removeSnapshot_tab (l : SignalingListener) (key : Nat) (w : World) :
    (removeSnapshot l key w).tab = w.tab := rfl

@[simp] theorem removeSnapshot_pushed (l : SignalingListener) (key : Nat) (w : World) :
    (removeSnapshot l key w).db.pushed = w.db.pushed := rfl

@[simp] theorem listenForSignalingMessages_db (p : ParticipantId) (i : Nat) (w : World) :
    (listenForSignalingMessages p i w).db = w.db := by
  unfold listenForSignalingMessages
  split <;> rfl

@[simp] theorem listenForSignalingMessages_peerConnections (p : ParticipantId) (i : Nat)
    (w : World) :
    (listenForSignalingMessages p i w).tab.peerConnections = w.tab.peerConnections := by
  unfold listenForSignalingMessages
  split <;> rfl

@[simp] theorem listenForSignalingMessages_conns (p : ParticipantId) (i : Nat) (w : World) :
    (listenForSignalingMessages p i w).tab.conns = w.tab.conns := by
  unfold listenForSignalingMessages
  split <;> rfl

@[simp] theorem listenForSignalingMessages_roomId (p : ParticipantId) (i : Nat) (w : World) :
    (listenForSignalingMessages p i w).tab.roomId = w.tab.roomId := by
  unfold listenForSignalingMessages
  split <;> rfl

@[simp] theorem listenForSignalingMessages_currentUser (p : ParticipantId) (i : Nat)
    (w : World) :
    (listenForSignalingMessages p i w).tab.currentUser = w.tab.currentUser := by
  unfold listenForSignalingMessages
  split <;> rfl

@[simp] theorem listenForSignalingMessages_rtdb (p : ParticipantId) (i : Nat) (w : World) :
    (listenForSignalingMessages p i w).tab.rtdb = w.tab.rtdb := by
  unfold listenForSignalingMessages
  split <;> rfl

theorem createPeerConnection_peerConnections (link : Link) (p : ParticipantId) (co : Bool)
    (w : World) :
    (createPeerConnection link p co w).tab.peerConnections =
      mapSet w.tab.peerConnections p w.tab.conns.length := by
  unfold createPeerConnection
  simp only
  split
  · split <;> simp
  · simp

theorem createPeerConnection_currentUser (link : Link) (p : ParticipantId) (co : Bool)
    (w : World) :
    (createPeerConnection link p co w).tab.currentUser = w.tab.currentUser := by
  unfold createPeerConnection
  simp only
  split
  · split <;> simp
  · simp

theorem createPeerConnection_roomId (link : Link) (p : ParticipantId) (co : Bool)
    (w : World) :
    (createPeerConnection link p co w).tab.roomId = w.tab.roomId := by
  unfold createPeerConnection
  simp only
  split
  · split <;> simp
  · simp

theorem createPeerConnection_rtdb (link : Link) (p : ParticipantId) (co : Bool)
    (w : World) :
    (createPeerConnection link p co w).tab.rtdb = w.tab.rtdb := by
  unfold createPeerConnection
  simp only
  split
  · split <;> simp
  · simp

theorem removePeerConnection_peerConnections (p : ParticipantId) (w : World) :
    (removePeerConnection p w).tab.peerConnections = mapDelete w.tab.peerConnections p := by
  unfold removePeerConnection
  split
  · rfl
  · next h =>
    have hp : p ∉ keys w.tab.peerConnections := (mapGet_eq_none_iff _ _).1 h
    unfold mapDelete
    symm
    rw [List.filter_eq_self]
    intro e he
    have : e.1 ≠ p := fun hep => hp (hep ▸ List.mem_map_of_mem Prod.fst he)
    simpa using this

theorem onSignalingMessage_peerConnections (link : Link) (l : SignalingListener) (key : Nat)
    (m : Message) (w : World) :
    (onSignalingMessage link l key m w).tab.peerConnections = w.tab.peerConnections := by
  unfold onSignalingMessage
  split
  · rfl
  · split
    · rfl
    · split <;> simp

theorem onSignalingMessage_currentUser (link : Link) (l : SignalingListener) (key : Nat)
    (m : Message) (w : World) :
    (onSignalingMessage link l key m w).tab.currentUser = w.tab.currentUser := by
  unfold onSignalingMessage
  split
  · rfl
  · split
    · rfl
    · split <;> simp

theorem onSignalingMessage_roomId (link : Link) (l : SignalingListener) (key : Nat)
    (m : Message) (w : World) :
    (onSignalingMessage link l key m w).tab.roomId = w.tab.roomId := by
  unfold onSignalingMessage
  split
  · rfl
  · split
    · rfl
    · split <;> simp

theorem handle_currentUser (link : Link) (e : Event) (w : World) :
    (handle link e w).tab.currentUser = w.tab.currentUser := by
  cases e with
  | childAdded p =>
    simp only [handle, onChildAdded]
    split
    · rfl
    · exact createPeerConnection_currentUser link p true w
  | childRemoved p =>
    simp only [handle, onChildRemoved, removePeerConnection]
    split <;> rfl
  | signaling l key m => exact onSignalingMessage_currentUser link l key m w

theorem handle_roomId (link : Link) (e : Event) (w : World) :
    (handle link e w).tab.roomId = w.tab.roomId := by
  cases e with
  | childAdded p =>
    simp only [handle, onChildAdded]
    split
    · rfl
    · exact createPeerConnection_roomId link p true w
  | childRemoved p =>
    simp only [handle, onChildRemoved, removePeerConnection]
    split <;> rfl
  | signaling l key m => exact onSignalingMessage_roomId link l key m w

theorem run_nil (link : Link) (w : World) : run link [] w = w := rfl

theorem run_cons (link : Link) (e : Event) (es : List Event) (w : World) :
    run link (e :: es) w = run link es (handle link e w) := rfl

theorem run_append (link : Link) (es fs : List Event) (w : World) :
    run link (es ++ fs) w = run link fs (run link es w) := by
  simp [run, List.foldl_append]

theorem run_currentUser (link : Link) (es : List Event) (w : World) :
    (run link es w).tab.currentUser = w.tab.currentUser := by
  induction es generalizing w with
  | nil => rfl
  | cons e es ih => rw [run_cons, ih, handle_currentUser]

theorem run_roomId (link : Link) (es : List Event) (w : World) :
    (run link es w).tab.roomId = w.tab.roomId := by
  induction es generalizing w with
  | nil => rfl
  | cons e es ih => rw [run_cons, ih, handle_roomId]

/-- The registry key set after one callback. -/
theorem mem_keys_handle (link : Link) (e : Event) (w : World) (q : ParticipantId) :
    q ∈ keys (handle link e w).tab.peerConnections ↔
      match e with
      | Event.childAdded p =>
        (q = p ∧ some p ≠ w.tab.currentUser) ∨ q ∈ keys w.tab.peerConnections
      | Event.childRemoved p => q ≠ p ∧ q ∈ keys w.tab.peerConnections
      | Event.signaling _ _ _ => q ∈ keys w.tab.peerConnections := by
  cases e with
  | childAdded p =>
    simp only [handle, onChildAdded]
    split
    · next h => simp [h]
    · next h =>
      rw [createPeerConnection_peerConnections, mem_keys_mapSet]
      simp [h]
  | childRemoved p =>
    simp only [handle, onChildRemoved]
    rw [removePeerConnection_peerConnections, mem_keys_mapDelete]
  | signaling l key m =>
    simp only [handle]
    rw [onSignalingMessage_peerConnections]

/-! ## C1: convergence of the registry -/

theorem mem_keys_run_aux (link : Link) (p : ParticipantId) (es : List Event) :
    ∀ (w : World) (b : Bool),
      (p ∈ keys w.tab.peerConnections ↔ (b = true ∧ some p ≠ w.tab.currentUser)) →
      (p ∈ keys (run link es w).tab.peerConnections ↔
        (es.foldl (lastAddedStep p) b = true ∧ some p ≠ w.tab.currentUser)) := by
  induction es with
  | nil => intro w b h; simpa [run_nil] using h
  | cons e es ih =>
    intro w b h
    rw [run_cons, List.foldl_cons]
    have hu := handle_currentUser link e w
    have step : p ∈ keys (handle link e w).tab.peerConnections ↔
        (lastAddedStep p b e = true ∧ some p ≠ (handle link e w).tab.currentUser) := by
      rw [mem_keys_handle, hu]
      cases e with
      | childAdded q =>
        simp only [lastAddedStep]
        by_cases hq : q = p
        · subst hq
          simp only [if_true, true_and, h]
          tauto
        · have hq2 : ¬ p = q := fun e => hq e.symm
          simp only [hq, hq2, if_false, false_and, false_or, h]
      | childRemoved q =>
        simp only [lastAddedStep]
        by_cases hq : q = p
        · subst hq
          simp
        · have hq2 : p ≠ q := fun e => hq e.symm
          simp only [hq, hq2, if_false, h, ne_eq, not_false_eq_true, true_and]
      | signaling l key m =>
        simp only [lastAddedStep, h]
    have := ih (handle link e w) (lastAddedStep p b e) step
    rw [hu] at this
    exact this

/-- C1 (convergence).  Starting from an empty registry, after any finite sequence
of callbacks processed one after another the key set of `peerConnections` is
exactly the set of participants other than the local user whose most recent
presence event was `child_added`. -/
theorem C1_registry_converges (link : Link) (es : List Event) (w : World)
    (h : w.tab.peerConnections = []) (p : ParticipantId) :
    p ∈ keys (run link es w).tab.peerConnections ↔
      (lastAdded es p = true ∧ some p ≠ w.tab.currentUser) := by
  unfold lastAdded
  apply mem_keys_run_aux
  simp [h, keys]

theorem C1_registry_converges_witness :
    (World.mk (freshTab 1) emptyDb).tab.peerConnections = [] ∧
    (3 ∈ keys (run browserLink
        [Event.childAdded 1, Event.childAdded 2, Event.childAdded 3, Event.childRemoved 2,
          Event.childAdded 3]
        (World.mk (freshTab 1) emptyDb)).tab.peerConnections ↔
      (lastAdded
        [Event.childAdded 1, Event.childAdded 2, Event.childAdded 3, Event.childRemoved 2,
          Event.childAdded 3] 3 = true ∧ some 3 ≠ (World.mk (freshTab 1) emptyDb).tab.currentUser)) :=
  ⟨rfl, C1_registry_converges browserLink _ _ rfl 3⟩

/-! ## C2: a duplicate presence-add -/

theorem createPeerConnection_conns_length (link : Link) (p : ParticipantId) (co : Bool)
    (w : World) :
    (createPeerConnection link p co w).tab.conns.length = w.tab.conns.length + 1 := by
  unfold createPeerConnection
  simp only
  split
  · split <;> simp
  · simp

theorem createPeerConnection_conns_old (link : Link) (p : ParticipantId) (co : Bool)
    (w : World) (i : Nat) (hi : i < w.tab.conns.length) :
    (createPeerConnection link p co w).tab.conns[i]? = w.tab.conns[i]? := by
  have hne : w.tab.conns.length ≠ i := Nat.ne_of_gt hi
  unfold createPeerConnection
  simp only
  split
  · split <;> simp [List.getElem?_set, hne, List.getElem?_append_left hi]
  · simp [List.getElem?_append_left hi]

theorem sendSignalingMessage_pushed (p : ParticipantId) (m : Message) (w : World)
    (room : RoomId) (hdb : w.tab.rtdb = true) (hroom : w.tab.roomId = some room) :
    (sendSignalingMessage p m w).db.pushed = w.db.pushed ++ [pushedItem w room p m] := by
  unfold sendSignalingMessage
  simp [hdb, hroom, pushedItem]

theorem createPeerConnection_pushed (link : Link) (p : ParticipantId) (w : World)
    (room : RoomId) (offer : Nat) (pc1 : RTCPeerConnection)
    (hdb : w.tab.rtdb = true) (hroom : w.tab.roomId = some room)
    (hoffer : startOffer link (newPeerConnection w.tab.localStream true) = (pc1, some offer)) :
    (createPeerConnection link p true w).db.pushed =
      w.db.pushed ++ [pushedItem w room p
        { type := MsgType.offer, payload := offer, sender := none, timestamp := none }] := by
  unfold createPeerConnection
  simp only [hoffer, if_true]
  rw [sendSignalingMessage_pushed _ _ _ room (by simpa using hdb) (by simpa using hroom)]
  simp [pushedItem]

/-- C2, on a concrete state: the local user 1 is in room 7 with an entry for
participant 2 (object 0).  A second `child_added` for 2 replaces the entry by a
new object 1 and pushes a second offer. -/
theorem C2_duplicate_add_counterexample :
    mapGet withPeer.tab.peerConnections 2 = some 0 ∧
    mapGet (handle browserLink (Event.childAdded 2) withPeer).tab.peerConnections 2 = some 1 ∧
    (handle browserLink (Event.childAdded 2) withPeer).tab.conns.length =
      withPeer.tab.conns.length + 1 ∧
    (handle browserLink (Event.childAdded 2) withPeer).db.pushed.length =
      withPeer.db.pushed.length + 1 := by
  decide

/-- C2 as amended.  A `child_added` for a remote participant `p` that already has
an entry keeps the key set of `peerConnections` and replaces the entry of `p` by a
newly created connection object; every object that existed before, the replaced one
included, is left as it was (not closed); and when the manager is in a room and
`createOffer` / `setLocalDescription` succeed on the new object, one offer is
pushed to the mailbox of `p`. -/
theorem C2_duplicate_add_replaces (link : Link) (w : World) (p : ParticipantId) (old : Nat)
    (hself : some p ≠ w.tab.currentUser)
    (hold : mapGet w.tab.peerConnections p = some old) :
    keys (onChildAdded link p w).tab.peerConnections = keys w.tab.peerConnections ∧
    mapGet (onChildAdded link p w).tab.peerConnections p = some w.tab.conns.length ∧
    (onChildAdded link p w).tab.conns.length = w.tab.conns.length + 1 ∧
    (∀ i, i < w.tab.conns.length → (onChildAdded link p w).tab.conns[i]? = w.tab.conns[i]?) ∧
    (∀ room offer pc1, w.tab.rtdb = true → w.tab.roomId = some room →
      startOffer link (newPeerConnection w.tab.localStream true) = (pc1, some offer) →
      (onChildAdded link p w).db.pushed =
        w.db.pushed ++ [pushedItem w room p
          { type := MsgType.offer, payload := offer, sender := none, timestamp := none }]) := by
  have hmem : p ∈ keys w.tab.peerConnections := by
    by_contra hc
    rw [(mapGet_eq_none_iff _ _).2 hc] at hold
    cases hold
  simp only [onChildAdded, hself, if_false]
  refine ⟨?_, ?_, ?_, ?_, ?_⟩
  · rw [createPeerConnection_peerConnections, keys_mapSet_of_mem _ _ _ hmem]
  · rw [createPeerConnection_peerConnections, mapGet_mapSet_self]
  · exact createPeerConnection_conns_length link p true w
  · exact fun i hi => createPeerConnection_conns_old link p true w i hi
  · exact fun room offer pc1 hdb hroom hoffer =>
      createPeerConnection_pushed link p w room offer pc1 hdb hroom hoffer

theorem C2_duplicate_add_replaces_witness :
    some 2 ≠ withPeer.tab.currentUser ∧
    mapGet withPeer.tab.peerConnections 2 = some 0 ∧
    keys (onChildAdded browserLink 2 withPeer).tab.peerConnections =
      keys withPeer.tab.peerConnections ∧
    mapGet (onChildAdded browserLink 2 withPeer).tab.peerConnections 2 =
      some withPeer.tab.conns.length ∧
    (onChildAdded browserLink 2 withPeer).tab.conns.length = withPeer.tab.conns.length + 1 ∧
    (onChildAdded browserLink 2 withPeer).tab.conns[0]? = withPeer.tab.conns[0]? ∧
    (onChildAdded browserLink 2 withPeer).db.pushed =
      withPeer.db.pushed ++ [pushedItem withPeer 7 2
        { type := MsgType.offer, payload := 102, sender := none, timestamp := none }] :=
  have h := C2_duplicate_add_replaces browserLink withPeer 2 0 (by decide) (by decide)
  ⟨by decide, by decide, h.1, h.2.1, h.2.2.1, h.2.2.2.1 0 (by decide),
    h.2.2.2.2 7 102 (startOffer browserLink (newPeerConnection withPeer.tab.localStream true)).1
      (by decide) (by decide) (by decide)⟩

/-! ## C3: candidates received before the remote description -/

theorem applyCandidate_calls (link : Link) (c : Nat) (pc : RTCPeerConnection)
    (hc : link.newIceCandidate c = true) :
    (applyCandidate link c pc).1.calls = pc.calls ++ [LinkCall.addIceCandidate c] := by
  unfold applyCandidate
  simp only [hc, if_true]
  split <;> rfl

theorem applyAnswer_calls (link : Link) (d : Nat) (pc : RTCPeerConnection)
    (hd : link.newSessionDescription d = true) :
    (applyAnswer link d pc).1.calls = pc.calls ++ [LinkCall.setRemoteDescription d] := by
  unfold applyAnswer
  simp only [hd, if_true]
  split <;> rfl

/-- The connection object of a listener after its callback ran on a message from
its participant. -/
theorem onSignalingMessage_conn (link : Link) (l : SignalingListener) (key : Nat)
    (m : Message) (w : World) (pc : RTCPeerConnection)
    (hfrom : m.sender = some l.participantId)
    (hpc : w.tab.conns[l.peerConnection]? = some pc) :
    (onSignalingMessage link l key m w).tab.conns[l.peerConnection]? =
      some (applyMessage link m pc).1 := by
  have hlt : l.peerConnection < w.tab.conns.length := by
    by_contra hc
    rw [List.getElem?_eq_none (Nat.le_of_not_lt hc)] at hpc
    cases hpc
  unfold onSignalingMessage
  simp only [hfrom, ne_eq, not_true_eq_false, if_false, hpc]
  split <;> rename_i heq <;> simp [heq, List.getElem?_set, hlt]

/-- C3, on a concrete state: user 1 has a connection to participant 2 without
remote description; the mailbox delivers the candidates 11 and 12 and then the
answer 300.  The connection sees `addIceCandidate(11)`, `addIceCandidate(12)` and
only then `setRemoteDescription(300)`; on a browser-like link both candidates are
rejected, none is applied afterwards, and both stay in the mailbox. -/
theorem C3_candidate_replay_counterexample :
    (deliverMail browserLink candidatesThenAnswer).tab.conns.map (fun pc => pc.calls) =
      [[LinkCall.addTrack 0, LinkCall.addTrack 1, LinkCall.createOffer,
        LinkCall.setLocalDescription 102, LinkCall.addIceCandidate 11,
        LinkCall.addIceCandidate 12, LinkCall.setRemoteDescription 300]] ∧
    (deliverMail browserLink candidatesThenAnswer).tab.conns.map (fun pc => pc.candidates) =
      [[]] ∧
    (deliverMail browserLink candidatesThenAnswer).db.signaling.map
        (fun it => (it.recipient, it.msg.type, it.msg.payload)) =
      [(2, MsgType.offer, 102), (1, MsgType.iceCandidate, 11), (1, MsgType.iceCandidate, 12)] := by
  decide

theorem applyOffer_no_candidate (link : Link) (d : Nat) (pc : RTCPeerConnection) :
    (applyOffer link d pc).1.candidates = pc.candidates ∧
    ∀ c, LinkCall.addIceCandidate c ∈ (applyOffer link d pc).1.calls →
      LinkCall.addIceCandidate c ∈ pc.calls := by
  unfold applyOffer
  dsimp only
  split
  · split
    · split
      · split <;> exact ⟨rfl, fun c hc => by simpa using hc⟩
      · exact ⟨rfl, fun c hc => by simpa using hc⟩
    · exact ⟨rfl, fun c hc => by simpa using hc⟩
  · exact ⟨rfl, fun c hc => hc⟩

theorem applyAnswer_no_candidate (link : Link) (d : Nat) (pc : RTCPeerConnection) :
    (applyAnswer link d pc).1.candidates = pc.candidates ∧
    ∀ c, LinkCall.addIceCandidate c ∈ (applyAnswer link d pc).1.calls →
      LinkCall.addIceCandidate c ∈ pc.calls := by
  unfold applyAnswer
  dsimp only
  split
  · split <;> exact ⟨rfl, fun c hc => by simpa using hc⟩
  · exact ⟨rfl, fun c hc => hc⟩

theorem applyMessage_no_candidate (link : Link) (m : Message) (pc : RTCPeerConnection)
    (hm : m.type ≠ MsgType.iceCandidate) :
    (applyMessage link m pc).1.candidates = pc.candidates ∧
    ∀ c, LinkCall.addIceCandidate c ∈ (applyMessage link m pc).1.calls →
      LinkCall.addIceCandidate c ∈ pc.calls := by
  unfold applyMessage
  split
  · exact applyOffer_no_candidate link m.payload pc
  · exact applyAnswer_no_candidate link m.payload pc
  · next h => exact absurd h hm
  · exact ⟨rfl, fun c hc => hc⟩

/-- C3 as amended.  Nothing is buffered: a candidate message from the listener's
participant is handed to `addIceCandidate` by the callback that receives it,
whatever the remote description, and a message of another type neither applies a
candidate nor calls `addIceCandidate`.  So for the messages `c1`, `c2`, answer `d`,
processed in this order, the connection sees `addIceCandidate(c1)`,
`addIceCandidate(c2)`, `setRemoteDescription(d)` and no `addIceCandidate` after the
answer. -/
theorem C3_candidates_applied_on_receipt (link : Link) (l : SignalingListener)
    (w : World) (pc : RTCPeerConnection) (k1 k2 k3 c1 c2 d : Nat) (t1 t2 t3 : Option Nat)
    (hpc : w.tab.conns[l.peerConnection]? = some pc)
    (h1 : link.newIceCandidate c1 = true) (h2 : link.newIceCandidate c2 = true)
    (hd : link.newSessionDescription d = true) :
    (∃ pc1, (onSignalingMessage link l k1
          { type := MsgType.iceCandidate, payload := c1, sender := some l.participantId,
            timestamp := t1 } w).tab.conns[l.peerConnection]? = some pc1 ∧
        pc1.calls = pc.calls ++ [LinkCall.addIceCandidate c1]) ∧
    (∀ m, m.sender = some l.participantId → m.type ≠ MsgType.iceCandidate →
      ∃ pc1, (onSignalingMessage link l k1 m w).tab.conns[l.peerConnection]? = some pc1 ∧
        pc1.candidates = pc.candidates ∧
        ∀ c, LinkCall.addIceCandidate c ∈ pc1.calls → LinkCall.addIceCandidate c ∈ pc.calls) ∧
    (∃ pc3, (run link
          [Event.signaling l k1
            { type := MsgType.iceCandidate, payload := c1, sender := some l.participantId,
              timestamp := t1 },
           Event.signaling l k2
            { type := MsgType.iceCandidate, payload := c2, sender := some l.participantId,
              timestamp := t2 },
           Event.signaling l k3
            { type := MsgType.answer, payload := d, sender := some l.participantId,
              timestamp := t3 }] w).tab.conns[l.peerConnection]? = some pc3 ∧
        pc3.calls = pc.calls ++ [LinkCall.addIceCandidate c1, LinkCall.addIceCandidate c2,
          LinkCall.setRemoteDescription d]) := by
  refine ⟨?_, ?_, ?_⟩
  · refine ⟨_, onSignalingMessage_conn link l k1 _ w pc rfl hpc, ?_⟩
    simp only [applyMessage]
    exact applyCandidate_calls link c1 pc h1
  · intro m hfrom hm
    exact ⟨_, onSignalingMessage_conn link l k1 m w pc hfrom hpc,
      applyMessage_no_candidate link m pc hm⟩
  · simp only [run, List.foldl_cons, List.foldl_nil, handle]
    have e1 := onSignalingMessage_conn link l k1
      { type := MsgType.iceCandidate, payload := c1, sender := some l.participantId,
        timestamp := t1 } w pc rfl hpc
    have e2 := onSignalingMessage_conn link l k2
      { type := MsgType.iceCandidate, payload := c2, sender := some l.participantId,
        timestamp := t2 } _ _ rfl e1
    have e3 := onSignalingMessage_conn link l k3
      { type := MsgType.answer, payload := d, sender := some l.participantId,
        timestamp := t3 } _ _ rfl e2
    refine ⟨_, e3, ?_⟩
    simp only [applyMessage]
    rw [applyAnswer_calls link d _ hd, applyCandidate_calls link c2 _ h2,
      applyCandidate_calls link c1 _ h1]
    simp

theorem C3_candidates_applied_on_receipt_witness :
    withPeer.tab.conns[0]? = some (startOffer browserLink
      (newPeerConnection inRoom.tab.localStream true)).1 ∧
    browserLink.newIceCandidate 11 = true ∧ browserLink.newIceCandidate 12 = true ∧
    browserLink.newSessionDescription 300 = true ∧
    ∃ pc3, (run browserLink
          [Event.signaling ⟨some 7, some 1, 2, 0⟩ 1
            { type := MsgType.iceCandidate, payload := 11, sender := some 2, timestamp := none },
           Event.signaling ⟨some 7, some 1, 2, 0⟩ 2
            { type := MsgType.iceCandidate, payload := 12, sender := some 2, timestamp := none },
           Event.signaling ⟨some 7, some 1, 2, 0⟩ 3
            { type := MsgType.answer, payload := 300, sender := some 2, timestamp := none }]
          withPeer).tab.conns[0]? = some pc3 ∧
        pc3.calls = (startOffer browserLink
            (newPeerConnection inRoom.tab.localStream true)).1.calls ++
          [LinkCall.addIceCandidate 11, LinkCall.addIceCandidate 12,
            LinkCall.setRemoteDescription 300] :=
  ⟨by decide, rfl, rfl, rfl,
    (C3_candidates_applied_on_receipt browserLink ⟨some 7, some 1, 2, 0⟩ withPeer _
      1 2 3 11 12 300 none none none (by decide) rfl rfl rfl).2.2⟩

/-! ## C4: an offer from an unregistered sender -/

theorem foldl_eq_self_of_forall {α β : Type} (f : β → α → β) (l : List α) (b : β)
    (h : ∀ a ∈ l, ∀ s, f s a = s) : l.foldl f b = b := by
  induction l generalizing b with
  | nil => rfl
  | cons a rest ih =>
    rw [List.foldl_cons, h a (List.mem_cons_self a rest) b]
    exact ih b (fun x hx => h x (List.mem_cons_of_mem a hx))

theorem onSignalingMessage_of_other_sender (link : Link) (l : SignalingListener) (key : Nat)
    (m : Message) (w : World) (h : m.sender ≠ some l.participantId) :
    onSignalingMessage link l key m w = w := by
  unfold onSignalingMessage
  simp [h]

theorem onSignalingMessage_conns_length (link : Link) (l : SignalingListener) (key : Nat)
    (m : Message) (w : World) :
    (onSignalingMessage link l key m w).tab.conns.length = w.tab.conns.length := by
  unfold onSignalingMessage
  split
  · rfl
  · split
    · rfl
    · split <;> simp

theorem deliverMail_of_no_listener (link : Link) (w : World)
    (h : ∀ it ∈ w.db.signaling, ∀ l ∈ w.tab.signalingListeners,
      it.msg.sender ≠ some l.participantId) :
    deliverMail link w = w := by
  unfold deliverMail
  apply foldl_eq_self_of_forall
  intro it hit s
  apply foldl_eq_self_of_forall
  intro l hl s'
  split
  · exact onSignalingMessage_of_other_sender link l it.key it.msg s' (h it hit l hl)
  · rfl

/-- C4, on a concrete state: user 1 is in room 7 and has no entry for participant
2, whose offer sits in the mailbox of user 1.  Delivering the mailbox changes
nothing: no entry for 2, no answer pushed, the offer still in the mailbox. -/
theorem C4_unsolicited_offer_counterexample :
    mapGet unsolicitedOffer.tab.peerConnections 2 = none ∧
    unsolicitedOffer.db.signaling.map (fun it => (it.recipient, it.msg.sender, it.msg.type)) =
      [(3, some 1, MsgType.offer), (1, some 2, MsgType.offer)] ∧
    deliverMail browserLink unsolicitedOffer = unsolicitedOffer := by
  decide

/-- C4 as amended.  A mailbox callback never creates a registry entry or a
connection object, and the callback of a listener registered for another
participant ignores the message.  So an offer from a sender for whom no listener
is registered leaves the tab and the database as they are: the offer stays in the
mailbox and no answer is sent. -/
theorem C4_unsolicited_offer_ignored (link : Link) (w : World) :
    (∀ l key m,
      (onSignalingMessage link l key m w).tab.peerConnections = w.tab.peerConnections ∧
      (onSignalingMessage link l key m w).tab.conns.length = w.tab.conns.length ∧
      (m.sender ≠ some l.participantId → onSignalingMessage link l key m w = w)) ∧
    ((∀ it ∈ w.db.signaling, ∀ l ∈ w.tab.signalingListeners,
        it.msg.sender ≠ some l.participantId) →
      deliverMail link w = w) :=
  ⟨fun l key m =>
    ⟨onSignalingMessage_peerConnections link l key m w,
      onSignalingMessage_conns_length link l key m w,
      onSignalingMessage_of_other_sender link l key m w⟩,
    deliverMail_of_no_listener link w⟩

theorem C4_unsolicited_offer_ignored_witness :
    (∀ it ∈ unsolicitedOffer.db.signaling, ∀ l ∈ unsolicitedOffer.tab.signalingListeners,
        it.msg.sender ≠ some l.participantId) ∧
    deliverMail permissiveLink unsolicitedOffer = unsolicitedOffer :=
  ⟨by decide, (C4_unsolicited_offer_ignored permissiveLink unsolicitedOffer).2 (by decide)⟩

/-! ## C5: the two-party scenario -/

/-- C5, on a concrete run: user 1 is alone in room 7 and user 2 joins.  Two offers
are pushed, the first one by the joining user 2 to user 1; each side answers the
other's offer; and the connection that user 2 creates towards user 1 was built with
`createOffer = true`. -/
theorem C5_two_party_counterexample :
    sentLog (twoParty permissiveLink 1 2 7).db =
      [(some 2, 1, MsgType.offer), (some 1, 2, MsgType.offer),
       (some 1, 2, MsgType.answer), (some 2, 1, MsgType.answer)] ∧
    (twoParty permissiveLink 1 2 7).b.peerConnections = [(1, 0)] ∧
    (twoParty permissiveLink 1 2 7).b.conns.map (fun pc => pc.offerer) = [true] := by
  decide

theorem createPeerConnection_eq (link : Link) (p : ParticipantId) (w : World)
    (room : RoomId) (offer : Nat) (pc1 : RTCPeerConnection)
    (hdb : w.tab.rtdb = true) (hroom : w.tab.roomId = some room)
    (hoffer : startOffer link (newPeerConnection w.tab.localStream true) = (pc1, some offer)) :
    createPeerConnection link p true w =
      { tab := { w.tab with
          conns := w.tab.conns ++ [pc1],
          peerConnections := mapSet w.tab.peerConnections p w.tab.conns.length,
          signalingListeners := w.tab.signalingListeners ++
            [{ room := some room, uid := w.tab.currentUser, participantId := p,
               peerConnection := w.tab.conns.length }] },
        db := { w.db with
          signaling := w.db.signaling ++ [pushedItem w room p (offerMsg offer)],
          pushed := w.db.pushed ++ [pushedItem w room p (offerMsg offer)] } } := by
  unfold createPeerConnection
  simp only [hoffer, if_true]
  unfold sendSignalingMessage listenForSignalingMessages putConn
  simp [hdb, hroom, pushedItem, offerMsg, newListener]

theorem startOffer_of_accepting (link : Link) (h : link.Accepting) (pc : RTCPeerConnection) :
    ∃ pc1 offer, startOffer link pc = (pc1, some offer) := by
  obtain ⟨offer, ho⟩ := h.2.1 pc
  refine ⟨(startOffer link pc).1, offer, ?_⟩
  unfold startOffer
  simp only [ho, h.2.2.2.1]
  rfl

theorem startOffer_offerer (link : Link) (pc : RTCPeerConnection) :
    (startOffer link pc).1.offerer = pc.offerer := by
  unfold startOffer
  simp only
  split
  · split <;> rfl
  · rfl

/-- The state reached by `thenJoins` when the first offer creation succeeds. -/
theorem thenJoins_eq (link : Link) (a b : ParticipantId) (room : RoomId) (hab : a ≠ b)
    (offer : Nat) (pc1 : RTCPeerConnection)
    (hoffer : startOffer link (newPeerConnection (some [0, 1]) true) = (pc1, some offer)) :
    thenJoins link a b room =
      { a := { freshTab a with
            localStream := some [0, 1], roomId := some room,
            tracks := [newTrack TrackKind.video, newTrack TrackKind.audio],
            participantListeners := [room],
            peerConnections := [(b, 0)], conns := [pc1],
            signalingListeners := [⟨some room, some a, b, 0⟩] },
        b := { freshTab b with
            localStream := some [0, 1], roomId := some room,
            tracks := [newTrack TrackKind.video, newTrack TrackKind.audio],
            participantListeners := [room],
            peerConnections := [(a, 0)], conns := [pc1],
            signalingListeners := [⟨some room, some b, a, 0⟩] },
        db := { roomParticipants := [(room, a), (room, b)],
                signaling :=
                  [⟨room, a, 0, ⟨MsgType.offer, offer, some b, some 0⟩⟩,
                   ⟨room, b, 1, ⟨MsgType.offer, offer, some a, some 0⟩⟩],
                pushed :=
                  [⟨room, a, 0, ⟨MsgType.offer, offer, some b, some 0⟩⟩,
                   ⟨room, b, 1, ⟨MsgType.offer, offer, some a, some 0⟩⟩],
                serverTime := 0,
                onDisconnect := [(room, a), (room, b)] } } := by
  have hba : b ≠ a := fun e => hab e.symm
  have hr : List.range' 0 2 = [0, 1] := rfl
  simp only [thenJoins, aloneInRoom, joinRoom, startLocalStream, cameraAndMic,
    listenForParticipants, addToRoomParticipants, freshTab, emptyDb, handle, onChildAdded,
    Duo.onA, Duo.onB, presentIn, dbSet]
  simp [hab, hba, hr]
  rw [createPeerConnection_eq link a _ room offer pc1 rfl rfl hoffer]
  simp [hab, hba, hr, pushedItem, offerMsg, mapSet]
  rw [createPeerConnection_eq link b _ room offer pc1 rfl rfl hoffer]
  simp [hab, hba, hr, pushedItem, offerMsg, mapSet]

theorem applyOffer_of_accepting (link : Link) (h : link.Accepting) (d : Nat)
    (pc : RTCPeerConnection) :
    ∃ pc1 answer, applyOffer link d pc = (pc1, Outcome.done (some answer)) := by
  obtain ⟨answer, ha⟩ := h.2.2.1 { pc with
    calls := pc.calls ++ [LinkCall.setRemoteDescription d], remoteDescription := some d }
  refine ⟨(applyOffer link d pc).1, answer, ?_⟩
  unfold applyOffer
  simp only [h.1, h.2.2.2.2, h.2.2.2.1, ha, if_true]

theorem applyAnswer_of_accepting (link : Link) (h : link.Accepting) (d : Nat)
    (pc : RTCPeerConnection) :
    ∃ pc1, applyAnswer link d pc = (pc1, Outcome.done none) := by
  refine ⟨(applyAnswer link d pc).1, ?_⟩
  unfold applyAnswer
  simp only [h.1, h.2.2.2.2, if_true]

theorem twoParty_sentLog (link : Link) (h : link.Accepting) (a b : ParticipantId)
    (room : RoomId) (hab : a ≠ b) :
    sentLog (twoParty link a b room).db =
      [(some b, a, MsgType.offer), (some a, b, MsgType.offer),
       (some a, b, MsgType.answer), (some b, a, MsgType.answer)] := by
  have hba : b ≠ a := fun e => hab e.symm
  obtain ⟨pcA, offer, hoffer⟩ :=
    startOffer_of_accepting link h (newPeerConnection (some [0, 1]) true)
  obtain ⟨pcB, answer, hanswer⟩ := applyOffer_of_accepting link h offer pcA
  obtain ⟨pcC, hans⟩ := applyAnswer_of_accepting link h answer pcB
  unfold twoParty
  rw [thenJoins_eq link a b room hab offer _ hoffer]
  simp [Duo.onA, Duo.onB, deliverMail, freshTab, hab, hba, onSignalingMessage, applyMessage,
    hanswer, hans, sendSignalingMessage, putConn, removeSnapshot, sentLog]

theorem createPeerConnection_offerers (link : Link) (p : ParticipantId) (co : Bool)
    (w : World) :
    (createPeerConnection link p co w).tab.conns.map (fun pc => pc.offerer) =
      w.tab.conns.map (fun pc => pc.offerer) ++ [co] := by
  have hset : ∀ pc1 : RTCPeerConnection, pc1.offerer = co →
      ((w.tab.conns ++ [newPeerConnection w.tab.localStream co]).set w.tab.conns.length pc1).map
        (fun pc => pc.offerer) = w.tab.conns.map (fun pc => pc.offerer) ++ [co] := by
    intro pc1 h1
    simp [List.set_append_right, h1]
  unfold createPeerConnection
  simp only
  split
  · next hco =>
    have hso := startOffer_offerer link (newPeerConnection w.tab.localStream co)
    split <;> rename_i heq <;> rw [heq] at hso <;> simp only at hso
    · simp only [sendSignalingMessage_tab, putConn_conns, listenForSignalingMessages_conns]
      exact hset _ (by rw [hso]; rfl)
    · simp only [putConn_conns, listenForSignalingMessages_conns]
      exact hset _ (by rw [hso]; rfl)
  · simp [newPeerConnection]

theorem thenJoins_roles (link : Link) (a b : ParticipantId) (room : RoomId) (hab : a ≠ b) :
    (thenJoins link a b room).a.peerConnections = [(b, 0)] ∧
    (thenJoins link a b room).b.peerConnections = [(a, 0)] ∧
    (thenJoins link a b room).a.conns.map (fun pc => pc.offerer) = [true] ∧
    (thenJoins link a b room).b.conns.map (fun pc => pc.offerer) = [true] := by
  have hba : b ≠ a := fun e => hab e.symm
  simp only [thenJoins, aloneInRoom, joinRoom, startLocalStream, cameraAndMic,
    listenForParticipants, addToRoomParticipants, freshTab, emptyDb, handle, onChildAdded,
    Duo.onA, Duo.onB, presentIn, dbSet]
  simp [hab, hba, createPeerConnection_currentUser, createPeerConnection_peerConnections,
    createPeerConnection_offerers, mapSet]

/-- C5 as amended.  When `a` is alone in the room and `b` then joins, both sides
initiate: each tab ends up with one registry entry for the other participant whose
connection was built with `createOffer = true`; and on a link that accepts every
call two offers are pushed (`b` to `a`, then `a` to `b`) and each is answered by
its recipient. -/
theorem C5_both_sides_initiate (link : Link) (a b : ParticipantId) (room : RoomId)
    (hab : a ≠ b) :
    (thenJoins link a b room).a.peerConnections = [(b, 0)] ∧
    (thenJoins link a b room).b.peerConnections = [(a, 0)] ∧
    (thenJoins link a b room).a.conns.map (fun pc => pc.offerer) = [true] ∧
    (thenJoins link a b room).b.conns.map (fun pc => pc.offerer) = [true] ∧
    (link.Accepting →
      sentLog (twoParty link a b room).db =
        [(some b, a, MsgType.offer), (some a, b, MsgType.offer),
         (some a, b, MsgType.answer), (some b, a, MsgType.answer)]) :=
  have hroles := thenJoins_roles link a b room hab
  ⟨hroles.1, hroles.2.1, hroles.2.2.1, hroles.2.2.2,
    fun h => twoParty_sentLog link h a b room hab⟩

theorem C5_both_sides_initiate_witness :
    (3 : ParticipantId) ≠ 4 ∧ permissiveLink.Accepting ∧
    (thenJoins permissiveLink 3 4 9).b.peerConnections = [(3, 0)] ∧
    (thenJoins permissiveLink 3 4 9).b.conns.map (fun pc => pc.offerer) = [true] ∧
    sentLog (twoParty permissiveLink 3 4 9).db =
      [(some 4, 3, MsgType.offer), (some 3, 4, MsgType.offer),
       (some 3, 4, MsgType.answer), (some 4, 3, MsgType.answer)] :=
  have hacc : permissiveLink.Accepting :=
    ⟨fun _ => rfl, fun _ => ⟨_, rfl⟩, fun _ => ⟨_, rfl⟩, fun _ _ => rfl, fun _ _ => rfl⟩
  have h := C5_both_sides_initiate permissiveLink 3 4 9 (by decide)
  ⟨by decide, hacc, h.2.1, h.2.2.2.1, h.2.2.2.2 hacc⟩

/-! ## C6: presence-remove -/

theorem closeConn_getElem?_self (conns : List RTCPeerConnection) (i : Nat)
    (pc : RTCPeerConnection) (h : conns[i]? = some pc) :
    (closeConn conns i)[i]? = some pc.close := by
  have hlt : i < conns.length := by
    by_contra hc
    rw [List.getElem?_eq_none (Nat.le_of_not_lt hc)] at h
    cases h
  unfold closeConn
  simp [h, List.getElem?_set, hlt]

theorem closeConn_getElem?_of_ne (conns : List RTCPeerConnection) (i j : Nat) (h : j ≠ i) :
    (closeConn conns i)[j]? = conns[j]? := by
  unfold closeConn
  split
  · simp [List.getElem?_set, Ne.symm h]
  · rfl

theorem closeConn_length (conns : List RTCPeerConnection) (i : Nat) :
    (closeConn conns i).length = conns.length := by
  unfold closeConn
  split <;> simp

theorem removePeerConnection_of_none (p : ParticipantId) (w : World)
    (h : mapGet w.tab.peerConnections p = none) : removePeerConnection p w = w := by
  unfold removePeerConnection
  simp [h]

theorem removePeerConnection_of_some (p : ParticipantId) (w : World) (i : Nat)
    (h : mapGet w.tab.peerConnections p = some i) :
    removePeerConnection p w =
      { w with tab := { w.tab with
          conns := closeConn w.tab.conns i,
          peerConnections := mapDelete w.tab.peerConnections p } } := by
  unfold removePeerConnection
  simp [h]

theorem removePeerConnection_idem (p : ParticipantId) (w : World) :
    removePeerConnection p (removePeerConnection p w) = removePeerConnection p w := by
  apply removePeerConnection_of_none
  rw [removePeerConnection_peerConnections]
  exact mapGet_mapDelete_self _ _

/-- C6 (presence-remove).  `removePeerConnection(p)` closes the connection stored
under `p` and deletes the entry of `p` when there is one, keeps every other entry,
every other connection object and the database; when `p` has no entry it changes
nothing (it is a total function, so no error is raised); applying it twice is the
same as applying it once; and the `child_removed` callback is this function. -/
theorem C6_removePeerConnection (w : World) (p : ParticipantId) :
    (∀ i pc, mapGet w.tab.peerConnections p = some i → w.tab.conns[i]? = some pc →
      (removePeerConnection p w).tab.conns[i]? = some pc.close ∧ pc.close.closed = true) ∧
    mapGet (removePeerConnection p w).tab.peerConnections p = none ∧
    (removePeerConnection p w).tab.peerConnections =
      w.tab.peerConnections.filter (fun e => e.1 ≠ p) ∧
    (∀ q, q ≠ p →
      mapGet (removePeerConnection p w).tab.peerConnections q =
        mapGet w.tab.peerConnections q) ∧
    (∀ i j, mapGet w.tab.peerConnections p = some i → j ≠ i →
      (removePeerConnection p w).tab.conns[j]? = w.tab.conns[j]?) ∧
    (removePeerConnection p w).db = w.db ∧
    (mapGet w.tab.peerConnections p = none → removePeerConnection p w = w) ∧
    removePeerConnection p (removePeerConnection p w) = removePeerConnection p w ∧
    onChildRemoved p w = removePeerConnection p w := by
  refine ⟨?_, ?_, ?_, ?_, ?_, ?_, removePeerConnection_of_none p w,
    removePeerConnection_idem p w, rfl⟩
  · intro i pc hi hpc
    rw [removePeerConnection_of_some p w i hi]
    exact ⟨closeConn_getElem?_self _ _ _ hpc, rfl⟩
  · rw [removePeerConnection_peerConnections]
    exact mapGet_mapDelete_self _ _
  · rw [removePeerConnection_peerConnections]
    rfl
  · intro q hq
    rw [removePeerConnection_peerConnections]
    exact mapGet_mapDelete_of_ne _ _ _ hq
  · intro i j hi hj
    rw [removePeerConnection_of_some p w i hi]
    exact closeConn_getElem?_of_ne _ _ _ hj
  · unfold removePeerConnection
    split <;> rfl

theorem C6_removePeerConnection_witness :
    mapGet withPeer.tab.peerConnections 2 = some 0 ∧
    withPeer.tab.conns[0]? = some (startOffer browserLink
      (newPeerConnection inRoom.tab.localStream true)).1 ∧
    (removePeerConnection 2 withPeer).tab.conns[0]? =
      some (startOffer browserLink (newPeerConnection inRoom.tab.localStream true)).1.close ∧
    mapGet withPeer.tab.peerConnections 5 = none ∧
    removePeerConnection 5 withPeer = withPeer :=
  ⟨by decide, by decide,
    ((C6_removePeerConnection withPeer 2).1 0 _ (by decide) (by decide)).1,
    by decide,
    (C6_removePeerConnection withPeer 5).2.2.2.2.2.2.1 (by decide)⟩

/-! ## C7: the postcondition of leaveRoom -/

/-- A fold of an index-wise update that marks the element it visits and never
unmarks an element: afterwards every visited element is marked. -/
theorem foldl_marks {α : Type} (step : List α → Nat → List α) (good : α → Prop)
    (hself : ∀ (l : List α) (i : Nat) (x : α),
      l[i]? = some x → ∃ y, (step l i)[i]? = some y ∧ good y)
    (hkeep : ∀ (l : List α) (i j : Nat) (x : α),
      l[j]? = some x → ∃ y, (step l i)[j]? = some y ∧ (good x → good y))
    (ids : List Nat) :
    ∀ (l : List α) (i : Nat) (x : α), l[i]? = some x →
      (∃ y, (ids.foldl step l)[i]? = some y ∧ (good x → good y)) ∧
      (i ∈ ids → ∃ y, (ids.foldl step l)[i]? = some y ∧ good y) := by
  induction ids with
  | nil =>
    intro l i x h
    exact ⟨⟨x, h, id⟩, fun hi => absurd hi (List.not_mem_nil i)⟩
  | cons j rest ih =>
    intro l i x h
    rw [List.foldl_cons]
    obtain ⟨y, hy, hgy⟩ := hkeep l j i x h
    obtain ⟨⟨z, hz, hgz⟩, hmem⟩ := ih (step l j) i y hy
    refine ⟨⟨z, hz, fun hx => hgz (hgy hx)⟩, ?_⟩
    intro hi
    rcases List.mem_cons.1 hi with hij | hi
    · subst hij
      obtain ⟨y', hy', hgy'⟩ := hself l i x h
      obtain ⟨⟨z', hz', hgz'⟩, _⟩ := ih (step l i) i y' hy'
      exact ⟨z', hz', hgz' hgy'⟩
    · exact hmem hi

theorem foldl_closeConn_closed (ids : List Nat) (conns : List RTCPeerConnection) (i : Nat)
    (pc : RTCPeerConnection) (hi : i ∈ ids) (h : conns[i]? = some pc) :
    ∃ pc1, (ids.foldl closeConn conns)[i]? = some pc1 ∧ pc1.closed = true := by
  refine (foldl_marks closeConn (fun pc => pc.closed = true) ?_ ?_ ids conns i pc h).2 hi
  · intro l k x hx
    exact ⟨x.close, closeConn_getElem?_self l k x hx, rfl⟩
  · intro l k j x hx
    by_cases hjk : j = k
    · subst hjk
      exact ⟨x.close, closeConn_getElem?_self l j x hx, fun _ => rfl⟩
    · exact ⟨x, by rw [closeConn_getElem?_of_ne l k j hjk]; exact hx, id⟩

theorem stopTrack_getElem?_self (tracks : List MediaStreamTrack) (i : Nat)
    (t : MediaStreamTrack) (h : tracks[i]? = some t) :
    (stopTrack tracks i)[i]? = some { t with stopped := true } := by
  have hlt : i < tracks.length := by
    by_contra hc
    rw [List.getElem?_eq_none (Nat.le_of_not_lt hc)] at h
    cases h
  unfold stopTrack
  simp [h, List.getElem?_set, hlt]

theorem stopTrack_getElem?_of_ne (tracks : List MediaStreamTrack) (i j : Nat) (h : j ≠ i) :
    (stopTrack tracks i)[j]? = tracks[j]? := by
  unfold stopTrack
  split
  · simp [List.getElem?_set, Ne.symm h]
  · rfl

theorem foldl_stopTrack_stopped (ids : List Nat) (tracks : List MediaStreamTrack) (i : Nat)
    (t : MediaStreamTrack) (hi : i ∈ ids) (h : tracks[i]? = some t) :
    ∃ t1, (ids.foldl stopTrack tracks)[i]? = some t1 ∧ t1.stopped = true := by
  refine (foldl_marks stopTrack (fun t => t.stopped = true) ?_ ?_ ids tracks i t h).2 hi
  · intro l k x hx
    exact ⟨_, stopTrack_getElem?_self l k x hx, rfl⟩
  · intro l k j x hx
    by_cases hjk : j = k
    · subst hjk
      exact ⟨_, stopTrack_getElem?_self l j x hx, fun _ => rfl⟩
    · exact ⟨x, by rw [stopTrack_getElem?_of_ne l k j hjk]; exact hx, id⟩

theorem leaveCleanup_closes (w : World) (e : ParticipantId × Nat)
    (he : e ∈ w.tab.peerConnections) (pc : RTCPeerConnection) (hpc : w.tab.conns[e.2]? = some pc) :
    ∃ pc1, (leaveCleanup w).tab.conns[e.2]? = some pc1 ∧ pc1.closed = true :=
  foldl_closeConn_closed _ _ _ pc (List.mem_map_of_mem Prod.snd he) hpc

theorem leaveCleanup_stops (w : World) (i : Nat) (hi : i ∈ w.tab.localStream.getD [])
    (t : MediaStreamTrack) (ht : w.tab.tracks[i]? = some t) :
    ∃ t1, (leaveCleanup w).tab.tracks[i]? = some t1 ∧ t1.stopped = true :=
  foldl_stopTrack_stopped _ _ _ t hi ht

/-- `leaveRoom` when the `remove()` it reaches, if any, is not rejected. -/
theorem leaveRoom_of_ok (w : World) (removeOk : Bool)
    (h : callsRemove w = true → removeOk = true) :
    ∃ records, leaveRoom removeOk w =
        leaveCleanup { w with db := { w.db with roomParticipants := records } } ∧
      ∀ room uid, w.tab.rtdb = true → w.tab.roomId = some room →
        w.tab.currentUser = some uid → records = dbRemove w.db.roomParticipants room uid := by
  unfold leaveRoom
  split
  · next room uid hdb hroom huser =>
    have hok : removeOk = true := h (by simp [callsRemove, hdb, hroom, huser])
    refine ⟨dbRemove w.db.roomParticipants room uid, by simp [hok], ?_⟩
    intro room1 uid1 _ hroom1 huser1
    rw [hroom] at hroom1
    rw [huser] at huser1
    cases hroom1
    cases huser1
    rfl
  · next hno =>
    refine ⟨w.db.roomParticipants, rfl, ?_⟩
    intro room uid hdb hroom huser
    exact absurd huser (hno room uid hdb hroom)

/-- C7, on a concrete state: user 1 is in room 7 with a connection to participant
2 and a live local stream.  When the awaited `remove()` is rejected, `leaveRoom`
returns with everything as it was: the registry entry, the open connection, the
stream, `roomId` and the presence record. -/
theorem C7_leaveRoom_counterexample :
    (leaveRoom false withPeer).tab.peerConnections = [(2, 0)] ∧
    (leaveRoom false withPeer).tab.conns.map (fun pc => pc.closed) = [false] ∧
    (leaveRoom false withPeer).tab.localStream = some [0, 1] ∧
    (leaveRoom false withPeer).tab.tracks.map (fun t => t.stopped) = [false, false] ∧
    (leaveRoom false withPeer).tab.roomId = some 7 ∧
    (7, 1) ∈ (leaveRoom false withPeer).db.roomParticipants ∧
    leaveRoom false withPeer = withPeer := by
  decide

/-- C7 as amended.  When the awaited `remove()` of the presence record, if it is
reached, is not rejected, then after `leaveRoom` the registry is empty, every
connection that was in it is closed, every track of the local stream is stopped,
`localStream` and `roomId` are `null`, and (the database being available and a user
signed in) the presence record of the user under the room is gone. -/
theorem C7_leaveRoom_postcondition (w : World) (removeOk : Bool)
    (h : callsRemove w = true → removeOk = true) :
    (leaveRoom removeOk w).tab.peerConnections = [] ∧
    (∀ e ∈ w.tab.peerConnections, ∀ pc, w.tab.conns[e.2]? = some pc →
      ∃ pc1, (leaveRoom removeOk w).tab.conns[e.2]? = some pc1 ∧ pc1.closed = true) ∧
    (∀ i ∈ w.tab.localStream.getD [], ∀ t, w.tab.tracks[i]? = some t →
      ∃ t1, (leaveRoom removeOk w).tab.tracks[i]? = some t1 ∧ t1.stopped = true) ∧
    (leaveRoom removeOk w).tab.localStream = none ∧
    (leaveRoom removeOk w).tab.roomId = none ∧
    (∀ room uid, w.tab.rtdb = true → w.tab.roomId = some room →
      w.tab.currentUser = some uid → (room, uid) ∉ (leaveRoom removeOk w).db.roomParticipants) := by
  obtain ⟨records, heq, hrec⟩ := leaveRoom_of_ok w removeOk h
  rw [heq]
  refine ⟨rfl, ?_, ?_, rfl, rfl, ?_⟩
  · intro e he pc hpc
    exact leaveCleanup_closes _ e he pc hpc
  · intro i hi t ht
    exact leaveCleanup_stops _ i hi t ht
  · intro room uid hdb hroom huser
    rw [hrec room uid hdb hroom huser]
    simp [leaveCleanup, dbRemove]

theorem C7_leaveRoom_postcondition_witness :
    (callsRemove withPeer = true → true = true) ∧
    (leaveRoom true withPeer).tab.peerConnections = [] ∧
    (leaveRoom true withPeer).tab.conns.map (fun pc => pc.closed) = [true] ∧
    (leaveRoom true withPeer).tab.tracks.map (fun t => t.stopped) = [true, true] ∧
    (leaveRoom true withPeer).tab.localStream = none ∧
    (leaveRoom true withPeer).tab.roomId = none ∧
    (7, 1) ∉ (leaveRoom true withPeer).db.roomParticipants :=
  have h := C7_leaveRoom_postcondition withPeer true (fun _ => rfl)
  ⟨fun _ => rfl, h.1, by decide, by decide, h.2.2.2.1, h.2.2.2.2.1,
    h.2.2.2.2.2 7 1 (by decide) (by decide) (by decide)⟩

/-! ## C8: leaveRoom twice -/

theorem leaveCleanup_of_outside (w : World) (hroom : w.tab.roomId = none)
    (hpcs : w.tab.peerConnections = []) (hstream : w.tab.localStream = none) :
    leaveCleanup w = w := by
  obtain ⟨tab, db⟩ := w
  cases tab
  simp only at hroom hpcs hstream
  subst hroom hpcs hstream
  rfl

theorem leaveRoom_of_outside (w : World) (removeOk : Bool) (hroom : w.tab.roomId = none)
    (hpcs : w.tab.peerConnections = []) (hstream : w.tab.localStream = none) :
    leaveRoom removeOk w = w := by
  unfold leaveRoom
  split
  · next room uid hdb hr hu =>
    rw [hroom] at hr
    cases hr
  · exact leaveCleanup_of_outside w hroom hpcs hstream

theorem leaveRoom_twice_of_ok (w : World) (o1 o2 : Bool)
    (h : callsRemove w = true → o1 = true) :
    leaveRoom o2 (leaveRoom o1 w) = leaveRoom o1 w := by
  obtain ⟨records, heq, _⟩ := leaveRoom_of_ok w o1 h
  rw [heq]
  exact leaveRoom_of_outside _ o2 rfl rfl rfl

theorem leaveRoom_of_rejected (w : World) (h : callsRemove w = true) :
    leaveRoom false w = w := by
  unfold leaveRoom
  split
  · rfl
  · next hno =>
    exfalso
    simp only [callsRemove, Bool.and_eq_true, Option.isSome_iff_exists] at h
    obtain ⟨⟨hdb, room, hroom⟩, uid, huser⟩ := h
    exact hno _ _ hdb hroom huser

theorem leaveRoom_twice_same (w : World) (o : Bool) :
    leaveRoom o (leaveRoom o w) = leaveRoom o w := by
  cases o with
  | true => exact leaveRoom_twice_of_ok w true true (fun _ => rfl)
  | false =>
    by_cases hc : callsRemove w = true
    · rw [leaveRoom_of_rejected w hc, leaveRoom_of_rejected w hc]
    · exact leaveRoom_twice_of_ok w false false (fun h => absurd h hc)

theorem leaveRoom_twice_is_once (w : World) (o1 o2 : Bool) :
    ∃ o, leaveRoom o2 (leaveRoom o1 w) = leaveRoom o w := by
  by_cases hc : callsRemove w = true → o1 = true
  · exact ⟨o1, leaveRoom_twice_of_ok w o1 o2 hc⟩
  · have hcalls : callsRemove w = true := by
      by_contra hn
      exact hc (fun h => absurd h hn)
    have ho1 : o1 = false := by
      cases o1 with
      | true => exact absurd (fun _ => rfl) hc
      | false => rfl
    subst ho1
    exact ⟨o2, by rw [leaveRoom_of_rejected w hcalls]⟩

/-- A retry: on the state where user 1 is in room 7 with a connection to
participant 2, a `leaveRoom` whose `remove()` is rejected changes nothing, and a
second `leaveRoom` whose `remove()` succeeds ends in the state of a single
successful `leaveRoom`. -/
theorem leaveRoom_rejected_then_accepted :
    leaveRoom false withPeer = withPeer ∧
    leaveRoom true (leaveRoom false withPeer) = leaveRoom true withPeer := by
  decide

/-- C8 (idempotence).  Outside a room (`roomId = null`, empty registry, no local
stream) `leaveRoom` leaves the tab and the database, presence records and mailboxes
included, unchanged.  And `leaveRoom` followed by `leaveRoom` yields the state of a
single `leaveRoom`: under the same outcome of the awaited `remove()` the two states
are equal, after a `leaveRoom` that was not rejected a further call changes nothing
whatever its outcome, and in every case the state after two calls is the state
after one call. -/
theorem C8_leaveRoom_idempotent (w : World) (o1 o2 : Bool) :
    (w.tab.roomId = none → w.tab.peerConnections = [] → w.tab.localStream = none →
      leaveRoom o1 w = w) ∧
    leaveRoom o1 (leaveRoom o1 w) = leaveRoom o1 w ∧
    leaveRoom o2 (leaveRoom true w) = leaveRoom true w ∧
    (∃ o, leaveRoom o2 (leaveRoom o1 w) = leaveRoom o w) :=
  ⟨leaveRoom_of_outside w o1, leaveRoom_twice_same w o1,
    leaveRoom_twice_of_ok w true o2 (fun _ => rfl), leaveRoom_twice_is_once w o1 o2⟩

theorem C8_leaveRoom_idempotent_witness :
    (World.mk (freshTab 1) emptyDb).tab.roomId = none ∧
    (World.mk (freshTab 1) emptyDb).tab.peerConnections = [] ∧
    (World.mk (freshTab 1) emptyDb).tab.localStream = none ∧
    leaveRoom false (World.mk (freshTab 1) emptyDb) = World.mk (freshTab 1) emptyDb ∧
    leaveRoom false (leaveRoom true withPeer) = leaveRoom true withPeer :=
  ⟨rfl, rfl, rfl,
    (C8_leaveRoom_idempotent (World.mk (freshTab 1) emptyDb) false false).1 rfl rfl rfl,
    (C8_leaveRoom_idempotent withPeer true false).2.2.1⟩

/-! ## C9: callbacks delivered after leaveRoom -/

theorem sendSignalingMessage_of_no_room (p : ParticipantId) (m : Message) (w : World)
    (h : w.tab.roomId = none) : sendSignalingMessage p m w = w := by
  unfold sendSignalingMessage
  split
  · next room hdb hroom =>
    rw [h] at hroom
    cases hroom
  · rfl

theorem createPeerConnection_pushed_of_no_room (link : Link) (p : ParticipantId) (co : Bool)
    (w : World) (h : w.tab.roomId = none) :
    (createPeerConnection link p co w).db.pushed = w.db.pushed := by
  unfold createPeerConnection
  simp only
  split
  · split
    · rw [sendSignalingMessage_of_no_room _ _ _ (by simpa using h)]
      simp
    · simp
  · simp

theorem onSignalingMessage_pushed_of_no_room (link : Link) (l : SignalingListener) (key : Nat)
    (m : Message) (w : World) (h : w.tab.roomId = none) :
    (onSignalingMessage link l key m w).db.pushed = w.db.pushed := by
  unfold onSignalingMessage
  split
  · rfl
  · split
    · rfl
    · split
      · simp
      · simp
      · rw [sendSignalingMessage_of_no_room _ _ _ (by simpa using h)]
        simp

theorem handle_pushed_of_no_room (link : Link) (e : Event) (w : World)
    (h : w.tab.roomId = none) : (handle link e w).db.pushed = w.db.pushed := by
  cases e with
  | childAdded p =>
    simp only [handle, onChildAdded]
    split
    · rfl
    · exact createPeerConnection_pushed_of_no_room link p true w h
  | childRemoved p =>
    simp only [handle, onChildRemoved, removePeerConnection]
    split <;> rfl
  | signaling l key m => exact onSignalingMessage_pushed_of_no_room link l key m w h

theorem run_pushed_of_no_room (link : Link) (es : List Event) (w : World)
    (h : w.tab.roomId = none) : (run link es w).db.pushed = w.db.pushed := by
  induction es generalizing w with
  | nil => rfl
  | cons e es ih =>
    rw [run_cons, ih (handle link e w) (by rw [handle_roomId]; exact h),
      handle_pushed_of_no_room link e w h]

theorem leaveRoom_listeners (w : World) (o : Bool) :
    (leaveRoom o w).tab.participantListeners = w.tab.participantListeners ∧
    (leaveRoom o w).tab.signalingListeners = w.tab.signalingListeners := by
  unfold leaveRoom
  split
  · split <;> exact ⟨rfl, rfl⟩
  · exact ⟨rfl, rfl⟩

theorem leaveRoom_currentUser (w : World) (o : Bool) :
    (leaveRoom o w).tab.currentUser = w.tab.currentUser := by
  unfold leaveRoom
  split
  · split <;> rfl
  · rfl

/-- C9, on a concrete state: user 1 leaves room 7 (the `remove()` succeeds).  Both
subscriptions are still registered, and a `child_added` for participant 3 delivered
afterwards creates a second connection object and a registry entry for 3. -/
theorem C9_events_after_leave_counterexample :
    (leaveRoom true withPeer).tab.peerConnections = [] ∧
    (leaveRoom true withPeer).tab.participantListeners = [7] ∧
    (leaveRoom true withPeer).tab.signalingListeners = [⟨some 7, some 1, 2, 0⟩] ∧
    (handle browserLink (Event.childAdded 3) (leaveRoom true withPeer)).tab.peerConnections =
      [(3, 1)] ∧
    (handle browserLink (Event.childAdded 3) (leaveRoom true withPeer)).tab.conns.length = 2 := by
  decide

/-- C9 as amended.  `leaveRoom` unsubscribes from nothing: the presence and mailbox
callbacks registered before are registered after, and a `child_added` for a remote
participant delivered after `leaveRoom` still creates a registry entry.  But once
`leaveRoom` has run through, no callback delivered later pushes a signaling message
(`roomId` stays `null` under every callback). -/
theorem C9_events_after_leave (link : Link) (w : World) (o : Bool)
    (h : callsRemove w = true → o = true) :
    (leaveRoom o w).tab.participantListeners = w.tab.participantListeners ∧
    (leaveRoom o w).tab.signalingListeners = w.tab.signalingListeners ∧
    (∀ p, some p ≠ w.tab.currentUser →
      p ∈ keys (handle link (Event.childAdded p) (leaveRoom o w)).tab.peerConnections) ∧
    (∀ es, (run link es (leaveRoom o w)).db.pushed = (leaveRoom o w).db.pushed ∧
      (run link es (leaveRoom o w)).tab.roomId = none) := by
  have hroom : (leaveRoom o w).tab.roomId = none := by
    obtain ⟨records, heq, _⟩ := leaveRoom_of_ok w o h
    rw [heq]
    rfl
  refine ⟨(leaveRoom_listeners w o).1, (leaveRoom_listeners w o).2, ?_, ?_⟩
  · intro p hp
    rw [mem_keys_handle]
    exact Or.inl ⟨rfl, by rw [leaveRoom_currentUser]; exact hp⟩
  · intro es
    exact ⟨run_pushed_of_no_room link es _ hroom, by rw [run_roomId]; exact hroom⟩

theorem C9_events_after_leave_witness :
    (callsRemove withPeer = true → true = true) ∧
    some 3 ≠ withPeer.tab.currentUser ∧
    3 ∈ keys (handle browserLink (Event.childAdded 3)
      (leaveRoom true withPeer)).tab.peerConnections ∧
    (run browserLink
        [Event.childAdded 3,
          Event.signaling ⟨some 7, some 1, 2, 0⟩ 5 ⟨MsgType.offer, 9, some 2, none⟩]
        (leaveRoom true withPeer)).db.pushed = (leaveRoom true withPeer).db.pushed :=
  have h := C9_events_after_leave browserLink withPeer true (fun _ => rfl)
  ⟨fun _ => rfl, by decide, h.2.2.1 3 (by decide), (h.2.2.2 _).1⟩

/-! ## `joinRoom`, the registry and the presence records -/

theorem joinRoom_registry (room : RoomId) (media : Except MediaError (List TrackKind))
    (setOk : Bool) (w : World) :
    (joinRoom room media setOk w).1.tab.peerConnections = w.tab.peerConnections ∧
    (joinRoom room media setOk w).1.tab.conns = w.tab.conns := by
  unfold joinRoom startLocalStream addToRoomParticipants listenForParticipants showNotification
  cases media with
  | error e => cases e <;> exact ⟨rfl, rfl⟩
  | ok kinds =>
    cases hdb : w.tab.rtdb <;> cases hu : w.tab.currentUser <;> cases setOk <;>
      simp [hdb, hu]

theorem joinRoom_records (room : RoomId) (media : Except MediaError (List TrackKind))
    (setOk : Bool) (w : World) (uid : ParticipantId)
    (hdb : w.tab.rtdb = true) (huser : w.tab.currentUser = some uid)
    (hjoin : (joinRoom room media setOk w).2 = true) :
    (joinRoom room media setOk w).1.db.roomParticipants =
      dbSet w.db.roomParticipants room uid := by
  revert hjoin
  unfold joinRoom startLocalStream addToRoomParticipants listenForParticipants showNotification
  cases media with
  | error e => cases e <;> simp
  | ok kinds => cases setOk <;> simp [hdb, huser]

theorem count_dbSet_dbRemove (records : List (RoomId × ParticipantId)) (room : RoomId)
    (uid : ParticipantId) :
    (dbSet (dbRemove records room uid) room uid).count (room, uid) = 1 := by
  have hnot : (room, uid) ∉ dbRemove records room uid := by
    simp [dbRemove]
  unfold dbSet
  rw [if_neg hnot, List.count_append, List.count_eq_zero_of_not_mem hnot]
  simp

theorem foldl_closeConn_length (ids : List Nat) (conns : List RTCPeerConnection) :
    (ids.foldl closeConn conns).length = conns.length := by
  induction ids generalizing conns with
  | nil => rfl
  | cons i rest ih => rw [List.foldl_cons, ih, closeConn_length]

theorem mem_mapSet (m : List (ParticipantId × Nat)) (p : ParticipantId) (v : Nat)
    (e : ParticipantId × Nat) (h : e ∈ mapSet m p v) : e ∈ m ∨ e = (p, v) := by
  induction m with
  | nil =>
    simp only [mapSet, List.mem_singleton] at h
    exact Or.inr h
  | cons x rest ih =>
    obtain ⟨k, y⟩ := x
    by_cases hk : k = p
    · simp only [mapSet, hk, if_true, List.mem_cons] at h
      rcases h with h | h
      · exact Or.inr h
      · exact Or.inl (List.mem_cons_of_mem _ h)
    · simp only [mapSet, hk, if_false, List.mem_cons] at h
      rcases h with h | h
      · exact Or.inl (h ▸ List.mem_cons_self _ _)
      · rcases ih h with h1 | h1
        · exact Or.inl (List.mem_cons_of_mem _ h1)
        · exact Or.inr h1

theorem removePeerConnection_conns_length (p : ParticipantId) (w : World) :
    (removePeerConnection p w).tab.conns.length = w.tab.conns.length := by
  unfold removePeerConnection
  split
  · exact closeConn_length _ _
  · rfl

theorem handle_createdAfter (link : Link) (n : Nat) (e : Event) (w : World)
    (h : CreatedAfter n w) : CreatedAfter n (handle link e w) := by
  obtain ⟨hlen, hreg⟩ := h
  cases e with
  | childAdded p =>
    simp only [handle, onChildAdded]
    split
    · exact ⟨hlen, hreg⟩
    · refine ⟨?_, ?_⟩
      · rw [createPeerConnection_conns_length]
        exact Nat.le_succ_of_le hlen
      · intro x hx
        rw [createPeerConnection_peerConnections] at hx
        rcases mem_mapSet _ _ _ _ hx with hx | hx
        · exact hreg x hx
        · rw [hx]
          exact hlen
  | childRemoved p =>
    simp only [handle, onChildRemoved]
    refine ⟨?_, ?_⟩
    · rw [removePeerConnection_conns_length]
      exact hlen
    · intro x hx
      rw [removePeerConnection_peerConnections] at hx
      exact hreg x (List.mem_of_mem_filter hx)
  | signaling l key m =>
    simp only [handle]
    refine ⟨?_, ?_⟩
    · rw [onSignalingMessage_conns_length]
      exact hlen
    · intro x hx
      rw [onSignalingMessage_peerConnections] at hx
      exact hreg x hx

theorem run_createdAfter (link : Link) (n : Nat) (es : List Event) (w : World)
    (h : CreatedAfter n w) : CreatedAfter n (run link es w) := by
  induction es generalizing w with
  | nil => exact h
  | cons e es ih =>
    rw [run_cons]
    exact ih _ (handle_createdAfter link n e w h)

theorem leaveRoom_true_eq (w : World) :
    ∃ records, leaveRoom true w =
        leaveCleanup { w with db := { w.db with roomParticipants := records } } ∧
      ∀ room uid, w.tab.rtdb = true → w.tab.roomId = some room →
        w.tab.currentUser = some uid → records = dbRemove w.db.roomParticipants room uid :=
  leaveRoom_of_ok w true (fun _ => rfl)

/-! ## `joinRoom` when it returns `false` -/

/-- `joinRoom` when `getUserMedia` is rejected. -/
theorem joinRoom_media_error (room : RoomId) (e : MediaError) (setOk : Bool) (w : World) :
    joinRoom room (Except.error e) setOk w =
      (showNotification "Failed to join video chat."
        (showNotification (mediaErrorText e)
          { w with tab := { w.tab with roomId := some room } }), false) := by
  cases e <;> rfl

/-- `joinRoom` when `getUserMedia` resolves and the awaited `set()` is rejected. -/
theorem joinRoom_set_rejected (room : RoomId) (kinds : List TrackKind) (setOk : Bool)
    (w : World) (h : (joinRoom room (Except.ok kinds) setOk w).2 = false) :
    w.tab.rtdb = true ∧
    (joinRoom room (Except.ok kinds) setOk w).1 =
      showNotification "Failed to join video chat."
        { w with tab := { w.tab with
            roomId := some room,
            tracks := w.tab.tracks ++ kinds.map newTrack,
            localStream := some (List.range' w.tab.tracks.length kinds.length),
            participantListeners := w.tab.participantListeners ++ [room] } } := by
  revert h
  unfold joinRoom startLocalStream addToRoomParticipants listenForParticipants
  cases hdb : w.tab.rtdb <;> cases hu : w.tab.currentUser <;> cases setOk <;>
    simp [hdb, hu]

/-! ## `joinRoom` when it returns `true` -/

/-- `joinRoom` when it returns `true`. -/
theorem joinRoom_success (room : RoomId) (media : Except MediaError (List TrackKind))
    (setOk : Bool) (w : World) (h : (joinRoom room media setOk w).2 = true) :
    ∃ kinds, media = Except.ok kinds ∧
      (joinRoom room media setOk w).1.tab =
        { w.tab with
          roomId := some room,
          tracks := w.tab.tracks ++ kinds.map newTrack,
          localStream := some (List.range' w.tab.tracks.length kinds.length),
          participantListeners :=
            if w.tab.rtdb then w.tab.participantListeners ++ [room]
            else w.tab.participantListeners } := by
  cases media with
  | error e =>
    rw [joinRoom_media_error] at h
    cases h
  | ok kinds =>
    refine ⟨kinds, rfl, ?_⟩
    revert h
    unfold joinRoom startLocalStream addToRoomParticipants listenForParticipants
    cases hdb : w.tab.rtdb <;> cases hu : w.tab.currentUser <;> cases setOk <;>
      simp [hdb, hu, showNotification]

/-! ## C13: joinStudyRoom when the WebRTC joinRoom fails -/

theorem getRoom_addParticipant (rooms : List (RoomId × RoomDoc)) (roomId : RoomId)
    (uid : ParticipantId) (room : RoomDoc) (h : getRoom rooms roomId = some room) :
    getRoom (addParticipant rooms roomId uid) roomId =
      some { room with participants := some (arrayUnion room.participants uid) } := by
  induction rooms with
  | nil => simp [getRoom] at h
  | cons e rest ih =>
    obtain ⟨k, d⟩ := e
    by_cases hk : k = roomId
    · simp only [getRoom, hk, if_true, Option.some.injEq] at h
      subst h
      simp [addParticipant, getRoom, hk]
    · simp only [getRoom, hk, if_false] at h
      simp [addParticipant, getRoom, hk, ih h]

theorem mem_arrayUnion (participants : Option (List ParticipantId)) (uid : ParticipantId) :
    uid ∈ arrayUnion participants uid := by
  unfold arrayUnion
  split
  · assumption
  · simp

/-- What `joinStudyRoom` does once the room has been read and found not full,
the user being listed already or the `update()` resolving. -/
theorem joinStudyRoom_admitted (roomId : RoomId) (updateOk : Bool)
    (media : Except MediaError (List TrackKind)) (setOk : Bool) (a : App)
    (uid : ParticipantId) (room : RoomDoc)
    (huser : a.world.tab.currentUser = some uid)
    (hroom : getRoom a.studyRooms roomId = some room)
    (hfull : roomIsFull room = false)
    (hupd : uid ∈ room.participants.getD [] ∨ updateOk = true) :
    (joinStudyRoom roomId true updateOk media setOk a).currentRoom = some roomId ∧
    (joinStudyRoom roomId true updateOk media setOk a).studyRooms =
      (if uid ∈ room.participants.getD [] then a.studyRooms
        else addParticipant a.studyRooms roomId uid) := by
  unfold joinStudyRoom
  simp only [huser, hroom, hfull, if_true, Bool.false_eq_true, if_false, hupd]
  split <;> exact ⟨rfl, rfl⟩

/-- C13, on a concrete run: user 1 joins study room 7, which holds participant 2
and has room for six, and `getUserMedia` is rejected, so that the WebRTC
`joinRoom(7)` returns `false`.  Afterwards user 1 is listed in the participants of
room 7 and `currentRoom` is 7. -/
theorem C13_ghost_membership_counterexample :
    (joinRoom 7 (Except.error MediaError.notAllowed) true lobby.world).2 = false ∧
    getRoom lobby.studyRooms 7 = some { participants := some [2], maxParticipants := some 6 } ∧
    getRoom (joinStudyRoom 7 true true (Except.error MediaError.notAllowed) true lobby).studyRooms
      7 = some { participants := some [2, 1], maxParticipants := some 6 } ∧
    (joinStudyRoom 7 true true (Except.error MediaError.notAllowed) true lobby).currentRoom =
      some 7 := by
  decide

/-- C13 as amended.  `joinStudyRoom` does not look at the result of the WebRTC
`joinRoom`: the participants lists and `currentRoom` it leaves are the same
whatever the outcome of `joinRoom`.  So when the room exists and is not full (and
the `update()` that adds the user, if needed, resolves), the user is listed in the
participants of the room and `currentRoom` is the room, also when `joinRoom`
failed. -/
theorem C13_membership_kept_on_failure (roomId : RoomId) (getOk updateOk : Bool)
    (media media1 : Except MediaError (List TrackKind)) (setOk setOk1 : Bool) (a : App) :
    (joinStudyRoom roomId getOk updateOk media setOk a).currentRoom =
      (joinStudyRoom roomId getOk updateOk media1 setOk1 a).currentRoom ∧
    (joinStudyRoom roomId getOk updateOk media setOk a).studyRooms =
      (joinStudyRoom roomId getOk updateOk media1 setOk1 a).studyRooms ∧
    (∀ uid room, a.world.tab.currentUser = some uid → getOk = true →
      getRoom a.studyRooms roomId = some room → roomIsFull room = false →
      (uid ∈ room.participants.getD [] ∨ updateOk = true) →
      (joinStudyRoom roomId getOk updateOk media setOk a).currentRoom = some roomId ∧
      ∃ room1, getRoom (joinStudyRoom roomId getOk updateOk media setOk a).studyRooms roomId =
          some room1 ∧ uid ∈ room1.participants.getD []) := by
  refine ⟨?_, ?_, ?_⟩
  · unfold joinStudyRoom
    repeat' split
    all_goals rfl
  · unfold joinStudyRoom
    repeat' split
    all_goals rfl
  · intro uid room huser hget hroom hfull hupd
    subst hget
    obtain ⟨hcur, hrooms⟩ :=
      joinStudyRoom_admitted roomId updateOk media setOk a uid room huser hroom hfull hupd
    refine ⟨hcur, ?_⟩
    rw [hrooms]
    split
    · next hmem => exact ⟨room, hroom, hmem⟩
    · exact ⟨_, getRoom_addParticipant _ _ uid room hroom, by
        simpa using mem_arrayUnion room.participants uid⟩

theorem C13_membership_kept_on_failure_witness :
    lobby.world.tab.currentUser = some 1 ∧
    getRoom lobby.studyRooms 7 = some { participants := some [2], maxParticipants := some 6 } ∧
    roomIsFull { participants := some [2], maxParticipants := some 6 } = false ∧
    (joinRoom 7 (Except.error MediaError.notFound) true lobby.world).2 = false ∧
    (joinStudyRoom 7 true true (Except.error MediaError.notFound) true lobby).currentRoom =
      some 7 ∧
    ∃ room1, getRoom (joinStudyRoom 7 true true (Except.error MediaError.notFound) true
        lobby).studyRooms 7 = some room1 ∧ 1 ∈ room1.participants.getD [] :=
  have h := (C13_membership_kept_on_failure 7 true true (Except.error MediaError.notFound)
    cameraAndMic true true lobby).2.2 1
    { participants := some [2], maxParticipants := some 6 } rfl rfl (by decide) (by decide)
    (Or.inr rfl)
  ⟨rfl, by decide, by decide, by decide, h.1, h.2⟩

/-! ## C14: notifications of a failed joinRoom -/

/-- C14, on concrete runs of `joinRoom(7)` from a fresh tab: when `getUserMedia` is
rejected for lack of permission, two notifications are shown, the one of
`startLocalStream` and the one of `joinRoom`; likewise for a missing device. -/
theorem C14_single_notification_counterexample :
    (joinRoom 7 (Except.error MediaError.notAllowed) true
      (World.mk (freshTab 1) emptyDb)).1.tab.notifications =
        ["Camera/microphone access denied. Please allow access and try again.",
         "Failed to join video chat."] ∧
    (joinRoom 7 (Except.error MediaError.notFound) true
      (World.mk (freshTab 1) emptyDb)).1.tab.notifications.length = 2 := by
  decide

/-- C14 as amended.  Every failing run of `joinRoom` ends by showing the
notification `Failed to join video chat.` once; when the cause is a rejected
`getUserMedia` (permission denied, no device, other) it is preceded by the one
notification of `startLocalStream` for that cause, two in total; when the cause is
a rejected presence `set()` it is the only one. -/
theorem C14_failure_notifications (room : RoomId)
    (media : Except MediaError (List TrackKind)) (setOk : Bool) (w : World)
    (h : (joinRoom room media setOk w).2 = false) :
    (∀ e, media = Except.error e →
      (joinRoom room media setOk w).1.tab.notifications =
        w.tab.notifications ++ [mediaErrorText e, "Failed to join video chat."]) ∧
    (∀ kinds, media = Except.ok kinds →
      (joinRoom room media setOk w).1.tab.notifications =
        w.tab.notifications ++ ["Failed to join video chat."]) := by
  refine ⟨?_, ?_⟩
  · intro e he
    subst he
    rw [joinRoom_media_error]
    simp [showNotification]
  · intro kinds hk
    subst hk
    rw [(joinRoom_set_rejected room kinds setOk w h).2]
    rfl

theorem C14_failure_notifications_witness :
    (joinRoom 7 cameraAndMic false (World.mk (freshTab 1) emptyDb)).2 = false ∧
    (joinRoom 7 cameraAndMic false (World.mk (freshTab 1) emptyDb)).1.tab.notifications =
      (World.mk (freshTab 1) emptyDb).tab.notifications ++ ["Failed to join video chat."] :=
  ⟨by decide,
    (C14_failure_notifications 7 cameraAndMic false (World.mk (freshTab 1) emptyDb)
      (by decide)).2 _ rfl⟩

/-! ## C15: the initiator start -/

theorem mapSet_of_absent (m : List (ParticipantId × Nat)) (p : ParticipantId) (v : Nat)
    (h : mapGet m p = none) : mapSet m p v = m ++ [(p, v)] := by
  induction m with
  | nil => rfl
  | cons e rest ih =>
    obtain ⟨k, x⟩ := e
    by_cases hk : k = p
    · simp [mapGet, hk] at h
    · simp only [mapGet, hk, if_false] at h
      simp [mapSet, hk, ih h]

theorem startOffer_some (link : Link) (pc pc1 : RTCPeerConnection) (offer : Nat)
    (h : startOffer link pc = (pc1, some offer)) :
    link.createOffer pc = some offer ∧ pc1.localDescription = some offer ∧
    pc1.closed = pc.closed ∧ pc1.offerer = pc.offerer := by
  revert h
  unfold startOffer
  dsimp only
  split
  · next o ho =>
    split
    · intro h
      simp only [Prod.mk.injEq, Option.some.injEq] at h
      obtain ⟨h1, h2⟩ := h
      subst h1 h2
      exact ⟨ho, rfl, rfl, rfl⟩
    · intro h
      simp at h
  · intro h
    simp at h

/-- C15 (initiator start).  With the manager in a room and the database
available, the `child_added` callback for a participant `p` other than the local
user `uid` and without registry entry appends one entry for `p`, pointing to a new
connection object built with `createOffer = true`; when `createOffer` and
`setLocalDescription` resolve on it, the created offer is the local description of
that object, and exactly one message, of type `offer`, carrying that offer, with
`from = uid`, is appended to `signaling/{roomId}/{p}`, nothing else in the database
being changed. -/
theorem C15_initiator_start (link : Link) (w : World) (p uid : ParticipantId)
    (room : RoomId) (offer : Nat) (pc1 : RTCPeerConnection)
    (huser : w.tab.currentUser = some uid) (hself : p ≠ uid)
    (hnew : mapGet w.tab.peerConnections p = none)
    (hdb : w.tab.rtdb = true) (hroom : w.tab.roomId = some room)
    (hstart : startOffer link (newPeerConnection w.tab.localStream true) = (pc1, some offer)) :
    (onChildAdded link p w).tab.peerConnections =
      w.tab.peerConnections ++ [(p, w.tab.conns.length)] ∧
    (onChildAdded link p w).tab.conns = w.tab.conns ++ [pc1] ∧
    link.createOffer (newPeerConnection w.tab.localStream true) = some offer ∧
    pc1.localDescription = some offer ∧ pc1.offerer = true ∧ pc1.closed = false ∧
    (onChildAdded link p w).db =
      { w.db with
        signaling := w.db.signaling ++
          [{ room := room, recipient := p, key := w.db.pushed.length,
             msg := { type := MsgType.offer, payload := offer, sender := some uid,
                      timestamp := some w.db.serverTime } }],
        pushed := w.db.pushed ++
          [{ room := room, recipient := p, key := w.db.pushed.length,
             msg := { type := MsgType.offer, payload := offer, sender := some uid,
                      timestamp := some w.db.serverTime } }] } := by
  have hne : ¬ (some p = w.tab.currentUser) := by
    rw [huser]
    intro h
    exact hself (Option.some.inj h)
  obtain ⟨hcreate, hlocal, hclosed, hrole⟩ := startOffer_some link _ pc1 offer hstart
  simp only [onChildAdded, hne, if_false]
  rw [createPeerConnection_eq link p w room offer _ hdb hroom hstart]
  refine ⟨?_, rfl, hcreate, hlocal, hrole, hclosed, ?_⟩
  · exact mapSet_of_absent _ _ _ hnew
  · simp [pushedItem, offerMsg, huser]

theorem C15_initiator_start_witness :
    inRoom.tab.currentUser = some 1 ∧ (2 : ParticipantId) ≠ 1 ∧
    mapGet inRoom.tab.peerConnections 2 = none ∧
    inRoom.tab.rtdb = true ∧ inRoom.tab.roomId = some 7 ∧
    (startOffer browserLink (newPeerConnection inRoom.tab.localStream true)).2 = some 102 ∧
    (onChildAdded browserLink 2 inRoom).tab.peerConnections =
      inRoom.tab.peerConnections ++ [(2, inRoom.tab.conns.length)] ∧
    (onChildAdded browserLink 2 inRoom).db.signaling =
      [{ room := 7, recipient := 2, key := 0,
         msg := { type := MsgType.offer, payload := 102, sender := some 1,
                  timestamp := some 0 } }] :=
  have h := C15_initiator_start browserLink inRoom 2 1 7 102
    (startOffer browserLink (newPeerConnection inRoom.tab.localStream true)).1
    rfl (by decide) (by decide) rfl (by decide) (by decide)
  ⟨rfl, by decide, by decide, rfl, by decide, by decide, h.1, by rw [h.2.2.2.2.2.2]; rfl⟩

/-! ## C16: forwarding of local candidates -/

/-- C16, on concrete states.  (a) User 1 has an open connection (object 1) to
participant 3 while `roomId` is `null`: the candidate 5 reported for it is dropped,
nothing is pushed.  (b) User 1 created the connection to participant 2 in room 7
and has since joined room 8: the candidate 5 reported for it is pushed under room
8, not under room 7. -/
theorem C16_trickle_forwarding_counterexample :
    mapGet peerAfterLeave.tab.peerConnections 3 = some 1 ∧
    peerAfterLeave.tab.conns.map (fun pc => (pc.closed, pc.localDescription)) =
      [(true, some 102), (false, some 100)] ∧
    peerAfterLeave.tab.roomId = none ∧
    onIceCandidate 3 (some 5) peerAfterLeave = peerAfterLeave ∧
    mapGet movedRoom.tab.peerConnections 2 = some 0 ∧
    (onIceCandidate 2 (some 5) movedRoom).db.signaling.map
        (fun it => (it.room, it.recipient, it.msg.type, it.msg.payload)) =
      [(7, 2, MsgType.offer, 102), (8, 2, MsgType.iceCandidate, 5)] := by
  decide

/-- C16 as amended.  The handler does not look at the connection: whatever the
negotiation state, a non-null candidate reported for the connection to `p` is
pushed as exactly one `ice-candidate` message carrying it, with `from` the local
user, to `signaling/{this.roomId}/{p}`, the rest of the state being unchanged,
provided the database is available and `roomId` is non-null at that moment; when
`roomId` is `null` or the database unavailable the candidate is dropped; and a
`null` candidate does nothing. -/
theorem C16_trickle_forwarding (w : World) (p : ParticipantId) (c : Nat) :
    (∀ room, w.tab.rtdb = true → w.tab.roomId = some room →
      onIceCandidate p (some c) w =
        { w with db := { w.db with
            signaling := w.db.signaling ++
              [{ room := room, recipient := p, key := w.db.pushed.length,
                 msg := { type := MsgType.iceCandidate, payload := c,
                          sender := w.tab.currentUser,
                          timestamp := some w.db.serverTime } }],
            pushed := w.db.pushed ++
              [{ room := room, recipient := p, key := w.db.pushed.length,
                 msg := { type := MsgType.iceCandidate, payload := c,
                          sender := w.tab.currentUser,
                          timestamp := some w.db.serverTime } }] } }) ∧
    ((w.tab.roomId = none ∨ w.tab.rtdb = false) → onIceCandidate p (some c) w = w) ∧
    onIceCandidate p none w = w := by
  refine ⟨?_, ?_, rfl⟩
  · intro room hdb hroom
    simp [onIceCandidate, sendIceCandidate, sendSignalingMessage, hdb, hroom]
  · intro h
    simp only [onIceCandidate, sendIceCandidate, sendSignalingMessage]
    rcases h with h | h
    · split
      · next hroom =>
        rw [h] at hroom
        cases hroom
      · rfl
    · split
      · next hdb _ =>
        rw [h] at hdb
        cases hdb
      · rfl

theorem C16_trickle_forwarding_witness :
    withPeer.tab.rtdb = true ∧ withPeer.tab.roomId = some 7 ∧
    (onIceCandidate 2 (some 5) withPeer).db.signaling.map
        (fun it => (it.room, it.recipient, it.msg.type, it.msg.payload, it.msg.sender)) =
      [(7, 2, MsgType.offer, 102, some 1), (7, 2, MsgType.iceCandidate, 5, some 1)] ∧
    (peerAfterLeave.tab.roomId = none ∨ peerAfterLeave.tab.rtdb = false) ∧
    onIceCandidate 3 (some 9) peerAfterLeave = peerAfterLeave :=
  have h := C16_trickle_forwarding withPeer 2 5
  have h1 := C16_trickle_forwarding peerAfterLeave 3 9
  ⟨rfl, by decide, by rw [h.1 7 rfl (by decide)]; decide, Or.inl (by decide),
    h1.2.1 (Or.inl (by decide))⟩

/-! ## C17: a failure while applying a message -/

theorem applyMessage_closed (link : Link) (m : Message) (pc : RTCPeerConnection) :
    (applyMessage link m pc).1.closed = pc.closed := by
  unfold applyMessage
  split
  · unfold applyOffer
    dsimp only
    split
    · split
      · split
        · split <;> rfl
        · rfl
      · rfl
    · rfl
  · unfold applyAnswer
    dsimp only
    split
    · split <;> rfl
    · rfl
  · unfold applyCandidate
    dsimp only
    split
    · split <;> rfl
    · rfl
  · rfl

/-- The callback when the `try` block throws: only the connection object of the
listener is written. -/
theorem onSignalingMessage_of_threw (link : Link) (l : SignalingListener) (key : Nat)
    (m : Message) (w : World) (pc : RTCPeerConnection)
    (hfrom : m.sender = some l.participantId)
    (hpc : w.tab.conns[l.peerConnection]? = some pc)
    (hthrew : (applyMessage link m pc).2 = Outcome.threw) :
    onSignalingMessage link l key m w = putConn l.peerConnection (applyMessage link m pc).1 w := by
  unfold onSignalingMessage
  simp only [hfrom, ne_eq, not_true_eq_false, if_false, hpc]
  split
  · next heq => rw [heq]
  · next heq =>
    rw [heq] at hthrew
    cases hthrew
  · next heq =>
    rw [heq] at hthrew
    cases hthrew

/-- C17, on a concrete state: user 1 is in room 7 with an open connection (object
0) to participant 2, who sends the malformed answer 0.  Its
`setRemoteDescription` is rejected; afterwards the entry of 2 is still in the
registry, object 0 is still open, and the message is still in the mailbox. -/
theorem C17_malformed_input_counterexample :
    (applyMessage pickyLink ⟨MsgType.answer, 0, some 2, some 0⟩
      (startOffer browserLink (newPeerConnection inRoom.tab.localStream true)).1).2 =
        Outcome.threw ∧
    (deliverMail pickyLink malformedAnswer).tab.peerConnections = [(2, 0)] ∧
    (deliverMail pickyLink malformedAnswer).tab.conns.map (fun pc => pc.closed) = [false] ∧
    (deliverMail pickyLink malformedAnswer).tab.conns.map (fun pc => pc.calls) =
      [[LinkCall.addTrack 0, LinkCall.addTrack 1, LinkCall.createOffer,
        LinkCall.setLocalDescription 102, LinkCall.setRemoteDescription 0]] ∧
    (deliverMail pickyLink malformedAnswer).db.signaling.map
        (fun it => (it.recipient, it.msg.type, it.msg.payload)) =
      [(2, MsgType.offer, 102), (1, MsgType.answer, 0)] := by
  decide

/-- C17 as amended.  A failure while applying a received offer, answer or
candidate from the listener's participant is only logged: the registry is
unchanged (the entry of the participant stays), the connection object is not
closed by the callback, and the database is unchanged, so nothing is sent and the
message stays in the mailbox. -/
theorem C17_failure_only_logged (link : Link) (l : SignalingListener) (key : Nat)
    (m : Message) (w : World) (pc : RTCPeerConnection)
    (hfrom : m.sender = some l.participantId)
    (hpc : w.tab.conns[l.peerConnection]? = some pc)
    (hthrew : (applyMessage link m pc).2 = Outcome.threw) :
    (onSignalingMessage link l key m w).tab.peerConnections = w.tab.peerConnections ∧
    (onSignalingMessage link l key m w).db = w.db ∧
    (∃ pc1, (onSignalingMessage link l key m w).tab.conns[l.peerConnection]? = some pc1 ∧
      pc1.closed = pc.closed) := by
  have hlt : l.peerConnection < w.tab.conns.length := by
    by_contra hc
    rw [List.getElem?_eq_none (Nat.le_of_not_lt hc)] at hpc
    cases hpc
  rw [onSignalingMessage_of_threw link l key m w pc hfrom hpc hthrew]
  refine ⟨rfl, rfl, (applyMessage link m pc).1, ?_, applyMessage_closed link m pc⟩
  simp [List.getElem?_set, hlt]

theorem C17_failure_only_logged_witness :
    withPeer.tab.conns[0]? = some (startOffer browserLink
      (newPeerConnection inRoom.tab.localStream true)).1 ∧
    (applyMessage pickyLink ⟨MsgType.answer, 0, some 2, none⟩
      (startOffer browserLink (newPeerConnection inRoom.tab.localStream true)).1).2 =
        Outcome.threw ∧
    (onSignalingMessage pickyLink ⟨some 7, some 1, 2, 0⟩ 4 ⟨MsgType.answer, 0, some 2, none⟩
      withPeer).tab.peerConnections = withPeer.tab.peerConnections ∧
    (onSignalingMessage pickyLink ⟨some 7, some 1, 2, 0⟩ 4 ⟨MsgType.answer, 0, some 2, none⟩
      withPeer).db = withPeer.db :=
  have h := C17_failure_only_logged pickyLink ⟨some 7, some 1, 2, 0⟩ 4
    ⟨MsgType.answer, 0, some 2, none⟩ withPeer
    (startOffer browserLink (newPeerConnection inRoom.tab.localStream true)).1
    rfl (by decide) (by decide)
  ⟨by decide, by decide, h.1, h.2.1⟩

/-! ## C18: failure isolation -/

theorem mem_of_mapGet (m : List (ParticipantId × Nat)) (p : ParticipantId) (i : Nat)
    (h : mapGet m p = some i) : (p, i) ∈ m := by
  induction m with
  | nil => simp [mapGet] at h
  | cons e rest ih =>
    obtain ⟨k, x⟩ := e
    by_cases hk : k = p
    · simp only [mapGet, hk, if_true, Option.some.injEq] at h
      subst hk h
      exact List.mem_cons_self _ _
    · simp only [mapGet, hk, if_false] at h
      exact List.mem_cons_of_mem _ (ih h)

theorem onSignalingMessage_conns_other (link : Link) (l : SignalingListener) (key : Nat)
    (m : Message) (w : World) (j : Nat) (hj : j ≠ l.peerConnection) :
    (onSignalingMessage link l key m w).tab.conns[j]? = w.tab.conns[j]? := by
  unfold onSignalingMessage
  split
  · rfl
  · split
    · rfl
    · split <;> simp [List.getElem?_set, Ne.symm hj]

theorem onSignalingMessage_stream (link : Link) (l : SignalingListener) (key : Nat)
    (m : Message) (w : World) :
    (onSignalingMessage link l key m w).tab.localStream = w.tab.localStream ∧
    (onSignalingMessage link l key m w).tab.tracks = w.tab.tracks ∧
    (onSignalingMessage link l key m w).tab.signalingListeners = w.tab.signalingListeners := by
  unfold onSignalingMessage
  split
  · exact ⟨rfl, rfl, rfl⟩
  · split
    · exact ⟨rfl, rfl, rfl⟩
    · split <;> simp [putConn]

/-- C18 (failure isolation).  The mailbox callback is a total function: whatever
happens inside its `try` block, it returns.  It leaves the registry, `roomId`, the
local stream and its tracks unchanged and writes no connection object other than
the one it was registered with; so, in a well-formed tab, for a registered
callback of participant `p`, the registry entry and the connection object of every
participant other than `p` are unchanged. -/
theorem C18_failure_isolation (link : Link) (l : SignalingListener) (key : Nat)
    (m : Message) (w : World) :
    (onSignalingMessage link l key m w).tab.peerConnections = w.tab.peerConnections ∧
    (∀ j, j ≠ l.peerConnection →
      (onSignalingMessage link l key m w).tab.conns[j]? = w.tab.conns[j]?) ∧
    (onSignalingMessage link l key m w).tab.roomId = w.tab.roomId ∧
    (onSignalingMessage link l key m w).tab.localStream = w.tab.localStream ∧
    (onSignalingMessage link l key m w).tab.tracks = w.tab.tracks ∧
    (Wired w → l ∈ w.tab.signalingListeners →
      ∀ q i, q ≠ l.participantId → mapGet w.tab.peerConnections q = some i →
        mapGet (onSignalingMessage link l key m w).tab.peerConnections q = some i ∧
        (onSignalingMessage link l key m w).tab.conns[i]? = w.tab.conns[i]?) := by
  refine ⟨onSignalingMessage_peerConnections link l key m w,
    fun j hj => onSignalingMessage_conns_other link l key m w j hj,
    onSignalingMessage_roomId link l key m w,
    (onSignalingMessage_stream link l key m w).1,
    (onSignalingMessage_stream link l key m w).2.1, ?_⟩
  intro hw hl q i hq hi
  refine ⟨by rw [onSignalingMessage_peerConnections]; exact hi, ?_⟩
  apply onSignalingMessage_conns_other
  intro hil
  exact hq (hw.2.2 l hl (q, i) (mem_of_mapGet _ _ _ hi) hil.symm).symm

theorem createPeerConnection_signalingListeners (link : Link) (p : ParticipantId) (co : Bool)
    (w : World) :
    (createPeerConnection link p co w).tab.signalingListeners =
      if w.tab.rtdb then
        w.tab.signalingListeners ++
          [{ room := w.tab.roomId, uid := w.tab.currentUser, participantId := p,
             peerConnection := w.tab.conns.length }]
      else w.tab.signalingListeners := by
  unfold createPeerConnection
  simp only
  cases hdb : w.tab.rtdb <;> cases co <;>
    simp [listenForSignalingMessages, hdb, newListener, putConn]
  all_goals split <;> simp [putConn]

theorem wired_createPeerConnection (link : Link) (p : ParticipantId) (co : Bool) (w : World)
    (h : Wired w) : Wired (createPeerConnection link p co w) := by
  obtain ⟨hreg, hlis, hown⟩ := h
  have hmemL : ∀ l ∈ (createPeerConnection link p co w).tab.signalingListeners,
      l ∈ w.tab.signalingListeners ∨
        (l.participantId = p ∧ l.peerConnection = w.tab.conns.length) := by
    intro l hl
    rw [createPeerConnection_signalingListeners] at hl
    split at hl
    · rcases List.mem_append.1 hl with hl | hl
      · exact Or.inl hl
      · simp only [List.mem_singleton] at hl
        subst hl
        exact Or.inr ⟨rfl, rfl⟩
    · exact Or.inl hl
  have hmemE : ∀ e ∈ (createPeerConnection link p co w).tab.peerConnections,
      e ∈ w.tab.peerConnections ∨ e = (p, w.tab.conns.length) := by
    intro e he
    rw [createPeerConnection_peerConnections] at he
    exact mem_mapSet _ _ _ _ he
  refine ⟨?_, ?_, ?_⟩
  · intro e he
    rw [createPeerConnection_conns_length]
    rcases hmemE e he with he | he
    · exact Nat.lt_succ_of_lt (hreg e he)
    · rw [he]
      exact Nat.lt_succ_self _
  · intro l hl
    rw [createPeerConnection_conns_length]
    rcases hmemL l hl with hl | hl
    · exact Nat.lt_succ_of_lt (hlis l hl)
    · rw [hl.2]
      exact Nat.lt_succ_self _
  · intro l hl e he hle
    rcases hmemL l hl with hl | hl <;> rcases hmemE e he with he | he
    · exact hown l hl e he hle
    · rw [he] at hle
      exact absurd hle (Nat.ne_of_lt (hlis l hl))
    · rw [hl.2] at hle
      exact absurd hle.symm (Nat.ne_of_lt (hreg e he))
    · rw [he, hl.1]

theorem wired_handle (link : Link) (e : Event) (w : World) (h : Wired w) :
    Wired (handle link e w) := by
  cases e with
  | childAdded p =>
    simp only [handle, onChildAdded]
    split
    · exact h
    · exact wired_createPeerConnection link p true w h
  | childRemoved p =>
    obtain ⟨hreg, hlis, hown⟩ := h
    simp only [handle, onChildRemoved]
    have hL : (removePeerConnection p w).tab.signalingListeners = w.tab.signalingListeners := by
      unfold removePeerConnection
      split <;> rfl
    refine ⟨?_, ?_, ?_⟩
    · intro x hx
      rw [removePeerConnection_conns_length]
      rw [removePeerConnection_peerConnections] at hx
      exact hreg x (List.mem_of_mem_filter hx)
    · intro l hl
      rw [removePeerConnection_conns_length]
      rw [hL] at hl
      exact hlis l hl
    · intro l hl x hx
      rw [hL] at hl
      rw [removePeerConnection_peerConnections] at hx
      exact hown l hl x (List.mem_of_mem_filter hx)
  | signaling l key m =>
    obtain ⟨hreg, hlis, hown⟩ := h
    simp only [handle]
    refine ⟨?_, ?_, ?_⟩
    · intro x hx
      rw [onSignalingMessage_conns_length]
      rw [onSignalingMessage_peerConnections] at hx
      exact hreg x hx
    · intro l1 hl1
      rw [onSignalingMessage_conns_length]
      rw [(onSignalingMessage_stream link l key m w).2.2] at hl1
      exact hlis l1 hl1
    · intro l1 hl1 x hx
      rw [(onSignalingMessage_stream link l key m w).2.2] at hl1
      rw [onSignalingMessage_peerConnections] at hx
      exact hown l1 hl1 x hx

theorem wired_run (link : Link) (es : List Event) (w : World) (h : Wired w) :
    Wired (run link es w) := by
  induction es generalizing w with
  | nil => exact h
  | cons e es ih =>
    rw [run_cons]
    exact ih _ (wired_handle link e w h)

theorem wired_fresh (uid : ParticipantId) (db : Rtdb) : Wired { tab := freshTab uid, db := db } := by
  refine ⟨?_, ?_, ?_⟩ <;> intro x hx <;> simp [freshTab] at hx

theorem joinRoom_signalingListeners (room : RoomId)
    (media : Except MediaError (List TrackKind)) (setOk : Bool) (w : World) :
    (joinRoom room media setOk w).1.tab.signalingListeners = w.tab.signalingListeners := by
  unfold joinRoom startLocalStream addToRoomParticipants listenForParticipants showNotification
  cases media with
  | error e => cases e <;> rfl
  | ok kinds =>
    cases hdb : w.tab.rtdb <;> cases hu : w.tab.currentUser <;> cases setOk <;>
      simp [hdb, hu]

theorem wired_joinRoom (room : RoomId) (media : Except MediaError (List TrackKind))
    (setOk : Bool) (w : World) (h : Wired w) : Wired (joinRoom room media setOk w).1 := by
  obtain ⟨hreg, hlis, hown⟩ := h
  have hr := joinRoom_registry room media setOk w
  have hl := joinRoom_signalingListeners room media setOk w
  unfold Wired
  rw [hr.1, hr.2, hl]
  exact ⟨hreg, hlis, hown⟩

theorem wired_leaveRoom (o : Bool) (w : World) (h : Wired w) : Wired (leaveRoom o w) := by
  obtain ⟨hreg, hlis, hown⟩ := h
  have hclean : ∀ w1 : World, w1.tab = w.tab → Wired (leaveCleanup w1) := by
    intro w1 h1
    refine ⟨?_, ?_, ?_⟩
    · intro x hx
      simp [leaveCleanup] at hx
    · intro l hl
      simp only [leaveCleanup, foldl_closeConn_length, h1] at hl ⊢
      exact hlis l hl
    · intro l _ x hx
      simp [leaveCleanup] at hx
  unfold leaveRoom
  split
  · split
    · exact hclean _ rfl
    · exact ⟨hreg, hlis, hown⟩
  · exact hclean _ rfl

theorem wired_withPeer : Wired withPeer :=
  wired_handle browserLink _ _ (wired_joinRoom 7 cameraAndMic true _ (wired_fresh 1 emptyDb))

theorem C18_failure_isolation_witness :
    Wired (handle browserLink (Event.childAdded 3) withPeer) ∧
    (⟨some 7, some 1, 2, 0⟩ : SignalingListener) ∈
      (handle browserLink (Event.childAdded 3) withPeer).tab.signalingListeners ∧
    (3 : ParticipantId) ≠ 2 ∧
    mapGet (handle browserLink (Event.childAdded 3) withPeer).tab.peerConnections 3 = some 1 ∧
    mapGet (onSignalingMessage pickyLink ⟨some 7, some 1, 2, 0⟩ 4
      ⟨MsgType.answer, 0, some 2, none⟩
      (handle browserLink (Event.childAdded 3) withPeer)).tab.peerConnections 3 = some 1 ∧
    (onSignalingMessage pickyLink ⟨some 7, some 1, 2, 0⟩ 4 ⟨MsgType.answer, 0, some 2, none⟩
      (handle browserLink (Event.childAdded 3) withPeer)).tab.conns[1]? =
        (handle browserLink (Event.childAdded 3) withPeer).tab.conns[1]? :=
  have hw : Wired (handle browserLink (Event.childAdded 3) withPeer) :=
    wired_handle browserLink _ _ wired_withPeer
  have h := (C18_failure_isolation pickyLink ⟨some 7, some 1, 2, 0⟩ 4
    ⟨MsgType.answer, 0, some 2, none⟩
    (handle browserLink (Event.childAdded 3) withPeer)).2.2.2.2.2 hw (by decide) 3 1
    (by decide) (by decide)
  ⟨hw, by decide, by decide, by decide, h.1, h.2⟩

/-! ## C19: consumption of mailbox messages -/

/-- The callback when the `try` block runs through: the snapshot is removed. -/
theorem onSignalingMessage_removes (link : Link) (l : SignalingListener) (key : Nat)
    (m : Message) (w : World) (pc : RTCPeerConnection) (answer : Option Nat)
    (hfrom : m.sender = some l.participantId)
    (hpc : w.tab.conns[l.peerConnection]? = some pc)
    (hdone : (applyMessage link m pc).2 = Outcome.done answer) :
    ∀ it ∈ (onSignalingMessage link l key m w).db.signaling,
      ¬ (some it.room = l.room ∧ some it.recipient = l.uid ∧ it.key = key) := by
  have hfilter : ∀ w1 : World, ∀ it ∈ (removeSnapshot l key w1).db.signaling,
      ¬ (some it.room = l.room ∧ some it.recipient = l.uid ∧ it.key = key) := by
    intro w1 it hit
    simp only [removeSnapshot, List.mem_filter, decide_eq_true_eq] at hit
    exact hit.2
  unfold onSignalingMessage
  simp only [hfrom, ne_eq, not_true_eq_false, if_false, hpc]
  split
  · next heq =>
    rw [heq] at hdone
    cases hdone
  · exact hfilter _
  · exact hfilter _

/-- Two callbacks registered for the same participant with different connection
objects both apply the message. -/
theorem onSignalingMessage_twice (link : Link) (l1 l2 : SignalingListener) (key : Nat)
    (m : Message) (w : World) (pcA pcB : RTCPeerConnection)
    (hfrom1 : m.sender = some l1.participantId) (hfrom2 : m.sender = some l2.participantId)
    (hne : l1.peerConnection ≠ l2.peerConnection)
    (hA : w.tab.conns[l1.peerConnection]? = some pcA)
    (hB : w.tab.conns[l2.peerConnection]? = some pcB) :
    (onSignalingMessage link l2 key m
        (onSignalingMessage link l1 key m w)).tab.conns[l1.peerConnection]? =
      some (applyMessage link m pcA).1 ∧
    (onSignalingMessage link l2 key m
        (onSignalingMessage link l1 key m w)).tab.conns[l2.peerConnection]? =
      some (applyMessage link m pcB).1 := by
  have hA1 := onSignalingMessage_conn link l1 key m w pcA hfrom1 hA
  have hB1 : (onSignalingMessage link l1 key m w).tab.conns[l2.peerConnection]? = some pcB := by
    rw [onSignalingMessage_conns_other link l1 key m w _ (Ne.symm hne)]
    exact hB
  refine ⟨?_, onSignalingMessage_conn link l2 key m _ pcB hfrom2 hB1⟩
  rw [onSignalingMessage_conns_other link l2 key m _ _ hne]
  exact hA1

/-- C19, on concrete states.  (a) User 1 has handled two `child_added` events for
participant 2, so two callbacks for 2 are registered, with the objects 0 and 1;
the answer 300 of participant 2 is applied to both objects.  (b) The candidate 11
arrives before the remote description: `addIceCandidate` is rejected and the
message is still in the mailbox after its callback has run. -/
theorem C19_mailbox_consumption_counterexample :
    answerAfterDuplicateAdd.tab.signalingListeners =
      [⟨some 7, some 1, 2, 0⟩, ⟨some 7, some 1, 2, 1⟩] ∧
    (deliverMail browserLink answerAfterDuplicateAdd).tab.conns.map
        (fun pc => (pc.closed, pc.remoteDescription)) =
      [(false, some 300), (false, some 300)] ∧
    (deliverMail browserLink answerAfterDuplicateAdd).tab.conns.map
        (fun pc => pc.calls.count (LinkCall.setRemoteDescription 300)) = [1, 1] ∧
    (deliverMail browserLink earlyCandidate).tab.conns.map (fun pc => pc.calls) =
      [[LinkCall.addTrack 0, LinkCall.addTrack 1, LinkCall.createOffer,
        LinkCall.setLocalDescription 102, LinkCall.addIceCandidate 11]] ∧
    (deliverMail browserLink earlyCandidate).db.signaling.map
        (fun it => (it.recipient, it.msg.type, it.msg.payload)) =
      [(2, MsgType.offer, 102), (1, MsgType.iceCandidate, 11)] := by
  decide

/-- C19 as amended.  A message is handled by every callback registered for its
sender, each applying it to the connection object it was registered with, so two
callbacks for the same participant apply it twice; a callback removes the message
from the mailbox when its `try` block ran through, whatever the message type;
when the `try` block threw the database is left as it is, the message included;
and a callback registered for another participant changes nothing. -/
theorem C19_mailbox_consumption (link : Link) (l : SignalingListener) (key : Nat)
    (m : Message) (w : World) (pc : RTCPeerConnection)
    (hfrom : m.sender = some l.participantId)
    (hpc : w.tab.conns[l.peerConnection]? = some pc) :
    (∀ answer, (applyMessage link m pc).2 = Outcome.done answer →
      ∀ it ∈ (onSignalingMessage link l key m w).db.signaling,
        ¬ (some it.room = l.room ∧ some it.recipient = l.uid ∧ it.key = key)) ∧
    ((applyMessage link m pc).2 = Outcome.threw →
      (onSignalingMessage link l key m w).db = w.db) ∧
    (∀ l2 pcB, l2.participantId = l.participantId → l.peerConnection ≠ l2.peerConnection →
      w.tab.conns[l2.peerConnection]? = some pcB →
      (onSignalingMessage link l2 key m
          (onSignalingMessage link l key m w)).tab.conns[l.peerConnection]? =
        some (applyMessage link m pc).1 ∧
      (onSignalingMessage link l2 key m
          (onSignalingMessage link l key m w)).tab.conns[l2.peerConnection]? =
        some (applyMessage link m pcB).1) ∧
    (∀ l3, m.sender ≠ some l3.participantId → onSignalingMessage link l3 key m w = w) := by
  refine ⟨?_, ?_, ?_, ?_⟩
  · intro answer hdone
    exact onSignalingMessage_removes link l key m w pc answer hfrom hpc hdone
  · intro hthrew
    rw [onSignalingMessage_of_threw link l key m w pc hfrom hpc hthrew]
    rfl
  · intro l2 pcB hsame hne hB
    exact onSignalingMessage_twice link l l2 key m w pc pcB hfrom (by rw [hsame]; exact hfrom)
      hne hpc hB
  · intro l3 h3
    exact onSignalingMessage_of_other_sender link l3 key m w h3

theorem C19_mailbox_consumption_witness :
    answerAfterDuplicateAdd.tab.conns[0]? = some (startOffer browserLink
      (newPeerConnection inRoom.tab.localStream true)).1 ∧
    answerAfterDuplicateAdd.tab.conns[1]? = some (startOffer browserLink
      (newPeerConnection inRoom.tab.localStream true)).1 ∧
    (onSignalingMessage browserLink ⟨some 7, some 1, 2, 1⟩ 2 ⟨MsgType.answer, 300, some 2, some 0⟩
      (onSignalingMessage browserLink ⟨some 7, some 1, 2, 0⟩ 2
        ⟨MsgType.answer, 300, some 2, some 0⟩ answerAfterDuplicateAdd)).tab.conns[1]? =
      some (applyMessage browserLink ⟨MsgType.answer, 300, some 2, some 0⟩
        (startOffer browserLink (newPeerConnection inRoom.tab.localStream true)).1).1 ∧
    ∀ it ∈ (onSignalingMessage browserLink ⟨some 7, some 1, 2, 0⟩ 2
        ⟨MsgType.answer, 300, some 2, some 0⟩ answerAfterDuplicateAdd).db.signaling,
      ¬ (some it.room = some 7 ∧ some it.recipient = some 1 ∧ it.key = 2) :=
  have h := C19_mailbox_consumption browserLink ⟨some 7, some 1, 2, 0⟩ 2
    ⟨MsgType.answer, 300, some 2, some 0⟩ answerAfterDuplicateAdd
    (startOffer browserLink (newPeerConnection inRoom.tab.localStream true)).1
    rfl (by decide)
  ⟨by decide, by decide,
    (h.2.2.1 ⟨some 7, some 1, 2, 1⟩
      (startOffer browserLink (newPeerConnection inRoom.tab.localStream true)).1
      rfl (by decide) (by decide)).2,
    h.1 none (by decide)⟩

/-! ## C20: the media toggles -/

theorem setEnabled_getElem?_self (tracks : List MediaStreamTrack) (i : Nat) (value : Bool)
    (t : MediaStreamTrack) (h : tracks[i]? = some t) :
    (setEnabled tracks i value)[i]? = some { t with enabled := value } := by
  have hlt : i < tracks.length := by
    by_contra hc
    rw [List.getElem?_eq_none (Nat.le_of_not_lt hc)] at h
    cases h
  unfold setEnabled
  simp [h, List.getElem?_set, hlt]

/-- What `toggleVideo` does to the first video track: its `enabled` flag becomes
the negation of the manager's `isVideoEnabled`, whatever it was before. -/
theorem toggleVideo_track (w : World) (stream : List Nat) (i : Nat) (t : MediaStreamTrack)
    (hs : w.tab.localStream = some stream)
    (hi : firstTrack TrackKind.video w.tab.tracks stream = some i)
    (ht : w.tab.tracks[i]? = some t) :
    (toggleVideo w).tab.tracks[i]? = some { t with enabled := !w.tab.isVideoEnabled } ∧
    (toggleVideo w).tab.isVideoEnabled = !w.tab.isVideoEnabled := by
  have htoggle : toggleVideo w =
      { w with tab := { w.tab with
          isVideoEnabled := !w.tab.isVideoEnabled,
          tracks := setEnabled w.tab.tracks i (!w.tab.isVideoEnabled) } } := by
    unfold toggleVideo
    simp only [hs, hi]
  rw [htoggle]
  exact ⟨setEnabled_getElem?_self _ _ _ t ht, rfl⟩

/-- Neither toggle touches the registry, the connection objects or the database. -/
theorem toggle_frame (w : World) :
    (toggleVideo w).db = w.db ∧ (toggleVideo w).tab.peerConnections = w.tab.peerConnections ∧
    (toggleVideo w).tab.conns = w.tab.conns ∧
    (toggleAudio w).db = w.db ∧ (toggleAudio w).tab.peerConnections = w.tab.peerConnections ∧
    (toggleAudio w).tab.conns = w.tab.conns := by
  unfold toggleVideo toggleAudio
  refine ⟨?_, ?_, ?_, ?_, ?_, ?_⟩ <;> split <;> first | rfl | (split <;> rfl)

/-- C20, at the failing input: user 1 joins room 7, switches camera and microphone
off, leaves and joins room 7 again.  The manager flags are still `false` while the
new tracks are enabled; `toggleVideo()` then leaves the video track enabled, and
`toggleAudio()` leaves the audio track enabled: neither flag is negated. -/
theorem C20_toggle_after_rejoin :
    rejoinedMuted.tab.isVideoEnabled = false ∧
    localTrackEnabled TrackKind.video rejoinedMuted = some true ∧
    localTrackEnabled TrackKind.video (toggleVideo rejoinedMuted) = some true ∧
    rejoinedMuted.tab.isAudioEnabled = false ∧
    localTrackEnabled TrackKind.audio rejoinedMuted = some true ∧
    localTrackEnabled TrackKind.audio (toggleAudio rejoinedMuted) = some true := by
  decide

/-! ## C21: one connection per remote participant -/

theorem mem_openConnections (w : World) (i : Nat) :
    i ∈ openConnections w ↔ ∃ pc, w.tab.conns[i]? = some pc ∧ pc.closed = false := by
  unfold openConnections
  rw [List.mem_filter, List.mem_range]
  constructor
  · rintro ⟨_, h⟩
    cases hpc : w.tab.conns[i]? with
    | none => simp [hpc] at h
    | some pc => exact ⟨pc, rfl, by simpa [hpc] using h⟩
  · rintro ⟨pc, hpc, hclosed⟩
    refine ⟨?_, by simp [hpc, hclosed]⟩
    by_contra hlt
    rw [List.getElem?_eq_none (Nat.le_of_not_lt hlt)] at hpc
    cases hpc

theorem openConnections_congr (w1 w2 : World)
    (h : w1.tab.conns.map (fun pc => pc.closed) = w2.tab.conns.map (fun pc => pc.closed))
    (i : Nat) : i ∈ openConnections w1 ↔ i ∈ openConnections w2 := by
  have hget : ∀ (w : World) (b : Bool),
      (w.tab.conns.map (fun pc => pc.closed))[i]? = some b ↔
        ∃ pc, w.tab.conns[i]? = some pc ∧ pc.closed = b := by
    intro w b
    rw [List.getElem?_map]
    cases w.tab.conns[i]? <;> simp
  rw [mem_openConnections, mem_openConnections, ← hget, ← hget, h]

theorem startOffer_closed (link : Link) (pc : RTCPeerConnection) :
    (startOffer link pc).1.closed = pc.closed := by
  unfold startOffer
  dsimp only
  split
  · split <;> rfl
  · rfl

theorem createPeerConnection_conns_new (link : Link) (p : ParticipantId) (co : Bool)
    (w : World) :
    ∃ pc, (createPeerConnection link p co w).tab.conns[w.tab.conns.length]? = some pc ∧
      pc.closed = false := by
  have hs := startOffer_closed link (newPeerConnection w.tab.localStream co)
  unfold createPeerConnection
  dsimp only
  split
  · split
    · rename_i pc1 offer heq
      refine ⟨pc1, by simp [putConn, listenForSignalingMessages, apply_ite], ?_⟩
      rw [heq] at hs
      simpa [newPeerConnection] using hs
    · rename_i pc1 heq
      refine ⟨pc1, by simp [putConn, listenForSignalingMessages, apply_ite], ?_⟩
      rw [heq] at hs
      simpa [newPeerConnection] using hs
  · exact ⟨newPeerConnection w.tab.localStream co,
      by simp [listenForSignalingMessages, apply_ite], rfl⟩

theorem nodup_keys_mapSet (m : List (ParticipantId × Nat)) (p : ParticipantId) (v : Nat)
    (h : (keys m).Nodup) : (keys (mapSet m p v)).Nodup := by
  by_cases hp : p ∈ keys m
  · rw [keys_mapSet_of_mem m p v hp]
    exact h
  · rw [mapSet_of_absent m p v ((mapGet_eq_none_iff m p).2 hp)]
    simp only [keys, List.map_append, List.map_cons, List.map_nil]
    exact List.Nodup.append h (List.nodup_singleton p) (by simpa [keys] using hp)

theorem nodup_values_mapSet (m : List (ParticipantId × Nat)) (p : ParticipantId) (v : Nat)
    (hv : ∀ e ∈ m, e.2 ≠ v) (h : (m.map Prod.snd).Nodup) :
    ((mapSet m p v).map Prod.snd).Nodup := by
  induction m with
  | nil => simp [mapSet]
  | cons e rest ih =>
    obtain ⟨k, x⟩ := e
    have hrest : ∀ e ∈ rest, e.2 ≠ v := fun e he => hv e (List.mem_cons_of_mem _ he)
    rw [List.map_cons, List.nodup_cons] at h
    by_cases hk : k = p
    · simp only [mapSet, hk, if_true, List.map_cons, List.nodup_cons]
      refine ⟨?_, h.2⟩
      intro hmem
      obtain ⟨e, he, hev⟩ := List.mem_map.1 hmem
      exact hrest e he hev
    · simp only [mapSet, hk, if_false, List.map_cons, List.nodup_cons]
      refine ⟨?_, ih hrest h.2⟩
      intro hmem
      obtain ⟨e, he, hev⟩ := List.mem_map.1 hmem
      rcases mem_mapSet rest p v e he with hin | heq
      · exact h.1 (List.mem_map.2 ⟨e, hin, hev⟩)
      · rw [heq] at hev
        exact hv (k, x) (List.mem_cons_self _ _) hev.symm

theorem mem_mapSet_of_ne (m : List (ParticipantId × Nat)) (p : ParticipantId) (v : Nat)
    (e : ParticipantId × Nat) (he : e ∈ m) (hne : e.1 ≠ p) : e ∈ mapSet m p v := by
  induction m with
  | nil => cases he
  | cons f rest ih =>
    obtain ⟨k, x⟩ := f
    by_cases hk : k = p
    · simp only [mapSet, hk, if_true]
      rcases List.mem_cons.1 he with heq | hin
      · exact absurd (by rw [heq]; exact hk) hne
      · exact List.mem_cons_of_mem _ hin
    · simp only [mapSet, hk, if_false]
      rcases List.mem_cons.1 he with heq | hin
      · rw [heq]
        exact List.mem_cons_self _ _
      · exact List.mem_cons_of_mem _ (ih hin)

theorem lt_of_mem_openConnections (w : World) (i : Nat) (h : i ∈ openConnections w) :
    i < w.tab.conns.length := by
  unfold openConnections at h
  exact List.mem_range.1 (List.mem_filter.1 h).1

theorem registryOpen_createPeerConnection (link : Link) (p : ParticipantId) (co : Bool)
    (w : World) (h : RegistryOpen w) : RegistryOpen (createPeerConnection link p co w) := by
  obtain ⟨hk, hv, ho⟩ := h
  have hlt : ∀ e ∈ w.tab.peerConnections, e.2 < w.tab.conns.length :=
    fun e he => lt_of_mem_openConnections w e.2 (ho e he)
  refine ⟨?_, ?_, ?_⟩
  · rw [createPeerConnection_peerConnections]
    exact nodup_keys_mapSet _ _ _ hk
  · rw [createPeerConnection_peerConnections]
    exact nodup_values_mapSet _ _ _ (fun e he => Nat.ne_of_lt (hlt e he)) hv
  · intro e he
    rw [createPeerConnection_peerConnections] at he
    rw [mem_openConnections]
    rcases mem_mapSet _ _ _ e he with hin | heq
    · rw [createPeerConnection_conns_old link p co w e.2 (hlt e hin)]
      exact (mem_openConnections w e.2).1 (ho e hin)
    · rw [heq]
      exact createPeerConnection_conns_new link p co w

theorem noOrphan_createPeerConnection (link : Link) (p : ParticipantId) (co : Bool)
    (w : World) (hfresh : mapGet w.tab.peerConnections p = none) (h : NoOrphan w) :
    NoOrphan (createPeerConnection link p co w) := by
  intro i hi
  rw [createPeerConnection_peerConnections]
  have hlen := lt_of_mem_openConnections _ i hi
  rw [createPeerConnection_conns_length] at hlen
  by_cases hnew : i = w.tab.conns.length
  · rw [hnew]
    exact List.mem_map.2 ⟨(p, w.tab.conns.length),
      mem_of_mapGet _ _ _ (mapGet_mapSet_self _ _ _), rfl⟩
  · have hold : i < w.tab.conns.length := by omega
    rw [mem_openConnections, createPeerConnection_conns_old link p co w i hold,
      ← mem_openConnections] at hi
    obtain ⟨e, he, hei⟩ := List.mem_map.1 (h i hi)
    refine List.mem_map.2 ⟨e, mem_mapSet_of_ne _ _ _ e he ?_, hei⟩
    intro hep
    have : e.1 ∈ keys w.tab.peerConnections := List.mem_map.2 ⟨e, he, rfl⟩
    rw [hep] at this
    exact (mapGet_eq_none_iff _ _).1 hfresh this

theorem registryOpen_removePeerConnection (p : ParticipantId) (w : World)
    (h : RegistryOpen w) : RegistryOpen (removePeerConnection p w) := by
  obtain ⟨hk, hv, ho⟩ := h
  cases hget : mapGet w.tab.peerConnections p with
  | none =>
    rw [removePeerConnection_of_none p w hget]
    exact ⟨hk, hv, ho⟩
  | some id =>
    rw [removePeerConnection_of_some p w id hget]
    have hsub : List.Sublist (mapDelete w.tab.peerConnections p) w.tab.peerConnections :=
      List.filter_sublist _
    refine ⟨List.Nodup.sublist (List.Sublist.map _ hsub) hk,
      List.Nodup.sublist (List.Sublist.map _ hsub) hv, ?_⟩
    intro e he
    have hin : e ∈ w.tab.peerConnections := hsub.subset he
    have hne : e.1 ≠ p := by
      have := (List.mem_filter.1 he).2
      simpa using this
    have hid : e.2 ≠ id := by
      intro heq
      have := List.inj_on_of_nodup_map hv hin (mem_of_mapGet _ _ _ hget) heq
      exact hne (by rw [this])
    rw [mem_openConnections]
    show ∃ pc, (closeConn w.tab.conns id)[e.2]? = some pc ∧ pc.closed = false
    rw [closeConn_getElem?_of_ne _ _ _ hid]
    exact (mem_openConnections w e.2).1 (ho e hin)

theorem noOrphan_removePeerConnection (p : ParticipantId) (w : World)
    (hreg : RegistryOpen w) (h : NoOrphan w) : NoOrphan (removePeerConnection p w) := by
  cases hget : mapGet w.tab.peerConnections p with
  | none =>
    rw [removePeerConnection_of_none p w hget]
    exact h
  | some id =>
    rw [removePeerConnection_of_some p w id hget]
    intro i hi
    rw [mem_openConnections] at hi
    obtain ⟨pc, hpc, hopen⟩ := hi
    change (closeConn w.tab.conns id)[i]? = some pc at hpc
    have hne : i ≠ id := by
      intro heq
      rw [heq] at hpc
      cases hold : w.tab.conns[id]? with
      | none =>
        simp [closeConn, hold] at hpc
      | some pc0 =>
        rw [closeConn_getElem?_self _ _ _ hold] at hpc
        cases hpc
        simp [RTCPeerConnection.close] at hopen
    rw [closeConn_getElem?_of_ne _ _ _ hne] at hpc
    obtain ⟨e, he, hei⟩ := List.mem_map.1 (h i ((mem_openConnections w i).2 ⟨pc, hpc, hopen⟩))
    refine List.mem_map.2 ⟨e, ?_, hei⟩
    show e ∈ mapDelete w.tab.peerConnections p
    refine List.mem_filter.2 ⟨he, ?_⟩
    have hep : e.1 ≠ p := by
      intro hep
      have := List.inj_on_of_nodup_map hreg.1 he (mem_of_mapGet _ _ _ hget) hep
      rw [this] at hei
      exact hne hei.symm
    simpa using hep

theorem onSignalingMessage_closedFlags (link : Link) (l : SignalingListener) (key : Nat)
    (m : Message) (w : World) :
    (onSignalingMessage link l key m w).tab.conns.map (fun pc => pc.closed) =
      w.tab.conns.map (fun pc => pc.closed) := by
  apply List.ext_getElem?
  intro j
  rw [List.getElem?_map, List.getElem?_map]
  by_cases hj : j = l.peerConnection
  · by_cases hfrom : m.sender = some l.participantId
    · cases hpc : w.tab.conns[l.peerConnection]? with
      | none =>
        have : onSignalingMessage link l key m w = w := by
          unfold onSignalingMessage
          simp [hfrom, hpc]
        rw [this]
      | some pc =>
        rw [hj, onSignalingMessage_conn link l key m w pc hfrom hpc, hpc]
        simp [applyMessage_closed]
    · rw [onSignalingMessage_of_other_sender link l key m w hfrom]
  · rw [onSignalingMessage_conns_other link l key m w j hj]

theorem registryOpen_of_same (w1 w2 : World)
    (hreg : w2.tab.peerConnections = w1.tab.peerConnections)
    (hconns : w2.tab.conns.map (fun pc => pc.closed) = w1.tab.conns.map (fun pc => pc.closed))
    (h : RegistryOpen w1) : RegistryOpen w2 := by
  obtain ⟨hk, hv, ho⟩ := h
  refine ⟨by rw [hreg]; exact hk, by rw [hreg]; exact hv, ?_⟩
  intro e he
  rw [hreg] at he
  exact (openConnections_congr w2 w1 hconns e.2).2 (ho e he)

theorem noOrphan_of_same (w1 w2 : World)
    (hreg : w2.tab.peerConnections = w1.tab.peerConnections)
    (hconns : w2.tab.conns.map (fun pc => pc.closed) = w1.tab.conns.map (fun pc => pc.closed))
    (h : NoOrphan w1) : NoOrphan w2 := by
  intro i hi
  rw [hreg]
  exact h i ((openConnections_congr w2 w1 hconns i).1 hi)

theorem foldl_closeConn_open (ids : List Nat) (conns : List RTCPeerConnection) (i : Nat)
    (pc1 : RTCPeerConnection) (h : (ids.foldl closeConn conns)[i]? = some pc1)
    (hopen : pc1.closed = false) : ∃ pc, conns[i]? = some pc ∧ pc.closed = false := by
  induction ids generalizing conns with
  | nil => exact ⟨pc1, h, hopen⟩
  | cons id rest ih =>
    obtain ⟨pc, hpc, hpcopen⟩ := ih (closeConn conns id) h
    by_cases hi : i = id
    · rw [hi] at hpc
      cases hold : conns[id]? with
      | none => simp [closeConn, hold] at hpc
      | some pc0 =>
        rw [closeConn_getElem?_self _ _ _ hold] at hpc
        cases hpc
        simp [RTCPeerConnection.close] at hpcopen
    · rw [closeConn_getElem?_of_ne _ _ _ hi] at hpc
      exact ⟨pc, hpc, hpcopen⟩

theorem leaveCleanup_invariants (w : World) (h : NoOrphan w) :
    RegistryOpen (leaveCleanup w) ∧ NoOrphan (leaveCleanup w) := by
  refine ⟨⟨by simp [leaveCleanup, keys], by simp [leaveCleanup], by simp [leaveCleanup]⟩, ?_⟩
  intro i hi
  exfalso
  rw [mem_openConnections] at hi
  obtain ⟨pc1, hpc1, hopen⟩ := hi
  change ((w.tab.peerConnections.map Prod.snd).foldl closeConn w.tab.conns)[i]? = some pc1
    at hpc1
  obtain ⟨pc, hpc, hpcopen⟩ := foldl_closeConn_open _ _ i pc1 hpc1 hopen
  have hmem := h i ((mem_openConnections w i).2 ⟨pc, hpc, hpcopen⟩)
  obtain ⟨pc2, hpc2, hclosed⟩ := foldl_closeConn_closed _ w.tab.conns i pc hmem hpc
  rw [hpc1] at hpc2
  cases hpc2
  rw [hopen] at hclosed
  cases hclosed

theorem leaveRoom_cases (o : Bool) (w : World) :
    leaveRoom o w = w ∨ ∃ records,
      leaveRoom o w = leaveCleanup { w with db := { w.db with roomParticipants := records } } := by
  unfold leaveRoom
  split
  · split
    · exact Or.inr ⟨_, rfl⟩
    · exact Or.inl rfl
  · exact Or.inr ⟨w.db.roomParticipants, rfl⟩

theorem leaveRoom_invariants (o : Bool) (w : World) (hreg : RegistryOpen w) :
    RegistryOpen (leaveRoom o w) ∧ (NoOrphan w → NoOrphan (leaveRoom o w)) := by
  rcases leaveRoom_cases o w with h | ⟨records, h⟩
  · rw [h]
    exact ⟨hreg, id⟩
  · rw [h]
    refine ⟨⟨by simp [leaveCleanup, keys], by simp [leaveCleanup], by simp [leaveCleanup]⟩, ?_⟩
    intro hno
    exact (leaveCleanup_invariants
      { w with db := { w.db with roomParticipants := records } } hno).2

theorem onIceCandidate_tab (p : ParticipantId) (c : Option Nat) (w : World) :
    (onIceCandidate p c w).tab = w.tab := by
  cases c with
  | none => rfl
  | some c => simp [onIceCandidate, sendIceCandidate]

theorem act_registryOpen (link : Link) (a : Action) (w : World) (h : RegistryOpen w) :
    RegistryOpen (act link a w) := by
  cases a with
  | joinRoom roomId media setOk =>
    have hj := joinRoom_registry roomId media setOk w
    exact registryOpen_of_same w _ hj.1 (congrArg (List.map fun pc => pc.closed) hj.2) h
  | leaveRoom removeOk => exact (leaveRoom_invariants removeOk w h).1
  | toggleVideo =>
    exact registryOpen_of_same w _ (toggle_frame w).2.1
      (congrArg (List.map fun pc => pc.closed) (toggle_frame w).2.2.1) h
  | toggleAudio =>
    exact registryOpen_of_same w _ (toggle_frame w).2.2.2.2.1
      (congrArg (List.map fun pc => pc.closed) (toggle_frame w).2.2.2.2.2) h
  | iceCandidate p c =>
    exact registryOpen_of_same w _ (congrArg (fun t => t.peerConnections) (onIceCandidate_tab p c w))
      (congrArg (fun t => t.conns.map fun pc => pc.closed) (onIceCandidate_tab p c w)) h
  | callback e =>
    cases e with
    | childAdded p =>
      show RegistryOpen (onChildAdded link p w)
      unfold onChildAdded
      split
      · exact h
      · exact registryOpen_createPeerConnection link p true w h
    | childRemoved p => exact registryOpen_removePeerConnection p w h
    | signaling l key m =>
      exact registryOpen_of_same w _ (onSignalingMessage_peerConnections link l key m w)
        (onSignalingMessage_closedFlags link l key m w) h

theorem act_noOrphan (link : Link) (a : Action) (w : World) (hreg : RegistryOpen w)
    (hfresh : addsFresh a w = true) (h : NoOrphan w) : NoOrphan (act link a w) := by
  cases a with
  | joinRoom roomId media setOk =>
    have hj := joinRoom_registry roomId media setOk w
    exact noOrphan_of_same w _ hj.1 (congrArg (List.map fun pc => pc.closed) hj.2) h
  | leaveRoom removeOk => exact (leaveRoom_invariants removeOk w hreg).2 h
  | toggleVideo =>
    exact noOrphan_of_same w _ (toggle_frame w).2.1
      (congrArg (List.map fun pc => pc.closed) (toggle_frame w).2.2.1) h
  | toggleAudio =>
    exact noOrphan_of_same w _ (toggle_frame w).2.2.2.2.1
      (congrArg (List.map fun pc => pc.closed) (toggle_frame w).2.2.2.2.2) h
  | iceCandidate p c =>
    exact noOrphan_of_same w _ (congrArg (fun t => t.peerConnections) (onIceCandidate_tab p c w))
      (congrArg (fun t => t.conns.map fun pc => pc.closed) (onIceCandidate_tab p c w)) h
  | callback e =>
    cases e with
    | childAdded p =>
      show NoOrphan (onChildAdded link p w)
      unfold onChildAdded
      split
      · exact h
      · rename_i hself
        refine noOrphan_createPeerConnection link p true w ?_ h
        simp only [addsFresh, Bool.or_eq_true, decide_eq_true_eq] at hfresh
        rcases hfresh with hs | hn
        · exact absurd hs hself
        · simpa [Option.isNone_iff_eq_none] using hn
    | childRemoved p => exact noOrphan_removePeerConnection p w hreg h
    | signaling l key m =>
      exact noOrphan_of_same w _ (onSignalingMessage_peerConnections link l key m w)
        (onSignalingMessage_closedFlags link l key m w) h

theorem exec_invariants (link : Link) (actions : List Action) (w : World)
    (hreg : RegistryOpen w) :
    RegistryOpen (exec link actions w) ∧
      (NoOrphan w → FreshAdds link actions w = true → NoOrphan (exec link actions w)) := by
  induction actions generalizing w with
  | nil => exact ⟨hreg, fun h _ => h⟩
  | cons a rest ih =>
    have hstep := ih (act link a w) (act_registryOpen link a w hreg)
    refine ⟨hstep.1, ?_⟩
    intro hno hfresh
    simp only [FreshAdds, Bool.and_eq_true] at hfresh
    exact hstep.2 (act_noOrphan link a w hreg hfresh.1 hno) hfresh.2

/-- C21, on a concrete run: user 1 joins room 7 and handles two `child_added`
events for participant 2.  The second one replaces the entry of 2 in place (object
0 by object 1, no removal in between), and two connections to participant 2 are
open, only one of which is in the registry. -/
theorem C21_one_connection_counterexample :
    exec browserLink (joinThenAdd ++ [Action.callback (Event.childAdded 2)])
      { tab := freshTab 1, db := emptyDb } = duplicateAdd ∧
    mapGet withPeer.tab.peerConnections 2 = some 0 ∧
    duplicateAdd.tab.peerConnections = [(2, 1)] ∧
    openConnections duplicateAdd = [0, 1] ∧
    duplicateAdd.tab.signalingListeners.map (fun l => (l.participantId, l.peerConnection)) =
      [(2, 0), (2, 1)] := by
  decide

/-- C21 as amended.  In every state reached from a new manager by calls of its
methods and invocations of its callbacks, `peerConnections` has at most one entry
per participant, different entries hold different connection objects, and every
object in it is open.  A `child_added` for a remote participant who has an entry
replaces the entry in place by a new object and leaves the replaced one open.  In
a state reached without such a duplicate `child_added`, every connection created
and not yet closed is in the registry. -/
theorem C21_registry_invariant (link : Link) (actions : List Action) (w : World)
    (hconns : w.tab.conns = []) (hreg : w.tab.peerConnections = []) :
    (keys (exec link actions w).tab.peerConnections).Nodup ∧
    ((exec link actions w).tab.peerConnections.map Prod.snd).Nodup ∧
    (∀ e ∈ (exec link actions w).tab.peerConnections,
      e.2 ∈ openConnections (exec link actions w)) ∧
    (∀ p old, some p ≠ (exec link actions w).tab.currentUser →
      mapGet (exec link actions w).tab.peerConnections p = some old →
      mapGet (onChildAdded link p (exec link actions w)).tab.peerConnections p =
        some (exec link actions w).tab.conns.length ∧
      old < (exec link actions w).tab.conns.length ∧
      old ∈ openConnections (onChildAdded link p (exec link actions w))) ∧
    (FreshAdds link actions w = true →
      ∀ i ∈ openConnections (exec link actions w),
        i ∈ (exec link actions w).tab.peerConnections.map Prod.snd) := by
  have hstart : RegistryOpen w := by
    refine ⟨by simp [hreg, keys], by simp [hreg], ?_⟩
    intro e he
    rw [hreg] at he
    cases he
  have hnone : NoOrphan w := by
    intro i hi
    have := lt_of_mem_openConnections w i hi
    rw [hconns] at this
    exact absurd this (Nat.not_lt_zero i)
  obtain ⟨hopen, horphan⟩ := exec_invariants link actions w hstart
  refine ⟨hopen.1, hopen.2.1, hopen.2.2, ?_, horphan hnone⟩
  intro p old hself hold
  have hmem := hopen.2.2 (p, old) (mem_of_mapGet _ _ _ hold)
  have hlt := lt_of_mem_openConnections _ _ hmem
  simp only [onChildAdded, hself, if_false]
  refine ⟨?_, hlt, ?_⟩
  · rw [createPeerConnection_peerConnections, mapGet_mapSet_self]
  · rw [mem_openConnections, createPeerConnection_conns_old _ _ _ _ _ hlt,
      ← mem_openConnections]
    exact hmem

theorem C21_registry_invariant_witness :
    ({ tab := freshTab 1, db := emptyDb } : World).tab.conns = [] ∧
    ({ tab := freshTab 1, db := emptyDb } : World).tab.peerConnections = [] ∧
    FreshAdds browserLink joinThenAdd { tab := freshTab 1, db := emptyDb } = true ∧
    (keys (exec browserLink joinThenAdd
      { tab := freshTab 1, db := emptyDb }).tab.peerConnections).Nodup ∧
    mapGet (onChildAdded browserLink 2 (exec browserLink joinThenAdd
      { tab := freshTab 1, db := emptyDb })).tab.peerConnections 2 = some 1 ∧
    0 ∈ openConnections (onChildAdded browserLink 2 (exec browserLink joinThenAdd
      { tab := freshTab 1, db := emptyDb })) ∧
    (∀ i ∈ openConnections (exec browserLink joinThenAdd { tab := freshTab 1, db := emptyDb }),
      i ∈ (exec browserLink joinThenAdd
        { tab := freshTab 1, db := emptyDb }).tab.peerConnections.map Prod.snd) :=
  have h := C21_registry_invariant browserLink joinThenAdd
    { tab := freshTab 1, db := emptyDb } rfl rfl
  ⟨rfl, rfl, by decide, h.1, (h.2.2.2.1 2 0 (by decide) (by decide)).1,
    (h.2.2.2.1 2 0 (by decide) (by decide)).2.2, h.2.2.2.2 (by decide)⟩

/-! ## C22: leaveRoom while a join or an offer is in flight -/

/-- The two halves of `joinRoom` make up `joinRoom`. -/
theorem joinRoom_eq_resume (roomId : RoomId) (media : Except MediaError (List TrackKind))
    (setOk : Bool) (w : World) :
    joinRoom roomId media setOk w = joinRoomResume media setOk (joinRoomBegin roomId w) :=
  rfl

/-- The two halves of `createPeerConnection(p, true)` make up
`createPeerConnection(p, true)`. -/
theorem createPeerConnection_eq_resume (link : Link) (p : ParticipantId) (w : World) :
    createPeerConnection link p true w =
      createPeerConnectionResume link p w.tab.conns.length
        (link.createOffer (newPeerConnection w.tab.localStream true))
        (createPeerConnectionBegin p w) := by
  unfold createPeerConnection createPeerConnectionResume createPeerConnectionBegin startOffer
  cases hoffer : link.createOffer (newPeerConnection w.tab.localStream true) with
  | none => simp [hoffer]
  | some offer =>
    by_cases hset : link.setLocalDescription
        { newPeerConnection w.tab.localStream true with
          calls := (newPeerConnection w.tab.localStream true).calls ++ [LinkCall.createOffer] }
        offer = true
    · simp [hoffer, hset, putConn, listenForSignalingMessages, apply_ite]
    · simp [hoffer, hset, putConn, listenForSignalingMessages, apply_ite]

theorem leaveRoom_true_tab (w : World) : (leaveRoom true w).tab = (leaveCleanup w).tab := by
  unfold leaveRoom
  split <;> rfl

theorem leaveRoom_true_retracts (w : World) (room : RoomId) (uid : ParticipantId)
    (hdb : w.tab.rtdb = true) (hroom : w.tab.roomId = some room)
    (huser : w.tab.currentUser = some uid) :
    (room, uid) ∉ (leaveRoom true w).db.roomParticipants := by
  unfold leaveRoom
  simp [hdb, hroom, huser, leaveCleanup, dbRemove]

theorem foldl_stopTrack_length (ids : List Nat) (tracks : List MediaStreamTrack) :
    (ids.foldl stopTrack tracks).length = tracks.length := by
  induction ids generalizing tracks with
  | nil => rfl
  | cons i rest ih =>
    rw [List.foldl_cons, ih]
    unfold stopTrack
    split <;> simp

theorem joinRoomResume_outside (media : Except MediaError (List TrackKind)) (setOk : Bool)
    (w : World) (hroom : w.tab.roomId = none) :
    (joinRoomResume media setOk w).1.db = w.db ∧
    (joinRoomResume media setOk w).1.tab.roomId = none ∧
    (joinRoomResume media setOk w).1.tab.peerConnections = w.tab.peerConnections ∧
    (joinRoomResume media setOk w).1.tab.conns = w.tab.conns ∧
    (joinRoomResume media setOk w).1.tab.participantListeners = w.tab.participantListeners ∧
    (∀ kinds, media = Except.ok kinds →
      (joinRoomResume media setOk w).2 = true ∧
      (joinRoomResume media setOk w).1.tab.localStream =
        some (List.range' w.tab.tracks.length kinds.length) ∧
      (joinRoomResume media setOk w).1.tab.tracks = w.tab.tracks ++ kinds.map newTrack) ∧
    (∀ e, media = Except.error e →
      (joinRoomResume media setOk w).2 = false ∧
      (joinRoomResume media setOk w).1.tab.localStream = w.tab.localStream) := by
  cases media with
  | error e =>
    cases e <;>
      simp [joinRoomResume, startLocalStream, showNotification, hroom]
  | ok kinds =>
    simp [joinRoomResume, startLocalStream, listenForParticipants, addToRoomParticipants, hroom]

theorem createPeerConnectionBegin_tab (p : ParticipantId) (w : World) :
    (createPeerConnectionBegin p w).tab.rtdb = w.tab.rtdb ∧
    (createPeerConnectionBegin p w).tab.roomId = w.tab.roomId ∧
    (createPeerConnectionBegin p w).tab.currentUser = w.tab.currentUser ∧
    (createPeerConnectionBegin p w).tab.peerConnections =
      mapSet w.tab.peerConnections p w.tab.conns.length ∧
    (createPeerConnectionBegin p w).tab.conns.length = w.tab.conns.length + 1 ∧
    (createPeerConnectionBegin p w).db = w.db := by
  unfold createPeerConnectionBegin listenForSignalingMessages putConn
  dsimp only
  split <;> simp

theorem createPeerConnectionResume_outside (link : Link) (p : ParticipantId) (i : Nat)
    (offer : Option Nat) (w : World) (hroom : w.tab.roomId = none) :
    (createPeerConnectionResume link p i offer w).db = w.db ∧
    (createPeerConnectionResume link p i offer w).tab.roomId = none ∧
    (createPeerConnectionResume link p i offer w).tab.peerConnections = w.tab.peerConnections ∧
    (createPeerConnectionResume link p i offer w).tab.localStream = w.tab.localStream ∧
    (createPeerConnectionResume link p i offer w).tab.conns.map (fun pc => pc.closed) =
      w.tab.conns.map (fun pc => pc.closed) := by
  unfold createPeerConnectionResume
  split
  · rename_i o pc hpc
    have hflags : ∀ pc1 : RTCPeerConnection, pc1.closed = pc.closed →
        (w.tab.conns.set i pc1).map (fun pc => pc.closed) =
          w.tab.conns.map (fun pc => pc.closed) := by
      intro pc1 h1
      apply List.ext_getElem?
      intro j
      rw [List.getElem?_map, List.getElem?_map, List.getElem?_set]
      by_cases hj : i = j
      · subst hj
        simp [hpc, h1]
        by_contra hlt
        rw [List.getElem?_eq_none (Nat.le_of_not_lt hlt)] at hpc
        cases hpc
      · simp [hj]
    dsimp only
    split
    · rw [sendSignalingMessage_of_no_room _ _ _ (by simpa [putConn] using hroom)]
      exact ⟨rfl, hroom, rfl, rfl, hflags _ rfl⟩
    · exact ⟨rfl, hroom, rfl, rfl, hflags _ rfl⟩
  · exact ⟨rfl, hroom, rfl, rfl, rfl⟩

/-- C22, on a concrete interleaving: user 1 calls `joinRoom(7)` in a fresh tab,
`leaveRoom()` runs to completion while `getUserMedia` is pending, and `getUserMedia`
then resolves.  When both have finished `joinRoom` has returned `true`, the local
stream is acquired with its two tracks live, and `roomId` is `null`. -/
theorem C22_leave_interrupts_join_counterexample :
    leftWhileJoining.2 = true ∧
    leftWhileJoining.1.tab.localStream = some [0, 1] ∧
    leftWhileJoining.1.tab.tracks = [newTrack TrackKind.video, newTrack TrackKind.audio] ∧
    leftWhileJoining.1.tab.roomId = none := by
  decide

/-- C22 as amended.  Nothing cancels a suspended `joinRoom`.  When `leaveRoom`
(its `remove()` resolving) runs to completion while `joinRoom(roomId)` is suspended
in `getUserMedia`, then once both have finished `peerConnections` is empty, every
connection that was in it is closed, `roomId` is `null`, no presence subscription
has been added and no presence record of the user under `roomId` remains; but when
`getUserMedia` resolves, `joinRoom` returns `true` and the acquired stream stays:
`localStream` is non-null and its tracks are live.  When `leaveRoom` runs to
completion while the offer creation for a participant is suspended, then once both
have finished `localStream` is `null`, `peerConnections` is empty, no closed
connection has been reopened, the connections that were in the registry when
`leaveRoom` ran, the one in flight included, are closed, no offer is sent, and no
presence record of the user under the room remains. -/
theorem C22_leave_during_join (link : Link) (w : World) (roomId : RoomId)
    (media : Except MediaError (List TrackKind)) (setOk : Bool) (p : ParticipantId)
    (offer : Option Nat) :
    ((leaveDuringJoin roomId media setOk w).1.tab.peerConnections = [] ∧
      (∀ e ∈ w.tab.peerConnections, ∀ pc, w.tab.conns[e.2]? = some pc →
        ∃ pc1, (leaveDuringJoin roomId media setOk w).1.tab.conns[e.2]? = some pc1 ∧
          pc1.closed = true) ∧
      (leaveDuringJoin roomId media setOk w).1.tab.roomId = none ∧
      (leaveDuringJoin roomId media setOk w).1.tab.participantListeners =
        w.tab.participantListeners ∧
      (∀ uid, w.tab.rtdb = true → w.tab.currentUser = some uid →
        (roomId, uid) ∉ (leaveDuringJoin roomId media setOk w).1.db.roomParticipants) ∧
      (∀ kinds, media = Except.ok kinds →
        (leaveDuringJoin roomId media setOk w).2 = true ∧
        (leaveDuringJoin roomId media setOk w).1.tab.localStream =
          some (List.range' w.tab.tracks.length kinds.length) ∧
        (leaveDuringJoin roomId media setOk w).1.tab.tracks.drop w.tab.tracks.length =
          kinds.map newTrack) ∧
      (∀ e, media = Except.error e →
        (leaveDuringJoin roomId media setOk w).2 = false ∧
        (leaveDuringJoin roomId media setOk w).1.tab.localStream = none)) ∧
    ((leaveDuringOffer link p offer w).tab.localStream = none ∧
      (leaveDuringOffer link p offer w).tab.peerConnections = [] ∧
      (leaveDuringOffer link p offer w).tab.roomId = none ∧
      (∀ i, i ∉ openConnections w → i ∉ openConnections (leaveDuringOffer link p offer w)) ∧
      (∀ e ∈ (createPeerConnectionBegin p w).tab.peerConnections,
        e.2 ∉ openConnections (leaveDuringOffer link p offer w)) ∧
      w.tab.conns.length ∉ openConnections (leaveDuringOffer link p offer w) ∧
      (leaveDuringOffer link p offer w).db.pushed = w.db.pushed ∧
      (∀ room uid, w.tab.rtdb = true → w.tab.roomId = some room →
        w.tab.currentUser = some uid →
        (room, uid) ∉ (leaveDuringOffer link p offer w).db.roomParticipants)) := by
  constructor
  · have hout := joinRoomResume_outside media setOk (leaveRoom true (joinRoomBegin roomId w))
      (by rw [leaveRoom_true_tab]; rfl)
    have htab := leaveRoom_true_tab (joinRoomBegin roomId w)
    obtain ⟨hdb, hroom, hreg, hconns, hlisten, hok, herr⟩ := hout
    refine ⟨?_, ?_, hroom, ?_, ?_, ?_, ?_⟩
    · show (joinRoomResume _ _ _).1.tab.peerConnections = []
      rw [hreg, htab]
      rfl
    · intro e he pc hpc
      show ∃ pc1, (joinRoomResume _ _ _).1.tab.conns[e.2]? = some pc1 ∧ _
      rw [hconns, htab]
      exact leaveCleanup_closes (joinRoomBegin roomId w) e he pc hpc
    · show (joinRoomResume _ _ _).1.tab.participantListeners = _
      rw [hlisten, htab]
      rfl
    · intro uid hrtdb huser
      show (roomId, uid) ∉ (joinRoomResume _ _ _).1.db.roomParticipants
      rw [hdb]
      exact leaveRoom_true_retracts (joinRoomBegin roomId w) roomId uid hrtdb rfl huser
    · intro kinds hk
      obtain ⟨h1, h2, h3⟩ := hok kinds hk
      have hlen : (leaveRoom true (joinRoomBegin roomId w)).tab.tracks.length =
          w.tab.tracks.length := by
        rw [htab]
        exact foldl_stopTrack_length _ _
      refine ⟨h1, ?_, ?_⟩
      · show (joinRoomResume _ _ _).1.tab.localStream = _
        rw [h2, hlen]
      · show (joinRoomResume _ _ _).1.tab.tracks.drop _ = _
        rw [h3, ← hlen, List.drop_left]
    · intro e he
      obtain ⟨h1, h2⟩ := herr e he
      refine ⟨h1, ?_⟩
      show (joinRoomResume _ _ _).1.tab.localStream = none
      rw [h2, htab]
      rfl
  · have hb := createPeerConnectionBegin_tab p w
    have htab := leaveRoom_true_tab (createPeerConnectionBegin p w)
    have hout := createPeerConnectionResume_outside link p w.tab.conns.length offer
      (leaveRoom true (createPeerConnectionBegin p w)) (by rw [htab]; rfl)
    obtain ⟨hdb, hroom, hreg, hstream, hflags⟩ := hout
    have hclosed : ∀ i, i ∈ openConnections (leaveDuringOffer link p offer w) →
        i ∈ openConnections (createPeerConnectionBegin p w) ∧
          i ∉ (createPeerConnectionBegin p w).tab.peerConnections.map Prod.snd := by
      intro i hi
      have hi1 := (openConnections_congr _ _ hflags i).1 hi
      rw [mem_openConnections, htab] at hi1
      obtain ⟨pc1, hpc1, hopen⟩ := hi1
      obtain ⟨pc, hpc, hpcopen⟩ := foldl_closeConn_open _ _ i pc1 hpc1 hopen
      refine ⟨(mem_openConnections _ i).2 ⟨pc, hpc, hpcopen⟩, ?_⟩
      intro hmem
      obtain ⟨pc2, hpc2, hcl⟩ := foldl_closeConn_closed _ _ i pc hmem hpc
      change ((((createPeerConnectionBegin p w).tab.peerConnections.map Prod.snd).foldl
        closeConn (createPeerConnectionBegin p w).tab.conns))[i]? = some pc1 at hpc1
      rw [hpc1] at hpc2
      cases hpc2
      rw [hopen] at hcl
      cases hcl
    have hbegin_old : ∀ i, i < w.tab.conns.length →
        (createPeerConnectionBegin p w).tab.conns[i]? = w.tab.conns[i]? := by
      intro i hi
      have hne : w.tab.conns.length ≠ i := Nat.ne_of_gt hi
      unfold createPeerConnectionBegin listenForSignalingMessages putConn
      dsimp only
      split <;> simp [List.getElem?_set, hne, List.getElem?_append_left hi]
    refine ⟨?_, ?_, hroom, ?_, ?_, ?_, ?_, ?_⟩
    · show (createPeerConnectionResume _ _ _ _ _).tab.localStream = none
      rw [hstream, htab]
      rfl
    · show (createPeerConnectionResume _ _ _ _ _).tab.peerConnections = []
      rw [hreg, htab]
      rfl
    · intro i hi hmem
      apply hi
      have h1 := (hclosed i hmem).1
      have hlt := lt_of_mem_openConnections _ i h1
      rw [hb.2.2.2.2.1] at hlt
      by_cases hnew : i = w.tab.conns.length
      · exfalso
        apply (hclosed i hmem).2
        rw [hb.2.2.2.1, hnew]
        exact List.mem_map.2 ⟨(p, w.tab.conns.length),
          mem_of_mapGet _ _ _ (mapGet_mapSet_self _ _ _), rfl⟩
      · have hold : i < w.tab.conns.length := by omega
        rw [mem_openConnections, hbegin_old i hold, ← mem_openConnections] at h1
        exact h1
    · intro e he hmem
      exact (hclosed e.2 hmem).2 (List.mem_map.2 ⟨e, he, rfl⟩)
    · intro hmem
      apply (hclosed _ hmem).2
      rw [hb.2.2.2.1]
      exact List.mem_map.2 ⟨(p, w.tab.conns.length),
        mem_of_mapGet _ _ _ (mapGet_mapSet_self _ _ _), rfl⟩
    · show (createPeerConnectionResume _ _ _ _ _).db.pushed = _
      rw [hdb]
      have : (leaveRoom true (createPeerConnectionBegin p w)).db.pushed =
          (createPeerConnectionBegin p w).db.pushed := by
        unfold leaveRoom
        split <;> rfl
      rw [this, hb.2.2.2.2.2]
    · intro room uid hrtdb hr huser
      show (room, uid) ∉ (createPeerConnectionResume _ _ _ _ _).db.roomParticipants
      rw [hdb]
      exact leaveRoom_true_retracts (createPeerConnectionBegin p w) room uid
        (by rw [hb.1]; exact hrtdb) (by rw [hb.2.1]; exact hr) (by rw [hb.2.2.1]; exact huser)

theorem C22_leave_during_join_witness :
    (leaveDuringJoin 7 cameraAndMic true withPeer).1.tab.peerConnections = [] ∧
    (∃ pc1, (leaveDuringJoin 7 cameraAndMic true withPeer).1.tab.conns[0]? = some pc1 ∧
      pc1.closed = true) ∧
    (7, 1) ∉ (leaveDuringJoin 7 cameraAndMic true withPeer).1.db.roomParticipants ∧
    (leaveDuringJoin 7 cameraAndMic true withPeer).2 = true ∧
    (leaveDuringJoin 7 cameraAndMic true withPeer).1.tab.localStream = some [2, 3] ∧
    (leaveDuringOffer browserLink 3 (some 102) withPeer).tab.localStream = none ∧
    (leaveDuringOffer browserLink 3 (some 102) withPeer).tab.peerConnections = [] ∧
    1 ∉ openConnections (leaveDuringOffer browserLink 3 (some 102) withPeer) ∧
    (leaveDuringOffer browserLink 3 (some 102) withPeer).db.pushed = withPeer.db.pushed ∧
    (7, 1) ∉ (leaveDuringOffer browserLink 3 (some 102) withPeer).db.roomParticipants :=
  have h := C22_leave_during_join browserLink withPeer 7 cameraAndMic true 3 (some 102)
  ⟨h.1.1, h.1.2.1 (2, 0) (by decide)
      (startOffer browserLink (newPeerConnection inRoom.tab.localStream true)).1 (by decide), h.1.2.2.2.2.1 1 (by decide) (by decide),
    (h.1.2.2.2.2.2.1 _ rfl).1, (h.1.2.2.2.2.2.1 _ rfl).2.1, h.2.1, h.2.2.1,
    h.2.2.2.2.2.2.1, h.2.2.2.2.2.2.2.1, h.2.2.2.2.2.2.2.2 7 1 (by decide) (by decide) (by decide)⟩

/-! ## Rounding to double precision -/

theorem bitsAux_spec (fuel n : Nat) (h : n ≤ fuel) (hn : 0 < n) :
    2 ^ (bitsAux fuel n - 1) ≤ n ∧ n < 2 ^ bitsAux fuel n ∧ 0 < bitsAux fuel n := by
  induction fuel generalizing n with
  | zero => omega
  | succ fuel ih =>
    have hne : n ≠ 0 := Nat.ne_of_gt hn
    simp only [bitsAux, hne, if_false]
    by_cases h1 : n / 2 = 0
    · have hn1 : n = 1 := by omega
      subst hn1
      cases fuel <;> simp [bitsAux]
    · have hpos : 0 < n / 2 := Nat.pos_of_ne_zero h1
      obtain ⟨hlo, hhi, hb⟩ := ih (n / 2) (by omega) hpos
      refine ⟨?_, ?_, Nat.succ_pos _⟩
      · have : bitsAux fuel (n / 2) + 1 - 1 = (bitsAux fuel (n / 2) - 1) + 1 := by omega
        rw [this, pow_succ]
        omega
      · rw [pow_succ]
        omega

theorem bits_spec (n : Nat) (hn : 0 < n) : 2 ^ (bits n - 1) ≤ n ∧ n < 2 ^ bits n ∧ 0 < bits n :=
  bitsAux_spec n n (Nat.le_refl n) hn

theorem JsNumber.shift_den_pos (x : JsNumber) (s : Int) (hd : 0 < x.den) : 0 < (x.shift s).den := by
  unfold JsNumber.shift
  split
  · exact hd
  · exact Nat.mul_pos hd (pow_pos (by decide) _)

theorem JsNumber.toRat_shift (x : JsNumber) (s : Int) :
    (x.shift s).toRat = x.toRat * (2 : ℚ) ^ s := by
  unfold JsNumber.shift JsNumber.toRat
  split
  · rename_i hs
    obtain ⟨k, rfl⟩ := Int.eq_ofNat_of_zero_le hs
    simp only [Int.toNat_ofNat, zpow_natCast]
    push_cast
    ring
  · rename_i hs
    obtain ⟨k, hk⟩ := Int.eq_ofNat_of_zero_le (show 0 ≤ -s by omega)
    have hs2 : s = -(k : Int) := by omega
    subst hs2
    simp only [neg_neg, Int.toNat_ofNat, zpow_neg, zpow_natCast]
    push_cast
    field_simp

theorem roundHalfEven_spec (n d : Nat) (hd : 0 < d) :
    |((roundHalfEven n d : Nat) : ℚ) - (n : ℚ) / (d : ℚ)| ≤ 1 / 2 := by
  have hdq : (0 : ℚ) < d := by exact_mod_cast hd
  have hdiv : (n : ℚ) = (d : ℚ) * ((n / d : Nat) : ℚ) + ((n % d : Nat) : ℚ) := by
    exact_mod_cast (Nat.div_add_mod n d).symm
  have hr : n % d < d := Nat.mod_lt n hd
  have hrq : ((n % d : Nat) : ℚ) < d := by exact_mod_cast hr
  have hr0 : (0 : ℚ) ≤ ((n % d : Nat) : ℚ) := Nat.cast_nonneg _
  have key : (n : ℚ) / d = ((n / d : Nat) : ℚ) + ((n % d : Nat) : ℚ) / d := by
    rw [eq_comm, ← sub_eq_zero]
    field_simp
    linarith
  have hhalf : ∀ m : Nat, 2 * m < d → ((m : Nat) : ℚ) / d < 1 / 2 := by
    intro m hm
    have : (2 : ℚ) * m < d := by exact_mod_cast hm
    rw [div_lt_iff₀ hdq]
    linarith
  unfold roundHalfEven
  rw [key]
  have hfrac : (0 : ℚ) ≤ ((n % d : Nat) : ℚ) / d := div_nonneg hr0 (le_of_lt hdq)
  have hfrac1 : ((n % d : Nat) : ℚ) / d < 1 := by
    rw [div_lt_one hdq]
    exact hrq
  split
  · rename_i h1
    have := hhalf _ h1
    rw [abs_le]
    constructor <;> linarith
  · split
    · rename_i h1 h2
      have h3 : (d : ℚ) < 2 * ((n % d : Nat) : ℚ) := by exact_mod_cast h2
      have h4 : (1 : ℚ) / 2 < ((n % d : Nat) : ℚ) / d := by
        rw [lt_div_iff₀ hdq]
        linarith
      rw [abs_le]
      push_cast
      constructor <;> linarith
    · rename_i h1 h2
      have h3 : d = 2 * (n % d) := by omega
      have h4 : ((n % d : Nat) : ℚ) / d = 1 / 2 := by
        rw [div_eq_iff (ne_of_gt hdq)]
        have : (d : ℚ) = 2 * ((n % d : Nat) : ℚ) := by exact_mod_cast h3
        linarith
      rw [h4, abs_le]
      split <;> push_cast <;> constructor <;> linarith

theorem JsNumber.scale_spec (x : JsNumber) (hn : 0 < x.num) (hd : 0 < x.den) :
    (2 : ℚ) ^ 52 ≤ x.toRat * (2 : ℚ) ^ x.scale ∧ x.toRat * (2 : ℚ) ^ x.scale < 2 ^ 53 := by
  obtain ⟨hnlo, hnhi, hnb⟩ := bits_spec x.num hn
  obtain ⟨hdlo, hdhi, hdb⟩ := bits_spec x.den hd
  have hN : (0 : ℚ) < x.num := by exact_mod_cast hn
  have hD : (0 : ℚ) < x.den := by exact_mod_cast hd
  have hA : (x.num : ℚ) < 2 ^ bits x.num := by exact_mod_cast hnhi
  have hB : (x.den : ℚ) < 2 ^ bits x.den := by exact_mod_cast hdhi
  have hA2 : (2 : ℚ) ^ bits x.num ≤ 2 * x.num := by
    have h1 : 2 ^ bits x.num = 2 * 2 ^ (bits x.num - 1) := by
      rw [← pow_succ']
      congr 1
      omega
    have h2 : 2 ^ bits x.num ≤ 2 * x.num := by omega
    exact_mod_cast h2
  have hB2 : (2 : ℚ) ^ bits x.den ≤ 2 * x.den := by
    have h1 : 2 ^ bits x.den = 2 * 2 ^ (bits x.den - 1) := by
      rw [← pow_succ']
      congr 1
      omega
    have h2 : 2 ^ bits x.den ≤ 2 * x.den := by omega
    exact_mod_cast h2
  have hApos : (0 : ℚ) < 2 ^ bits x.num := pow_pos (by norm_num) _
  have hBpos : (0 : ℚ) < 2 ^ bits x.den := pow_pos (by norm_num) _
  have hs0 : x.toRat * (2 : ℚ) ^ (53 + (bits x.den : Int) - (bits x.num : Int)) =
      (x.num : ℚ) * 2 ^ 53 * 2 ^ bits x.den / ((x.den : ℚ) * 2 ^ bits x.num) := by
    rw [zpow_sub₀ (by norm_num), zpow_add₀ (by norm_num), zpow_natCast, zpow_natCast]
    unfold JsNumber.toRat
    norm_num
    field_simp
    ring
  have hlo : (2 : ℚ) ^ 52 ≤
      x.toRat * (2 : ℚ) ^ (53 + (bits x.den : Int) - (bits x.num : Int)) := by
    rw [hs0, le_div_iff₀ (mul_pos hD hApos)]
    have h1 : (x.den : ℚ) * 2 ^ bits x.num ≤ x.den * (2 * x.num) :=
      mul_le_mul_of_nonneg_left hA2 (le_of_lt hD)
    have h2 : (x.den : ℚ) * (2 * x.num) ≤ 2 ^ bits x.den * (2 * x.num) :=
      mul_le_mul_of_nonneg_right (le_of_lt hB) (by positivity)
    nlinarith
  have hhi : x.toRat * (2 : ℚ) ^ (53 + (bits x.den : Int) - (bits x.num : Int)) < 2 ^ 54 := by
    rw [hs0, div_lt_iff₀ (mul_pos hD hApos)]
    have h1 : (x.num : ℚ) * 2 ^ bits x.den < 2 ^ bits x.num * 2 ^ bits x.den :=
      mul_lt_mul_of_pos_right hA hBpos
    have h2 : (2 : ℚ) ^ bits x.num * 2 ^ bits x.den ≤ 2 ^ bits x.num * (2 * x.den) :=
      mul_le_mul_of_nonneg_left hB2 (le_of_lt hApos)
    nlinarith
  have htest : (2 ^ 53 * (x.shift (53 + (bits x.den : Int) - (bits x.num : Int))).den ≤
        (x.shift (53 + (bits x.den : Int) - (bits x.num : Int))).num) ↔
      (2 : ℚ) ^ 53 ≤ x.toRat * (2 : ℚ) ^ (53 + (bits x.den : Int) - (bits x.num : Int)) := by
    rw [← JsNumber.toRat_shift]
    have hpos := JsNumber.shift_den_pos x (53 + (bits x.den : Int) - (bits x.num : Int)) hd
    have hposq : (0 : ℚ) <
        ((x.shift (53 + (bits x.den : Int) - (bits x.num : Int))).den : ℚ) := by
      exact_mod_cast hpos
    unfold JsNumber.toRat
    rw [le_div_iff₀ hposq]
    constructor
    · intro h
      exact_mod_cast h
    · intro h
      exact_mod_cast h
  unfold JsNumber.scale
  dsimp only
  split
  · rename_i h
    have h53 := htest.1 h
    rw [zpow_sub_one₀ (by norm_num)]
    constructor
    · rw [← mul_assoc]
      linarith
    · rw [← mul_assoc]
      linarith
  · rename_i h
    have h53 : ¬ ((2 : ℚ) ^ 53 ≤ _) := fun hc => h (htest.2 hc)
    exact ⟨hlo, lt_of_not_le h53⟩

/-- What `toDouble` computes for a positive fraction: the significand `m` nearest to
`x * 2 ^ s`, where `s` brings `x` between `2 ^ 52` and `2 ^ 53`. -/
theorem JsNumber.toDouble_spec (x : JsNumber) (hn : 0 < x.num) (hd : 0 < x.den) :
    ∃ (s : Int) (m : Nat), (2 : ℚ) ^ 52 ≤ x.toRat * (2 : ℚ) ^ s ∧
      x.toRat * (2 : ℚ) ^ s < 2 ^ 53 ∧ |(m : ℚ) - x.toRat * (2 : ℚ) ^ s| ≤ 1 / 2 ∧
      x.toDouble.toRat = (m : ℚ) * (2 : ℚ) ^ (-s) ∧ 0 < x.toDouble.den := by
  have hne : x.num ≠ 0 := Nat.ne_of_gt hn
  refine ⟨x.scale, roundHalfEven (x.shift x.scale).num (x.shift x.scale).den,
    (JsNumber.scale_spec x hn hd).1, (JsNumber.scale_spec x hn hd).2, ?_, ?_, ?_⟩
  · have h := roundHalfEven_spec (x.shift x.scale).num (x.shift x.scale).den
      (JsNumber.shift_den_pos x x.scale hd)
    rw [← JsNumber.toRat_shift]
    exact h
  · unfold JsNumber.toDouble
    rw [if_neg hne, JsNumber.toRat_shift]
    simp [JsNumber.toRat]
  · unfold JsNumber.toDouble
    rw [if_neg hne]
    exact JsNumber.shift_den_pos _ _ Nat.one_pos

theorem JsNumber.toDouble_den_pos (x : JsNumber) (hd : 0 < x.den) : 0 < x.toDouble.den := by
  by_cases hn : x.num = 0
  · unfold JsNumber.toDouble
    rw [if_pos hn]
    exact Nat.one_pos
  · obtain ⟨s, m, _, _, _, _, h⟩ := JsNumber.toDouble_spec x (Nat.pos_of_ne_zero hn) hd
    exact h

/-- The relative error of `toDouble` is at most `2 ^ (-53)`. -/
theorem JsNumber.toDouble_near (x : JsNumber) (hd : 0 < x.den) :
    x.toRat * (1 - 1 / 2 ^ 53) ≤ x.toDouble.toRat ∧
      x.toDouble.toRat ≤ x.toRat * (1 + 1 / 2 ^ 53) := by
  by_cases hn : x.num = 0
  · have h0 : x.toRat = 0 := by simp [JsNumber.toRat, hn]
    have h1 : x.toDouble.toRat = 0 := by
      unfold JsNumber.toDouble
      rw [if_pos hn]
      simp [JsNumber.toRat]
    rw [h0, h1]
    simp
  · obtain ⟨s, m, hlo, _, hm, hval, _⟩ := JsNumber.toDouble_spec x (Nat.pos_of_ne_zero hn) hd
    have hpos : (0 : ℚ) < (2 : ℚ) ^ (-s) := zpow_pos (by norm_num) _
    have hinv : (2 : ℚ) ^ s * (2 : ℚ) ^ (-s) = 1 := by
      rw [← zpow_add₀ (by norm_num)]
      simp
    have hx : x.toRat = x.toRat * (2 : ℚ) ^ s * (2 : ℚ) ^ (-s) := by
      rw [mul_assoc, hinv, mul_one]
    rw [abs_le] at hm
    have hy : (1 : ℚ) / 2 ≤ x.toRat * (2 : ℚ) ^ s * (1 / 2 ^ 53) := by
      have : (2 : ℚ) ^ 52 * (1 / 2 ^ 53) ≤ x.toRat * (2 : ℚ) ^ s * (1 / 2 ^ 53) :=
        mul_le_mul_of_nonneg_right hlo (by norm_num)
      norm_num at this ⊢
      linarith
    rw [hval]
    constructor
    · calc x.toRat * (1 - 1 / 2 ^ 53)
          = (x.toRat * (2 : ℚ) ^ s - x.toRat * (2 : ℚ) ^ s * (1 / 2 ^ 53)) * (2 : ℚ) ^ (-s) := by
            nth_rewrite 1 [hx]
            ring
        _ ≤ (m : ℚ) * (2 : ℚ) ^ (-s) :=
            mul_le_mul_of_nonneg_right (by linarith) (le_of_lt hpos)
    · calc (m : ℚ) * (2 : ℚ) ^ (-s)
          ≤ (x.toRat * (2 : ℚ) ^ s + x.toRat * (2 : ℚ) ^ s * (1 / 2 ^ 53)) * (2 : ℚ) ^ (-s) :=
            mul_le_mul_of_nonneg_right (by linarith) (le_of_lt hpos)
        _ = x.toRat * (1 + 1 / 2 ^ 53) := by
            nth_rewrite 3 [hx]
            ring


theorem near_ofNat (n : Nat) : Near 0 (JsNumber.ofNat n) n := by
  simp [Near, JsNumber.ofNat, JsNumber.toRat]

theorem near_mono (k j : Nat) (X : JsNumber) (x : ℚ) (hx : 0 ≤ x) (hkj : k ≤ j)
    (h : Near k X x) : Near j X x := by
  obtain ⟨hd, hlo, hhi⟩ := h
  refine ⟨hd, le_trans ?_ hlo, le_trans hhi ?_⟩
  · exact mul_le_mul_of_nonneg_left
      (pow_le_pow_of_le_one (by norm_num) (by norm_num) hkj) hx
  · exact mul_le_mul_of_nonneg_left (pow_le_pow_right₀ (by norm_num) hkj) hx

theorem near_toDouble (k : Nat) (X : JsNumber) (x : ℚ) (h : Near k X x) :
    Near (k + 1) X.toDouble x := by
  obtain ⟨hd, hlo, hhi⟩ := h
  obtain ⟨h1, h2⟩ := JsNumber.toDouble_near X hd
  refine ⟨JsNumber.toDouble_den_pos X hd, le_trans ?_ h1, le_trans h2 ?_⟩
  · rw [pow_succ _ k, ← mul_assoc]
    exact mul_le_mul_of_nonneg_right hlo (by norm_num)
  · rw [pow_succ _ k, ← mul_assoc]
    exact mul_le_mul_of_nonneg_right hhi (by norm_num)

theorem near_add (k : Nat) (X Y : JsNumber) (x y : ℚ)
    (hX : Near k X x) (hY : Near k Y y) : Near (k + 1) (X.add Y) (x + y) := by
  obtain ⟨hdX, hloX, hhiX⟩ := hX
  obtain ⟨hdY, hloY, hhiY⟩ := hY
  have hXq : (X.den : ℚ) ≠ 0 := by exact_mod_cast Nat.ne_of_gt hdX
  have hYq : (Y.den : ℚ) ≠ 0 := by exact_mod_cast Nat.ne_of_gt hdY
  refine near_toDouble k _ (x + y) ⟨Nat.mul_pos hdX hdY, ?_, ?_⟩
  · have : ({ num := X.num * Y.den + Y.num * X.den, den := X.den * Y.den } : JsNumber).toRat =
        X.toRat + Y.toRat := by
      simp only [JsNumber.toRat]
      push_cast
      field_simp
    rw [this, add_mul]
    exact add_le_add hloX hloY
  · have : ({ num := X.num * Y.den + Y.num * X.den, den := X.den * Y.den } : JsNumber).toRat =
        X.toRat + Y.toRat := by
      simp only [JsNumber.toRat]
      push_cast
      field_simp
    rw [this, add_mul]
    exact add_le_add hhiX hhiY

theorem near_mul_nat (k : Nat) (X : JsNumber) (x : ℚ) (c : Nat)
    (hX : Near k X x) : Near (k + 1) (X.mul (JsNumber.ofNat c)) (x * c) := by
  obtain ⟨hdX, hloX, hhiX⟩ := hX
  have hc : (0 : ℚ) ≤ c := Nat.cast_nonneg c
  have hval : ({ num := X.num * c, den := X.den * 1 } : JsNumber).toRat = X.toRat * c := by
    simp only [JsNumber.toRat]
    push_cast
    ring
  show Near (k + 1) (JsNumber.toDouble { num := X.num * c, den := X.den * 1 }) (x * c)
  refine near_toDouble k _ (x * c) ⟨by simpa using hdX, ?_, ?_⟩
  · rw [hval, mul_right_comm]
    exact mul_le_mul_of_nonneg_right hloX hc
  · rw [hval, mul_right_comm]
    exact mul_le_mul_of_nonneg_right hhiX hc

theorem near_div (k : Nat) (X Y : JsNumber) (x : ℚ) (hX : Near k X x)
    (hYn : 0 < Y.num) (hYd : 0 < Y.den) : Near (k + 1) (X.div Y) (x / Y.toRat) := by
  obtain ⟨hdX, hloX, hhiX⟩ := hX
  have hXq : (X.den : ℚ) ≠ 0 := by exact_mod_cast Nat.ne_of_gt hdX
  have hYq : (Y.den : ℚ) ≠ 0 := by exact_mod_cast Nat.ne_of_gt hYd
  have hYnq : (Y.num : ℚ) ≠ 0 := by exact_mod_cast Nat.ne_of_gt hYn
  have hYpos : (0 : ℚ) < Y.toRat := by
    unfold JsNumber.toRat
    exact div_pos (by exact_mod_cast hYn) (by exact_mod_cast hYd)
  have hval : ({ num := X.num * Y.den, den := X.den * Y.num } : JsNumber).toRat =
      X.toRat / Y.toRat := by
    simp only [JsNumber.toRat]
    push_cast
    field_simp
  refine near_toDouble k _ (x / Y.toRat)
    ⟨Nat.mul_pos hdX hYn, ?_, ?_⟩
  · rw [hval, div_mul_eq_mul_div]
    exact div_le_div_of_nonneg_right hloX (le_of_lt hYpos)
  · rw [hval, div_mul_eq_mul_div]
    exact div_le_div_of_nonneg_right hhiX (le_of_lt hYpos)

theorem mathRound_spec (X : JsNumber) (hd : 0 < X.den) :
    ((mathRound X : Nat) : Int) = ⌊X.toRat + 1 / 2⌋ := by
  have hq : (0 : ℚ) < X.den := by exact_mod_cast hd
  have hval : X.toRat + 1 / 2 = ((2 * X.num + X.den : Nat) : ℚ) / ((2 * X.den : Nat) : ℚ) := by
    unfold JsNumber.toRat
    push_cast
    field_simp
    ring
  rw [hval, Rat.floor_natCast_div_natCast]
  rfl

/-! ## C23: the compatibility score -/

theorem overlapRatio_nonneg (mine theirs : Option (List String)) :
    0 ≤ overlapRatio mine theirs := by
  unfold overlapRatio
  positivity

theorem overlapRatio_le_one (mine theirs : Option (List String)) :
    overlapRatio mine theirs ≤ 1 := by
  unfold overlapRatio
  have h1 : ((mine.getD []).filter (fun item => decide (item ∈ theirs.getD []))).length ≤
      max (max (mine.getD []).length (theirs.getD []).length) 1 :=
    le_trans (List.length_filter_le _ _) (le_trans (le_max_left _ _) (le_max_left _ _))
  have h2 : (0 : ℚ) < ((max (max (mine.getD []).length (theirs.getD []).length) 1 : Nat) : ℚ) := by
    exact_mod_cast lt_of_lt_of_le Nat.one_pos (le_max_right _ _)
  rw [div_le_one h2]
  exact_mod_cast h1

theorem max_lengthOrOne (mine theirs : Option (List String)) :
    max (lengthOrOne mine) (lengthOrOne theirs) =
      max (max (mine.getD []).length (theirs.getD []).length) 1 := by
  have h : ∀ l : Option (List String), lengthOrOne l = max (l.getD []).length 1 := by
    intro l
    cases l with
    | none => simp [lengthOrOne]
    | some l =>
      simp only [lengthOrOne, Option.getD_some]
      split
      · rename_i h0
        rw [h0]
        rfl
      · rename_i h0
        exact (max_eq_left (Nat.one_le_iff_ne_zero.2 h0)).symm
  rw [h, h, max_max_max_comm, max_self]

theorem partScore_near (mine theirs : Option (List String)) (weight : Nat) :
    Near 2
      (if 0 < (MatchingManager.getCommonItems (mine.getD []) (theirs.getD [])).length then
        ((JsNumber.ofNat
            (MatchingManager.getCommonItems (mine.getD []) (theirs.getD [])).length).div
          (JsNumber.ofNat (max (lengthOrOne mine) (lengthOrOne theirs)))).mul
          (JsNumber.ofNat weight)
      else JsNumber.ofNat 0)
      (overlapRatio mine theirs * weight) := by
  have hmax : 0 < max (lengthOrOne mine) (lengthOrOne theirs) := by
    rw [max_lengthOrOne]
    exact lt_of_lt_of_le Nat.one_pos (le_max_right _ _)
  have hratio : overlapRatio mine theirs =
      ((MatchingManager.getCommonItems (mine.getD []) (theirs.getD [])).length : ℚ) /
        (JsNumber.ofNat (max (lengthOrOne mine) (lengthOrOne theirs))).toRat := by
    rw [max_lengthOrOne]
    simp [overlapRatio, MatchingManager.getCommonItems, JsNumber.ofNat, JsNumber.toRat]
  split
  · rw [hratio]
    exact near_mul_nat 1 _ _ weight (near_div 0 _ _ _ (near_ofNat _) hmax Nat.one_pos)
  · rename_i h
    have h0 : (MatchingManager.getCommonItems (mine.getD []) (theirs.getD [])).length = 0 := by
      omega
    rw [hratio, h0]
    have := near_mono 0 2 (JsNumber.ofNat 0) ((0 : Nat) : ℚ) (by simp) (by decide) (near_ofNat 0)
    simpa using this

theorem maxScore_eq :
    (((JsNumber.ofNat 0).add (JsNumber.ofNat 40)).add (JsNumber.ofNat 30)).add
        (JsNumber.ofNat 30) =
      { num := 7036874417766400, den := 70368744177664 } := by
  decide

/-- The number that `calculateCompatibility` hands to `Math.round` is the weighted
sum up to seven roundings. -/
theorem calculateCompatibility_near (u o : Preferences) :
    ∃ P : JsNumber, MatchingManager.calculateCompatibility u o = mathRound P ∧
      Near 7 P (weightedScore u o) := by
  have hA := near_add 2 (JsNumber.ofNat 0) _ 0 _
    (near_mono 0 2 _ _ (by simp) (by decide) (by simpa using near_ofNat 0))
    (partScore_near u.subjects o.subjects 40)
  have hB := near_add 3 _ _ _ _ hA
    (near_mono 2 3 _ _
      (mul_nonneg (overlapRatio_nonneg u.studyTimes o.studyTimes) (Nat.cast_nonneg 30))
      (by decide) (partScore_near u.studyTimes o.studyTimes 30))
  have hstyle : Near 0
      (if u.studyStyle = o.studyStyle then JsNumber.ofNat 30 else JsNumber.ofNat 0)
      (30 * (if u.studyStyle = o.studyStyle then 1 else 0)) := by
    split
    · simpa using near_ofNat 30
    · simpa using near_ofNat 0
  have hstyle0 : (0 : ℚ) ≤ 30 * (if u.studyStyle = o.studyStyle then 1 else 0) := by
    split <;> norm_num
  have hsum0 : (0 : ℚ) ≤ 0 + overlapRatio u.subjects o.subjects * ((40 : Nat) : ℚ) +
      overlapRatio u.studyTimes o.studyTimes * ((30 : Nat) : ℚ) :=
    add_nonneg (add_nonneg (le_refl 0)
      (mul_nonneg (overlapRatio_nonneg u.subjects o.subjects) (Nat.cast_nonneg 40)))
      (mul_nonneg (overlapRatio_nonneg u.studyTimes o.studyTimes) (Nat.cast_nonneg 30))
  have hC := near_add 4 _ _ _ _ hB (near_mono 0 4 _ _ hstyle0 (by decide) hstyle)
  have hM : (({ num := 7036874417766400, den := 70368744177664 } : JsNumber)).toRat = 100 := by
    norm_num [JsNumber.toRat]
  have hD := near_div 5 _ { num := 7036874417766400, den := 70368744177664 } _ hC
    (by decide) (by decide)
  have hE := near_mul_nat 6 _ _ 100 hD
  have hval : (0 + overlapRatio u.subjects o.subjects * ((40 : Nat) : ℚ) +
      overlapRatio u.studyTimes o.studyTimes * ((30 : Nat) : ℚ) +
      30 * (if u.studyStyle = o.studyStyle then 1 else 0)) /
        (({ num := 7036874417766400, den := 70368744177664 } : JsNumber)).toRat *
          ((100 : Nat) : ℚ) = weightedScore u o := by
    rw [hM]
    unfold weightedScore
    push_cast
    ring
  rw [hval] at hE
  refine ⟨_, ?_, hE⟩
  unfold MatchingManager.calculateCompatibility
  simp only [maxScore_eq]

theorem weightedScore_bounds (u o : Preferences) :
    0 ≤ weightedScore u o ∧ weightedScore u o ≤ 100 := by
  have h1 := overlapRatio_nonneg u.subjects o.subjects
  have h2 := overlapRatio_le_one u.subjects o.subjects
  have h3 := overlapRatio_nonneg u.studyTimes o.studyTimes
  have h4 := overlapRatio_le_one u.studyTimes o.studyTimes
  unfold weightedScore
  split <;> constructor <;> linarith

/-- The value handed to `Math.round` is within `100 / 2 ^ 50` of the weighted sum. -/
theorem calculateCompatibility_close (u o : Preferences) :
    ∃ p : ℚ, ((MatchingManager.calculateCompatibility u o : Nat) : Int) = ⌊p + 1 / 2⌋ ∧
      weightedScore u o - 100 / 2 ^ 50 ≤ p ∧ p ≤ weightedScore u o + 100 / 2 ^ 50 := by
  obtain ⟨P, hP, hd, hlo, hhi⟩ := calculateCompatibility_near u o
  obtain ⟨h0, h100⟩ := weightedScore_bounds u o
  have hdown : (1 : ℚ) - 1 / 2 ^ 50 ≤ (1 - 1 / 2 ^ 53) ^ 7 := by norm_num
  have hup : ((1 : ℚ) + 1 / 2 ^ 53) ^ 7 ≤ 1 + 1 / 2 ^ 50 := by norm_num
  refine ⟨P.toRat, ?_, ?_, ?_⟩
  · rw [hP]
    exact mathRound_spec P hd
  · have := mul_le_mul_of_nonneg_left hdown h0
    have h2 : weightedScore u o * (1 / 2 ^ 50) ≤ 100 * (1 / 2 ^ 50) :=
      mul_le_mul_of_nonneg_right h100 (by norm_num)
    linarith
  · have := mul_le_mul_of_nonneg_left hup h0
    have h2 : weightedScore u o * (1 / 2 ^ 50) ≤ 100 * (1 / 2 ^ 50) :=
      mul_le_mul_of_nonneg_right h100 (by norm_num)
    linarith

theorem overlapRatio_self (l : List String) (h : l ≠ []) :
    overlapRatio (some l) (some l) = 1 := by
  have hlen : 0 < l.length := List.length_pos.2 h
  have hfilter : l.filter (fun item => decide (item ∈ l)) = l :=
    List.filter_eq_self.2 (fun a ha => by simpa using ha)
  unfold overlapRatio
  simp only [Option.getD_some, hfilter, max_self]
  rw [max_eq_left hlen]
  exact div_self (by exact_mod_cast Nat.ne_of_gt hlen)

theorem weightedScore_prefsA_prefsB : weightedScore prefsA prefsB = 115 / 2 := by
  have h1 : overlapRatio prefsA.subjects prefsB.subjects = 1 / 2 := by
    unfold overlapRatio
    rw [show ((prefsA.subjects.getD []).filter
        (fun item => decide (item ∈ prefsB.subjects.getD []))).length = 1 from by decide,
      show max (max (prefsA.subjects.getD []).length (prefsB.subjects.getD []).length) 1 = 2
        from by decide]
    norm_num
  have h2 : overlapRatio prefsA.studyTimes prefsB.studyTimes = 1 / 4 := by
    unfold overlapRatio
    rw [show ((prefsA.studyTimes.getD []).filter
        (fun item => decide (item ∈ prefsB.studyTimes.getD []))).length = 1 from by decide,
      show max (max (prefsA.studyTimes.getD []).length (prefsB.studyTimes.getD []).length) 1 = 4
        from by decide]
    norm_num
  have h3 : prefsA.studyStyle = prefsB.studyStyle := by decide
  unfold weightedScore
  rw [h1, h2, if_pos h3]
  norm_num

set_option maxRecDepth 100000 in
theorem calculateCompatibility_prefsA_prefsB :
    MatchingManager.calculateCompatibility prefsA prefsB = 57 := by
  decide

set_option maxRecDepth 100000 in
theorem calculateCompatibility_prefsA_prefsA :
    MatchingManager.calculateCompatibility prefsA prefsA = 100 := by
  decide

/-- C23, on concrete records: one of two subjects and one of four study times in
common and the same study style.  The weighted sum is `20 + 7.5 + 30 = 57.5`, which
rounds to 58, but `calculateCompatibility` returns 57: in double precision
`(57.5 / 100) * 100` is `57.49999999999999`. -/
theorem C23_weighted_score_counterexample :
    MatchingManager.calculateCompatibility prefsA prefsB = 57 ∧
    weightedScore prefsA prefsB = 115 / 2 ∧
    ⌊weightedScore prefsA prefsB + 1 / 2⌋ = 58 ∧
    (JsNumber.mul (JsNumber.div { num := 115, den := 2 } (JsNumber.ofNat 100))
      (JsNumber.ofNat 100)).toRat < 115 / 2 := by
  refine ⟨calculateCompatibility_prefsA_prefsB, weightedScore_prefsA_prefsB, ?_, ?_⟩
  · rw [weightedScore_prefsA_prefsB, Int.floor_eq_iff]
    norm_num
  · rw [show JsNumber.mul (JsNumber.div { num := 115, den := 2 } (JsNumber.ofNat 100))
        (JsNumber.ofNat 100) = { num := 8092405580431359, den := 140737488355328 }
        from by decide]
    norm_num [JsNumber.toRat]

/-- C23 as amended.  `calculateCompatibility(u, o)` is `Math.round` of the weighted
sum `40 s + 30 t + 30 e` evaluated in double precision.  The result is an integer
between 0 and 100; it differs from the rounded exact sum by at most one, and is
equal to it whenever the exact sum is at least `2 ^ (-43)` away from every
half-integer; and it is 100 when both records have the same non-empty subjects,
the same non-empty study times and the same study style. -/
theorem C23_compatibility_score (u o : Preferences) :
    MatchingManager.calculateCompatibility u o ≤ 100 ∧
    |((MatchingManager.calculateCompatibility u o : Nat) : Int) - ⌊weightedScore u o + 1 / 2⌋|
      ≤ 1 ∧
    ((∀ k : Int, 1 / 2 ^ 43 ≤ |weightedScore u o - ((k : ℚ) + 1 / 2)|) →
      ((MatchingManager.calculateCompatibility u o : Nat) : Int) =
        ⌊weightedScore u o + 1 / 2⌋) ∧
    (∀ subjects times, subjects ≠ [] → times ≠ [] →
      u.subjects = some subjects → o.subjects = some subjects →
      u.studyTimes = some times → o.studyTimes = some times →
      u.studyStyle = o.studyStyle →
      MatchingManager.calculateCompatibility u o = 100) := by
  obtain ⟨p, hp, hlo, hhi⟩ := calculateCompatibility_close u o
  obtain ⟨h0, h100⟩ := weightedScore_bounds u o
  have hR1 := Int.floor_le (weightedScore u o + 1 / 2)
  have hR2 := Int.lt_floor_add_one (weightedScore u o + 1 / 2)
  have hr1 := Int.floor_le (p + 1 / 2)
  have hr2 := Int.lt_floor_add_one (p + 1 / 2)
  have hsmall : (100 : ℚ) / 2 ^ 50 < 1 / 2 ^ 43 := by norm_num
  have hle : MatchingManager.calculateCompatibility u o ≤ 100 := by
    have : ⌊p + 1 / 2⌋ < 101 := by
      rw [Int.floor_lt]
      push_cast
      have : (100 : ℚ) / 2 ^ 50 < 1 / 2 := by norm_num
      linarith
    omega
  refine ⟨hle, ?_, ?_, ?_⟩
  · rw [hp, abs_le]
    constructor
    · have : (⌊weightedScore u o + 1 / 2⌋ : ℚ) < ⌊p + 1 / 2⌋ + 2 := by
        have : (100 : ℚ) / 2 ^ 50 < 1 := by norm_num
        linarith
      have h2 : ⌊weightedScore u o + 1 / 2⌋ < ⌊p + 1 / 2⌋ + 2 := by exact_mod_cast this
      omega
    · have : (⌊p + 1 / 2⌋ : ℚ) < ⌊weightedScore u o + 1 / 2⌋ + 2 := by
        have : (100 : ℚ) / 2 ^ 50 < 1 := by norm_num
        linarith
      have h2 : ⌊p + 1 / 2⌋ < ⌊weightedScore u o + 1 / 2⌋ + 2 := by exact_mod_cast this
      omega
  · intro hsep
    rw [hp, Int.floor_eq_iff]
    have hk1 := hsep (⌊weightedScore u o + 1 / 2⌋ - 1)
    have hk2 := hsep ⌊weightedScore u o + 1 / 2⌋
    push_cast at hk1
    rw [abs_of_nonneg (by linarith)] at hk1
    rw [abs_of_neg (by linarith)] at hk2
    constructor <;> linarith
  · intro subjects times hs ht hus hos hut hot hstyle
    have hE : weightedScore u o = 100 := by
      unfold weightedScore
      rw [hus, hos, hut, hot, overlapRatio_self subjects hs, overlapRatio_self times ht,
        if_pos hstyle]
      norm_num
    have : (100 : Int) ≤ ⌊p + 1 / 2⌋ := by
      rw [Int.le_floor]
      push_cast
      have : (100 : ℚ) / 2 ^ 50 < 1 / 2 := by norm_num
      linarith
    omega

theorem weightedScore_prefsA_prefsA : weightedScore prefsA prefsA = 100 := by
  unfold weightedScore
  rw [show prefsA.subjects = some ["Math", "Physics"] from rfl,
    show prefsA.studyTimes = some ["Morning", "Evening", "Night", "Weekend"] from rfl,
    overlapRatio_self _ (by decide), overlapRatio_self _ (by decide), if_pos rfl]
  norm_num

theorem C23_compatibility_score_witness :
    MatchingManager.calculateCompatibility prefsA prefsB ≤ 100 ∧
    |((MatchingManager.calculateCompatibility prefsA prefsB : Nat) : Int) -
      ⌊weightedScore prefsA prefsB + 1 / 2⌋| ≤ 1 ∧
    (∀ k : Int, 1 / 2 ^ 43 ≤ |weightedScore prefsA prefsA - ((k : ℚ) + 1 / 2)|) ∧
    ((MatchingManager.calculateCompatibility prefsA prefsA : Nat) : Int) =
      ⌊weightedScore prefsA prefsA + 1 / 2⌋ ∧
    prefsA.subjects = some ["Math", "Physics"] ∧
    MatchingManager.calculateCompatibility prefsA prefsA = 100 :=
  have h := C23_compatibility_score prefsA prefsB
  have hsep : ∀ k : Int, 1 / 2 ^ 43 ≤ |weightedScore prefsA prefsA - ((k : ℚ) + 1 / 2)| := by
    intro k
    rw [weightedScore_prefsA_prefsA]
    rcases le_or_lt k 99 with hk | hk
    · have hq : (k : ℚ) ≤ 99 := by exact_mod_cast hk
      refine le_trans ?_ (le_abs_self _)
      norm_num
      linarith
    · have hq : (100 : ℚ) ≤ k := by exact_mod_cast hk
      refine le_trans ?_ (neg_le_abs _)
      norm_num
      linarith
  ⟨h.1, h.2.1, hsep, (C23_compatibility_score prefsA prefsA).2.2.1 hsep, rfl,
    (C23_compatibility_score prefsA prefsA).2.2.2 ["Math", "Physics"]
      ["Morning", "Evening", "Night", "Weekend"] (by decide) (by decide) rfl rfl rfl rfl rfl⟩

/-! ## C28: symmetry of the compatibility score -/

theorem getCommonItems_length_comm (a b : List String) (ha : a.Nodup) (hb : b.Nodup) :
    (MatchingManager.getCommonItems a b).length =
      (MatchingManager.getCommonItems b a).length := by
  unfold MatchingManager.getCommonItems
  apply List.Perm.length_eq
  rw [List.perm_ext_iff_of_nodup (ha.filter _) (hb.filter _)]
  intro x
  simp [and_comm]

/-- The score depends on the records only through the two numbers of common
entries, the two largest lengths and the equality of the study styles. -/
theorem calculateCompatibility_congr (u o u2 o2 : Preferences)
    (h1 : (MatchingManager.getCommonItems (u.subjects.getD []) (o.subjects.getD [])).length =
      (MatchingManager.getCommonItems (u2.subjects.getD []) (o2.subjects.getD [])).length)
    (h2 : max (lengthOrOne u.subjects) (lengthOrOne o.subjects) =
      max (lengthOrOne u2.subjects) (lengthOrOne o2.subjects))
    (h3 : (MatchingManager.getCommonItems (u.studyTimes.getD []) (o.studyTimes.getD [])).length =
      (MatchingManager.getCommonItems (u2.studyTimes.getD []) (o2.studyTimes.getD [])).length)
    (h4 : max (lengthOrOne u.studyTimes) (lengthOrOne o.studyTimes) =
      max (lengthOrOne u2.studyTimes) (lengthOrOne o2.studyTimes))
    (h5 : u.studyStyle = o.studyStyle ↔ u2.studyStyle = o2.studyStyle) :
    MatchingManager.calculateCompatibility u o =
      MatchingManager.calculateCompatibility u2 o2 := by
  unfold MatchingManager.calculateCompatibility
  simp only [h1, h2, h3, h4]
  by_cases hs : u.studyStyle = o.studyStyle
  · rw [if_pos hs, if_pos (h5.1 hs)]
  · rw [if_neg hs, if_neg (fun hc => hs (h5.2 hc))]

/-- C28 (symmetry).  For preference records whose subjects and study times hold no
repeated entry, `calculateCompatibility(a, b) = calculateCompatibility(b, a)`. -/
theorem C28_compatibility_symmetric (a b : Preferences)
    (has : (a.subjects.getD []).Nodup) (hbs : (b.subjects.getD []).Nodup)
    (hat : (a.studyTimes.getD []).Nodup) (hbt : (b.studyTimes.getD []).Nodup) :
    MatchingManager.calculateCompatibility a b = MatchingManager.calculateCompatibility b a :=
  calculateCompatibility_congr a b b a (getCommonItems_length_comm _ _ has hbs)
    (max_comm _ _) (getCommonItems_length_comm _ _ hat hbt) (max_comm _ _) eq_comm

theorem C28_compatibility_symmetric_witness :
    (prefsA.subjects.getD []).Nodup ∧ (prefsB.subjects.getD []).Nodup ∧
    (prefsA.studyTimes.getD []).Nodup ∧ (prefsB.studyTimes.getD []).Nodup ∧
    MatchingManager.calculateCompatibility prefsA prefsB =
      MatchingManager.calculateCompatibility prefsB prefsA :=
  ⟨by decide, by decide, by decide, by decide,
    C28_compatibility_symmetric prefsA prefsB (by decide) (by decide) (by decide) (by decide)⟩

/-! ## C29: the two implementations of the score -/

/-- C29 (the two implementations agree).  `DashboardManager.getCommonItems` and
`DashboardManager.calculateCompatibility` return the same values as their
namesakes of `MatchingManager`, for all arguments. -/
theorem C29_implementations_agree (u o : Preferences) (array1 array2 : List String) :
    DashboardManager.getCommonItems array1 array2 =
      MatchingManager.getCommonItems array1 array2 ∧
    DashboardManager.calculateCompatibility u o =
      MatchingManager.calculateCompatibility u o :=
  ⟨rfl, rfl⟩

/-! ## C24: the recommendation threshold -/

theorem mem_collectCandidates (userPrefs : Preferences) (usersSnapshot : List UserDoc)
    (m : PotentialMatch) :
    m ∈ DashboardManager.collectCandidates userPrefs usersSnapshot ↔
      m.userData ∈ usersSnapshot ∧ ∃ p, m.userData.preferences = some p ∧
        m.compatibility = DashboardManager.calculateCompatibility userPrefs p ∧
        30 < m.compatibility := by
  unfold DashboardManager.collectCandidates
  rw [List.mem_filterMap]
  constructor
  · rintro ⟨d, hd, hm⟩
    cases hp : d.preferences with
    | none => simp [hp] at hm
    | some p =>
      simp only [hp] at hm
      split at hm
      · rename_i hgt
        cases hm
        exact ⟨hd, p, hp, rfl, hgt⟩
      · cases hm
  · rintro ⟨hd, p, hp, hc, hgt⟩
    refine ⟨m.userData, hd, ?_⟩
    simp only [hp]
    rw [← hc, if_pos hgt]

set_option maxRecDepth 100000 in
theorem calculateCompatibility_prefsA_prefsC :
    DashboardManager.calculateCompatibility prefsA prefsC = 30 := by
  decide

set_option maxRecDepth 100000 in
theorem loadRecommendedPeers_sampleUsers :
    DashboardManager.loadRecommendedPeers (some 1) (some { uid := 1, preferences := some prefsA })
      true sampleUsers [] =
      [{ userData := { uid := 4, preferences := some prefsA }, compatibility := 100 },
       { userData := { uid := 2, preferences := some prefsB }, compatibility := 57 }] := by
  decide

/-- C24, at the failing input: user 1 has the preferences `prefsA`, user 5 shares
only the study style with them, so their compatibility is exactly 30.  User 5 is
not kept as a candidate and is not among the recommended peers. -/
theorem C24_threshold_at_thirty :
    DashboardManager.calculateCompatibility prefsA prefsC = 30 ∧
    { uid := 5, preferences := some prefsC } ∈ (usersOtherThan sampleUsers 1).take 20 ∧
    (∀ m ∈ DashboardManager.collectCandidates prefsA ((usersOtherThan sampleUsers 1).take 20),
      m.userData.uid ≠ 5) ∧
    (∀ m ∈ DashboardManager.loadRecommendedPeers (some 1)
        (some { uid := 1, preferences := some prefsA }) true sampleUsers [],
      m.userData.uid ≠ 5) := by
  refine ⟨calculateCompatibility_prefsA_prefsC, by decide, ?_, ?_⟩
  · intro m hm h5
    obtain ⟨hmem, p, hp, hc, hgt⟩ := (mem_collectCandidates _ _ m).1 hm
    have hdoc : m.userData = { uid := 5, preferences := some prefsC } := by
      have hall : ∀ d ∈ (usersOtherThan sampleUsers 1).take 20, d.uid = 5 →
          d = { uid := 5, preferences := some prefsC } := by decide
      exact hall _ hmem h5
    rw [hdoc] at hp
    cases hp
    rw [hc, calculateCompatibility_prefsA_prefsC] at hgt
    exact absurd hgt (by decide)
  · rw [loadRecommendedPeers_sampleUsers]
    decide

/-! ## C25: the ten best matches -/

theorem mem_collectMatches (userPreferences : Preferences) (usersSnapshot : List UserDoc)
    (m : PotentialMatch) :
    m ∈ MatchingManager.collectMatches userPreferences usersSnapshot ↔
      m.userData ∈ usersSnapshot ∧ ∃ p, m.userData.preferences = some p ∧
        m.compatibility = MatchingManager.calculateCompatibility userPreferences p ∧
        0 < m.compatibility := by
  unfold MatchingManager.collectMatches
  rw [List.mem_filterMap]
  constructor
  · rintro ⟨d, hd, hm⟩
    cases hp : d.preferences with
    | none => simp [hp] at hm
    | some p =>
      simp only [hp] at hm
      split at hm
      · rename_i hgt
        cases hm
        exact ⟨hd, p, hp, rfl, hgt⟩
      · cases hm
  · rintro ⟨hd, p, hp, hc, hgt⟩
    refine ⟨m.userData, hd, ?_⟩
    simp only [hp]
    rw [← hc, if_pos hgt]

theorem sortByCompatibility_sorted (l : List PotentialMatch) :
    (sortByCompatibility l).Pairwise (fun a b => b.compatibility ≤ a.compatibility) := by
  haveI : IsTotal PotentialMatch (fun a b => b.compatibility ≤ a.compatibility) :=
    ⟨fun a b => le_total b.compatibility a.compatibility⟩
  haveI : IsTrans PotentialMatch (fun a b => b.compatibility ≤ a.compatibility) :=
    ⟨fun _ _ _ hab hbc => le_trans hbc hab⟩
  exact List.sorted_insertionSort _ l

theorem mem_sortByCompatibility (l : List PotentialMatch) (m : PotentialMatch) :
    m ∈ sortByCompatibility l ↔ m ∈ l :=
  (List.perm_insertionSort _ l).mem_iff

/-- What is cut off by `slice(0, n)` after the sort is not above what is kept. -/
theorem take_sortByCompatibility (l : List PotentialMatch) (n : Nat) (c : PotentialMatch)
    (hc : c ∈ l) :
    c ∈ (sortByCompatibility l).take n ∨
      ∀ m ∈ (sortByCompatibility l).take n, c.compatibility ≤ m.compatibility := by
  have hsorted := sortByCompatibility_sorted l
  rw [← List.take_append_drop n (sortByCompatibility l), List.pairwise_append] at hsorted
  have hmem := (mem_sortByCompatibility l c).2 hc
  rw [← List.take_append_drop n (sortByCompatibility l), List.mem_append] at hmem
  rcases hmem with h | h
  · exact Or.inl h
  · exact Or.inr (fun m hm => hsorted.2.2 m hm c h)

/-- The loop of `findMatches` pushes one entry for every user it has to rank, in
the order of the snapshot. -/
theorem collectMatches_userData (userPreferences : Preferences) (uid : ParticipantId)
    (users : List UserDoc) :
    (MatchingManager.collectMatches userPreferences (usersOtherThan users uid)).map
      (fun m => m.userData) = eligibleUsers userPreferences uid users := by
  induction users with
  | nil => rfl
  | cons d rest ih =>
    unfold MatchingManager.collectMatches usersOtherThan eligibleUsers at ih ⊢
    by_cases hne : d.uid = uid
    · simpa [List.filter_cons, hne] using ih
    · cases hp : d.preferences with
      | none => simpa [List.filter_cons, hne, hp, List.filterMap_cons] using ih
      | some p =>
        by_cases hpos : 0 < MatchingManager.calculateCompatibility userPreferences p
        · simpa [List.filter_cons, hne, hp, List.filterMap_cons, hpos] using ih
        · simpa [List.filter_cons, hne, hp, List.filterMap_cons, hpos] using ih

/-- The sorted array splits into what `slice(0, n)` keeps and what it drops: both
together are the array that was sorted, up to order, and nothing dropped is above
anything kept. -/
theorem take_drop_sortByCompatibility (l : List PotentialMatch) (n : Nat) :
    ((sortByCompatibility l).take n ++ (sortByCompatibility l).drop n).Perm l ∧
    ∀ x ∈ (sortByCompatibility l).drop n, ∀ m ∈ (sortByCompatibility l).take n,
      x.compatibility ≤ m.compatibility := by
  refine ⟨?_, ?_⟩
  · rw [List.take_append_drop]
    exact List.perm_insertionSort _ l
  · have hsorted := sortByCompatibility_sorted l
    rw [← List.take_append_drop n (sortByCompatibility l), List.pairwise_append] at hsorted
    exact fun x hx m hm => hsorted.2.2 m hm x hx

/-- C25 (the ten best matches).  After `findMatches` has run through for the
signed-in user `uid` with preferences `prefs`, `potentialMatches` has at most 10
entries, namely 10 or, when fewer users are eligible, as many as there are eligible
users (users of the collection other than `uid` whose preferences have a positive
compatibility with `prefs`); every entry is a user of the collection other than
`uid`, carries the compatibility of that user's preferences with `prefs`, and this
compatibility is positive; the entries are in non-increasing order of
compatibility; every other user with preferences and positive compatibility is
either among the entries or has a compatibility not above that of any entry; and
the entries together with the eligible users left out are exactly the eligible
users, each once, no user left out having a compatibility above that of an
entry. -/
theorem C25_top_ten_matches (uid : ParticipantId) (prefs : Preferences)
    (users : List UserDoc) (old : List PotentialMatch) :
    (MatchingManager.findMatches (some uid) (some prefs) true users old).length ≤ 10 ∧
    (∀ m ∈ MatchingManager.findMatches (some uid) (some prefs) true users old,
      0 < m.compatibility ∧ m.userData.uid ≠ uid ∧ m.userData ∈ users ∧
      ∃ p, m.userData.preferences = some p ∧
        m.compatibility = MatchingManager.calculateCompatibility prefs p) ∧
    (MatchingManager.findMatches (some uid) (some prefs) true users old).Pairwise
      (fun a b => b.compatibility ≤ a.compatibility) ∧
    (∀ d ∈ users, d.uid ≠ uid → ∀ p, d.preferences = some p →
      0 < MatchingManager.calculateCompatibility prefs p →
      { userData := d, compatibility := MatchingManager.calculateCompatibility prefs p } ∈
          MatchingManager.findMatches (some uid) (some prefs) true users old ∨
        ∀ m ∈ MatchingManager.findMatches (some uid) (some prefs) true users old,
          MatchingManager.calculateCompatibility prefs p ≤ m.compatibility) ∧
    (MatchingManager.findMatches (some uid) (some prefs) true users old).length =
      min 10 (eligibleUsers prefs uid users).length ∧
    (∃ leftOut : List PotentialMatch,
      ((MatchingManager.findMatches (some uid) (some prefs) true users old ++ leftOut).map
        (fun m => m.userData)).Perm (eligibleUsers prefs uid users) ∧
      (∀ x ∈ leftOut, ∃ p, x.userData.preferences = some p ∧
        x.compatibility = MatchingManager.calculateCompatibility prefs p) ∧
      ∀ x ∈ leftOut,
        ∀ m ∈ MatchingManager.findMatches (some uid) (some prefs) true users old,
          x.compatibility ≤ m.compatibility) := by
  have hfind : MatchingManager.findMatches (some uid) (some prefs) true users old =
      (sortByCompatibility
        (MatchingManager.collectMatches prefs (usersOtherThan users uid))).take 10 := rfl
  rw [hfind]
  refine ⟨List.length_take_le _ _, ?_, ?_, ?_, ?_, ?_⟩
  · intro m hm
    have h1 := (mem_sortByCompatibility _ m).1 (List.mem_of_mem_take hm)
    obtain ⟨hmem, p, hp, hc, hpos⟩ := (mem_collectMatches _ _ m).1 h1
    have h2 := List.mem_filter.1 hmem
    exact ⟨hpos, by simpa using h2.2, h2.1, p, hp, hc⟩
  · exact List.Pairwise.sublist (List.take_sublist _ _) (sortByCompatibility_sorted _)
  · intro d hd hne p hp hpos
    exact take_sortByCompatibility _ 10
      { userData := d, compatibility := MatchingManager.calculateCompatibility prefs p }
      ((mem_collectMatches _ _ _).2
        ⟨List.mem_filter.2 ⟨hd, by simpa using hne⟩, p, hp, rfl, hpos⟩)
  · rw [List.length_take, ← collectMatches_userData, List.length_map]
    exact congrArg (min 10) (List.perm_insertionSort _ _).length_eq
  · obtain ⟨hperm, hle⟩ := take_drop_sortByCompatibility
      (MatchingManager.collectMatches prefs (usersOtherThan users uid)) 10
    refine ⟨(sortByCompatibility
      (MatchingManager.collectMatches prefs (usersOtherThan users uid))).drop 10, ?_, ?_, hle⟩
    · rw [← collectMatches_userData]
      exact hperm.map _
    · intro x hx
      have h1 := (mem_sortByCompatibility _ x).1 (List.mem_of_mem_drop hx)
      obtain ⟨_, p, hp, hc, _⟩ := (mem_collectMatches _ _ x).1 h1
      exact ⟨p, hp, hc⟩

set_option maxRecDepth 100000 in
theorem findMatches_sampleUsers :
    MatchingManager.findMatches (some 1) (some prefsA) true sampleUsers [] =
      [{ userData := { uid := 4, preferences := some prefsA }, compatibility := 100 },
       { userData := { uid := 2, preferences := some prefsB }, compatibility := 57 },
       { userData := { uid := 5, preferences := some prefsC }, compatibility := 30 }] := by
  decide

theorem C25_top_ten_matches_witness :
    (MatchingManager.findMatches (some 1) (some prefsA) true sampleUsers []).length ≤ 10 ∧
    (0 < 57 ∧ (2 : ParticipantId) ≠ 1 ∧
      ({ uid := 2, preferences := some prefsB } : UserDoc) ∈ sampleUsers ∧
      ∃ p, some prefsB = some p ∧ 57 = MatchingManager.calculateCompatibility prefsA p) ∧
    (MatchingManager.findMatches (some 1) (some prefsA) true sampleUsers []).Pairwise
      (fun a b => b.compatibility ≤ a.compatibility) ∧
    ({ userData := { uid := 2, preferences := some prefsB },
       compatibility := MatchingManager.calculateCompatibility prefsA prefsB } ∈
        MatchingManager.findMatches (some 1) (some prefsA) true sampleUsers [] ∨
      ∀ m ∈ MatchingManager.findMatches (some 1) (some prefsA) true sampleUsers [],
        MatchingManager.calculateCompatibility prefsA prefsB ≤ m.compatibility) ∧
    (MatchingManager.findMatches (some 1) (some prefsA) true sampleUsers []).length =
      min 10 (eligibleUsers prefsA 1 sampleUsers).length :=
  have h := C25_top_ten_matches 1 prefsA sampleUsers []
  ⟨h.1,
    h.2.1 { userData := { uid := 2, preferences := some prefsB }, compatibility := 57 }
      (by rw [findMatches_sampleUsers]; decide),
    h.2.2.1,
    h.2.2.2.1 { uid := 2, preferences := some prefsB } (by decide) (by decide) prefsB rfl
      (by rw [calculateCompatibility_prefsA_prefsB]; decide),
    h.2.2.2.2.1⟩

/-! ## C26: the capacity of a study room -/

/-- The run in which nobody else writes to the collection is `joinStudyRoom`. -/
theorem joinStudyRoomRun_same (roomId : RoomId) (getOk updateOk : Bool)
    (media : Except MediaError (List TrackKind)) (setOk : Bool) (a : App) :
    joinStudyRoomRun roomId getOk updateOk media setOk a.studyRooms a =
      joinStudyRoom roomId getOk updateOk media setOk a := by
  unfold joinStudyRoomRun joinStudyRoom joinStudyRoomResume
  cases a.world.tab.currentUser with
  | none => rfl
  | some uid =>
    cases getOk with
    | false => rfl
    | true => rfl

/-- The three ways a run of `joinStudyRoom` can end when the `get()` has found the
room: the call wrote nothing and left `currentRoom` alone; the user was listed in
the snapshot and the call wrote nothing; or the snapshot was not full and did not
list the user, and the call has applied its `update()`. -/
theorem joinStudyRoomRun_cases (roomId : RoomId) (getOk updateOk : Bool)
    (media : Except MediaError (List TrackKind)) (setOk : Bool)
    (studyRooms1 : List (RoomId × RoomDoc)) (a : App) (snapshot : RoomDoc)
    (hsnap : getRoom a.studyRooms roomId = some snapshot) :
    ((joinStudyRoomRun roomId getOk updateOk media setOk studyRooms1 a).studyRooms =
        studyRooms1 ∧
      (joinStudyRoomRun roomId getOk updateOk media setOk studyRooms1 a).currentRoom =
        a.currentRoom) ∨
    ((joinStudyRoomRun roomId getOk updateOk media setOk studyRooms1 a).studyRooms =
        studyRooms1 ∧
      roomIsFull snapshot = false) ∨
    (∃ uid, a.world.tab.currentUser = some uid ∧ roomIsFull snapshot = false ∧
      uid ∉ snapshot.participants.getD [] ∧
      (joinStudyRoomRun roomId getOk updateOk media setOk studyRooms1 a).studyRooms =
        addParticipant studyRooms1 roomId uid) := by
  cases huser : a.world.tab.currentUser with
  | none =>
    left
    simp [joinStudyRoomRun, huser, App.notify]
  | some uid =>
    cases getOk with
    | false =>
      left
      simp [joinStudyRoomRun, huser, App.notify]
    | true =>
      cases hfull : roomIsFull snapshot with
      | true =>
        left
        simp [joinStudyRoomRun, joinStudyRoomResume, huser, hsnap, hfull, App.notify]
      | false =>
        by_cases hin : uid ∈ snapshot.participants.getD []
        · right
          left
          refine ⟨?_, rfl⟩
          cases hw : a.webrtcManager <;>
            simp [joinStudyRoomRun, joinStudyRoomResume, huser, hsnap, hfull, hin, hw]
        · cases updateOk with
          | false =>
            left
            simp [joinStudyRoomRun, joinStudyRoomResume, huser, hsnap, hfull, hin, App.notify]
          | true =>
            right
            right
            refine ⟨uid, rfl, rfl, hin, ?_⟩
            cases hw : a.webrtcManager <;>
              simp [joinStudyRoomRun, joinStudyRoomResume, huser, hsnap, hfull, hin, hw]

/-- C26, on a concrete run.  Room 7 holds participant 2 and has room for two.
Users 1 and 3 click `Join` at the same time: both `get()` calls read the same
document, then the `update()` of user 3 is applied, then that of user 1.  The call
of user 3 alone leaves two participants; the call of user 1, whose snapshot showed
one participant, leaves three in a room for two. -/
theorem C26_room_capacity_counterexample :
    getRoom (smallLobby 1).studyRooms 7 =
      some { participants := some [2], maxParticipants := some 2 } ∧
    (smallLobby 3).studyRooms = (smallLobby 1).studyRooms ∧
    getRoom (joinStudyRoom 7 true true cameraAndMic true (smallLobby 3)).studyRooms 7 =
      some { participants := some [2, 3], maxParticipants := some 2 } ∧
    getRoom (joinStudyRoomRun 7 true true cameraAndMic true
      (joinStudyRoom 7 true true cameraAndMic true (smallLobby 3)).studyRooms
      (smallLobby 1)).studyRooms 7 =
      some { participants := some [2, 3, 1], maxParticipants := some 2 } := by
  decide

/-- C26 as amended.  In a run of `joinStudyRoom` the room document is read by
`get()` (the snapshot) and may have been changed by others when the `update()` is
applied (the live document).  The call changes the participants lists only by
adding the signed-in user to the room, and only when the snapshot is not full and
does not list the user.  When the live list is duplicate-free, the list after the
call is duplicate-free, keeps every participant and has at most one entry more.
When moreover the document was not changed between the `get()` and the `update()`
and has at most `maxParticipants` entries, it has at most `maxParticipants`
entries afterwards.  A room whose snapshot has
`participants.length ≥ maxParticipants` is rejected, the participants lists and
`currentRoom` being left as they were. -/
theorem C26_room_capacity (roomId : RoomId) (getOk updateOk : Bool)
    (media : Except MediaError (List TrackKind)) (setOk : Bool)
    (studyRooms1 : List (RoomId × RoomDoc)) (a : App) (snapshot live : RoomDoc) (m : Int)
    (hsnap : getRoom a.studyRooms roomId = some snapshot)
    (hlive : getRoom studyRooms1 roomId = some live)
    (hmax : snapshot.maxParticipants = some m) :
    ((joinStudyRoomRun roomId getOk updateOk media setOk studyRooms1 a).studyRooms ≠
        studyRooms1 →
      ((snapshot.participants.getD []).length : Int) < m ∧
      ∃ uid, a.world.tab.currentUser = some uid ∧ uid ∉ snapshot.participants.getD [] ∧
        (joinStudyRoomRun roomId getOk updateOk media setOk studyRooms1 a).studyRooms =
          addParticipant studyRooms1 roomId uid) ∧
    ((live.participants.getD []).Nodup →
      ∃ room1,
        getRoom (joinStudyRoomRun roomId getOk updateOk media setOk studyRooms1 a).studyRooms
          roomId = some room1 ∧
        room1.maxParticipants = live.maxParticipants ∧
        (room1.participants.getD []).Nodup ∧
        (∀ p ∈ live.participants.getD [], p ∈ room1.participants.getD []) ∧
        (room1.participants.getD []).length ≤ (live.participants.getD []).length + 1 ∧
        (live.participants = snapshot.participants →
          ((live.participants.getD []).length : Int) ≤ m →
          ((room1.participants.getD []).length : Int) ≤ m)) ∧
    (m ≤ ((snapshot.participants.getD []).length : Int) →
      (joinStudyRoomRun roomId getOk updateOk media setOk studyRooms1 a).studyRooms =
        studyRooms1 ∧
      (joinStudyRoomRun roomId getOk updateOk media setOk studyRooms1 a).currentRoom =
        a.currentRoom) := by
  have hfull_iff : roomIsFull snapshot = true ↔
      m ≤ ((snapshot.participants.getD []).length : Int) := by
    simp [roomIsFull, hmax]
  have hnot : roomIsFull snapshot = false →
      ((snapshot.participants.getD []).length : Int) < m := by
    intro h
    by_contra hc
    rw [hfull_iff.2 (not_lt.1 hc)] at h
    cases h
  have hsame : ∀ rooms, rooms = studyRooms1 → (live.participants.getD []).Nodup →
      ∃ room1, getRoom rooms roomId = some room1 ∧
        room1.maxParticipants = live.maxParticipants ∧
        (room1.participants.getD []).Nodup ∧
        (∀ p ∈ live.participants.getD [], p ∈ room1.participants.getD []) ∧
        (room1.participants.getD []).length ≤ (live.participants.getD []).length + 1 ∧
        (live.participants = snapshot.participants →
          ((live.participants.getD []).length : Int) ≤ m →
          ((room1.participants.getD []).length : Int) ≤ m) := by
    intro rooms hrooms hnodup
    exact ⟨live, by rw [hrooms]; exact hlive, rfl, hnodup, fun _ hp => hp,
      Nat.le_succ _, fun _ hlen => hlen⟩
  refine ⟨?_, ?_, ?_⟩
  · intro hchange
    rcases joinStudyRoomRun_cases roomId getOk updateOk media setOk studyRooms1 a snapshot
      hsnap with h | h | ⟨uid, huser, hfull, hin, hrooms⟩
    · exact absurd h.1 hchange
    · exact absurd h.1 hchange
    · exact ⟨hnot hfull, uid, huser, hin, hrooms⟩
  · intro hnodup
    rcases joinStudyRoomRun_cases roomId getOk updateOk media setOk studyRooms1 a snapshot
      hsnap with h | h | ⟨uid, huser, hfull, hin, hrooms⟩
    · exact hsame _ h.1 hnodup
    · exact hsame _ h.1 hnodup
    · refine ⟨{ live with participants := some (arrayUnion live.participants uid) },
        by rw [hrooms]; exact getRoom_addParticipant _ _ _ _ hlive, rfl, ?_, ?_, ?_, ?_⟩
      · simp only [arrayUnion, Option.getD_some]
        split
        · exact hnodup
        · rename_i hout
          exact List.Nodup.append hnodup (List.nodup_singleton uid) (by simpa using hout)
      · intro p hp
        simp only [arrayUnion, Option.getD_some]
        split
        · exact hp
        · exact List.mem_append_left _ hp
      · simp only [arrayUnion, Option.getD_some]
        split
        · exact Nat.le_succ _
        · simp
      · intro heq hlen
        rw [heq] at hlen ⊢
        have := hnot hfull
        simp only [arrayUnion, if_neg hin, Option.getD_some, List.length_append,
          List.length_singleton]
        push_cast
        omega
  · intro hge
    rcases joinStudyRoomRun_cases roomId getOk updateOk media setOk studyRooms1 a snapshot
      hsnap with h | h | ⟨uid, huser, hfull, hin, hrooms⟩
    · exact h
    · rw [hfull_iff.2 hge] at h
      exact absurd h.2 (by decide)
    · rw [hfull_iff.2 hge] at hfull
      cases hfull

theorem C26_room_capacity_witness :
    getRoom lobby.studyRooms 7 = some { participants := some [2], maxParticipants := some 6 } ∧
    (joinStudyRoomRun 7 true true cameraAndMic true lobby.studyRooms lobby).studyRooms ≠
      lobby.studyRooms ∧
    (∃ uid, lobby.world.tab.currentUser = some uid ∧ uid ∉ [2] ∧
      (joinStudyRoomRun 7 true true cameraAndMic true lobby.studyRooms lobby).studyRooms =
        addParticipant lobby.studyRooms 7 uid) ∧
    (∃ room1,
      getRoom (joinStudyRoomRun 7 true true cameraAndMic true lobby.studyRooms lobby).studyRooms
        7 = some room1 ∧
      room1.maxParticipants = some 6 ∧
      (room1.participants.getD []).Nodup ∧
      ((room1.participants.getD []).length : Int) ≤ 6) ∧
    (getRoom oddLobby.studyRooms 7 = some zeroCapacityRoom ∧
      (joinStudyRoomRun 7 true true cameraAndMic true oddLobby.studyRooms oddLobby).studyRooms =
        oddLobby.studyRooms ∧
      (joinStudyRoomRun 7 true true cameraAndMic true oddLobby.studyRooms oddLobby).currentRoom =
        oddLobby.currentRoom) :=
  have h := C26_room_capacity 7 true true cameraAndMic true lobby.studyRooms lobby
    { participants := some [2], maxParticipants := some 6 }
    { participants := some [2], maxParticipants := some 6 } 6 (by decide) (by decide) rfl
  have h0 := C26_room_capacity 7 true true cameraAndMic true oddLobby.studyRooms oddLobby
    zeroCapacityRoom zeroCapacityRoom 0 (by decide) (by decide) rfl
  ⟨by decide, by decide, (h.1 (by decide)).2,
    (h.2.1 (by decide)).elim fun room1 hr =>
      ⟨room1, hr.1, hr.2.1, hr.2.2.1, hr.2.2.2.2.2 rfl (by decide)⟩,
    ⟨by decide, h0.2.2 (by decide)⟩⟩

/-! ## C27: routing by sender -/

/-- C27 (sender routing round trip).  When user `a`, in a room with the database
available, calls `sendSignalingMessage(b, m)`, the object stored in the mailbox of
`b` has `from = a` and the server timestamp, whatever `from` and `timestamp` the
argument carries, and the type and payload of `m`.  On the receiving side a callback
registered for participant `x` changes nothing when `x ≠ a`; when `x = a` it applies
the message to its connection and, unless an awaited call was rejected, removes it
from the mailbox. -/
theorem C27_sender_routing (link : Link) (wa : World) (a b : ParticipantId) (room : RoomId)
    (m : Message) (hdb : wa.tab.rtdb = true) (hroom : wa.tab.roomId = some room)
    (huser : wa.tab.currentUser = some a) :
    (sendSignalingMessage b m wa).db.signaling = wa.db.signaling ++ [pushedItem wa room b m] ∧
    (pushedItem wa room b m).recipient = b ∧
    (pushedItem wa room b m).msg.sender = some a ∧
    (pushedItem wa room b m).msg.timestamp = some wa.db.serverTime ∧
    (pushedItem wa room b m).msg.type = m.type ∧
    (pushedItem wa room b m).msg.payload = m.payload ∧
    ∀ (l : SignalingListener) (key : Nat) (w : World),
      (l.participantId ≠ a →
        onSignalingMessage link l key (pushedItem wa room b m).msg w = w) ∧
      (l.participantId = a → ∀ pc, w.tab.conns[l.peerConnection]? = some pc →
        (onSignalingMessage link l key (pushedItem wa room b m).msg
          w).tab.conns[l.peerConnection]? =
          some (applyMessage link (pushedItem wa room b m).msg pc).1 ∧
        ((applyMessage link (pushedItem wa room b m).msg pc).2 ≠ Outcome.threw →
          ∀ it ∈ (onSignalingMessage link l key (pushedItem wa room b m).msg w).db.signaling,
            ¬ (some it.room = l.room ∧ some it.recipient = l.uid ∧ it.key = key))) := by
  have hsender : (pushedItem wa room b m).msg.sender = some a := huser
  refine ⟨?_, rfl, hsender, rfl, rfl, rfl, ?_⟩
  · unfold sendSignalingMessage
    simp [hdb, hroom, pushedItem]
  · intro l key w
    refine ⟨?_, ?_⟩
    · intro hne
      refine onSignalingMessage_of_other_sender link l key _ w ?_
      rw [hsender]
      exact fun h => hne (Option.some.inj h).symm
    · intro heq pc hpc
      have hfrom : (pushedItem wa room b m).msg.sender = some l.participantId := by
        rw [hsender, heq]
      refine ⟨onSignalingMessage_conn link l key _ w pc hfrom hpc, ?_⟩
      intro hdone
      cases hout : (applyMessage link (pushedItem wa room b m).msg pc).2 with
      | threw => exact absurd hout hdone
      | done answer => exact onSignalingMessage_removes link l key _ w pc answer hfrom hpc hout

theorem C27_sender_routing_witness :
    peerTab.tab.rtdb = true ∧ peerTab.tab.roomId = some 7 ∧ peerTab.tab.currentUser = some 2 ∧
    (sendSignalingMessage 1 forgedAnswer peerTab).db.signaling =
      peerTab.db.signaling ++ [pushedItem peerTab 7 1 forgedAnswer] ∧
    (pushedItem peerTab 7 1 forgedAnswer).msg.sender = some 2 ∧
    onSignalingMessage browserLink ⟨some 7, some 1, 3, 0⟩ 1
      (pushedItem peerTab 7 1 forgedAnswer).msg withPeer = withPeer ∧
    (onSignalingMessage browserLink ⟨some 7, some 1, 2, 0⟩ 1
      (pushedItem peerTab 7 1 forgedAnswer).msg withPeer).tab.conns[0]? =
      some (applyMessage browserLink (pushedItem peerTab 7 1 forgedAnswer).msg
        (startOffer browserLink (newPeerConnection inRoom.tab.localStream true)).1).1 :=
  have h := C27_sender_routing browserLink peerTab 2 1 7 forgedAnswer rfl rfl rfl
  ⟨rfl, rfl, rfl, h.1, h.2.2.1,
    (h.2.2.2.2.2.2 ⟨some 7, some 1, 3, 0⟩ 1 withPeer).1 (by decide),
    ((h.2.2.2.2.2.2 ⟨some 7, some 1, 2, 0⟩ 1 withPeer).2 rfl
      (startOffer browserLink (newPeerConnection inRoom.tab.localStream true)).1
      (by decide)).1⟩

/-! ## C30: the two tests for a full room -/

/-- Where the two tests agree: for a `maxParticipants` that is a number other than
0, the button is disabled exactly when `joinStudyRoom` finds the room full. -/
theorem createRoomCardHTML_agrees (room : RoomDoc) (m : Int)
    (hmax : room.maxParticipants = some m) (hm : m ≠ 0) :
    (createRoomCardHTML room).disabled = roomIsFull room := by
  unfold createRoomCardHTML roomIsFull
  simp only [hmax, if_neg hm]
  cases room.participants <;> simp

/-- C30, at the failing inputs.  A room created with capacity 0 by its only
participant gets an enabled button labelled `Join Room`, yet `joinStudyRoom`
rejects it as full and changes nothing.  A room without numeric capacity that holds
six participants gets a disabled button labelled `Room Full`, yet `joinStudyRoom`
does not find it full and adds the user. -/
theorem C30_room_full_tests_disagree :
    createRoomCardHTML zeroCapacityRoom = { disabled := false, label := "Join Room" } ∧
    roomIsFull zeroCapacityRoom = true ∧
    (joinStudyRoom 7 true true cameraAndMic true oddLobby).studyRooms = oddLobby.studyRooms ∧
    (joinStudyRoom 7 true true cameraAndMic true oddLobby).world.tab.notifications =
      ["Room is full."] ∧
    createRoomCardHTML noCapacityRoom = { disabled := true, label := "Room Full" } ∧
    roomIsFull noCapacityRoom = false ∧
    getRoom (joinStudyRoom 8 true true cameraAndMic true oddLobby).studyRooms 8 =
      some { participants := some [1, 2, 3, 4, 5, 6, 9], maxParticipants := none } := by
  decide

/-! ## Runs in which `joinRoom` is suspended -/

/-- The two halves of `addToRoomParticipants` make up `addToRoomParticipants`. -/
theorem addToRoomParticipants_eq_resume (setOk : Bool) (w : World) :
    addToRoomParticipants setOk w =
      match addToRoomParticipantsBegin w with
      | none => (w, true)
      | some participantsRef => addToRoomParticipantsResume participantsRef setOk w := by
  unfold addToRoomParticipants addToRoomParticipantsBegin addToRoomParticipantsResume
  split <;> simp_all

/-- The run in which nothing else happens while `joinRoom` is suspended is
`joinRoom`. -/
theorem joinRoomRun_nil (link : Link) (roomId : RoomId)
    (media : Except MediaError (List TrackKind)) (setOk : Bool) (w : World) :
    joinRoomRun link roomId media setOk [] [] w = joinRoom roomId media setOk w := by
  unfold joinRoomRun joinRoom
  simp only [exec, List.foldl_nil, joinRoomBegin]
  split
  · rfl
  · rw [addToRoomParticipants_eq_resume]
    split <;> rfl

/-- The run in which actions run only while `getUserMedia` is pending is the second
half of `joinRoom` after these actions. -/
theorem joinRoomRun_during_media (link : Link) (roomId : RoomId)
    (media : Except MediaError (List TrackKind)) (setOk : Bool) (during1 : List Action)
    (w : World) :
    joinRoomRun link roomId media setOk during1 [] w =
      joinRoomResume media setOk (exec link during1 (joinRoomBegin roomId w)) := by
  unfold joinRoomRun joinRoomResume
  split
  · rfl
  · rw [addToRoomParticipants_eq_resume]
    simp only [exec, List.foldl_nil]
    split <;> rfl

theorem exec_nil (link : Link) (w : World) : exec link [] w = w := rfl

theorem exec_cons (link : Link) (a : Action) (rest : List Action) (w : World) :
    exec link (a :: rest) w = exec link rest (act link a w) := rfl

theorem setEnabled_states (tracks : List MediaStreamTrack) (i : Nat) (value : Bool) :
    (setEnabled tracks i value).map (fun t => (t.kind, t.stopped)) =
      tracks.map (fun t => (t.kind, t.stopped)) := by
  unfold setEnabled
  split
  · rename_i t ht
    apply List.ext_getElem?
    intro n
    by_cases hn : i = n
    · subst hn
      have hlt : i < tracks.length := by
        by_contra hc
        rw [List.getElem?_eq_none (Nat.le_of_not_lt hc)] at ht
        cases ht
      rw [List.getElem?_eq_getElem hlt] at ht
      have hget := Option.some.inj ht
      subst hget
      simp [List.getElem?_map, List.getElem?_set, hlt]
    · simp [List.getElem?_map, List.getElem?_set, hn]
  · rfl

theorem sendSignalingMessage_session (p : ParticipantId) (m : Message) (w : World) :
    session (sendSignalingMessage p m w) = session w := by
  unfold sendSignalingMessage
  split <;> rfl

theorem createPeerConnection_session (link : Link) (p : ParticipantId) (co : Bool)
    (w : World) : session (createPeerConnection link p co w) = session w := by
  unfold createPeerConnection
  simp only
  split
  · split
    · rw [sendSignalingMessage_session]
      unfold listenForSignalingMessages putConn
      split <;> rfl
    · unfold listenForSignalingMessages putConn
      split <;> rfl
  · unfold listenForSignalingMessages
    split <;> rfl

theorem removePeerConnection_session (p : ParticipantId) (w : World) :
    session (removePeerConnection p w) = session w := by
  unfold removePeerConnection
  split <;> rfl

theorem onSignalingMessage_session (link : Link) (l : SignalingListener) (key : Nat)
    (m : Message) (w : World) : session (onSignalingMessage link l key m w) = session w := by
  unfold onSignalingMessage
  split
  · rfl
  · split
    · rfl
    · split
      · rfl
      · rfl
      · show session (sendSignalingMessage _ _ _) = _
        rw [sendSignalingMessage_session]
        rfl

theorem toggle_session (w : World) :
    session (toggleVideo w) = session w ∧ session (toggleAudio w) = session w := by
  unfold toggleVideo toggleAudio
  refine ⟨?_, ?_⟩
  · split
    · rfl
    · split
      · simp only [session, trackStates, setEnabled_states]
      · rfl
  · split
    · rfl
    · split
      · simp only [session, trackStates, setEnabled_states]
      · rfl

/-- The callbacks, the toggles and the `onicecandidate` handler leave the session
part of the state alone. -/
theorem act_session (link : Link) (a : Action) (w : World)
    (h : a.entersOrLeaves = false) : session (act link a w) = session w := by
  cases a with
  | joinRoom roomId media setOk => cases h
  | leaveRoom removeOk => cases h
  | toggleVideo => exact (toggle_session w).1
  | toggleAudio => exact (toggle_session w).2
  | iceCandidate p c =>
    cases c with
    | none => rfl
    | some c => exact sendSignalingMessage_session _ _ w
  | callback e =>
    cases e with
    | childAdded p =>
      show session (onChildAdded link p w) = session w
      unfold onChildAdded
      split
      · rfl
      · exact createPeerConnection_session link p true w
    | childRemoved p => exact removePeerConnection_session p w
    | signaling l key m => exact onSignalingMessage_session link l key m w

theorem exec_session (link : Link) (actions : List Action) (w : World)
    (h : ∀ a ∈ actions, a.entersOrLeaves = false) :
    session (exec link actions w) = session w := by
  induction actions generalizing w with
  | nil => rfl
  | cons a rest ih =>
    rw [exec_cons, ih _ (fun b hb => h b (List.mem_cons_of_mem _ hb)),
      act_session link a w (h a (List.mem_cons_self _ _))]

/-- What `startLocalStream` does to the session part depends on the session part
only. -/
theorem startLocalStream_session (media : Except MediaError (List TrackKind)) (w v : World)
    (h : session w = session v) :
    session (startLocalStream media w).1 = session (startLocalStream media v).1 ∧
    (startLocalStream media w).2 = (startLocalStream media v).2 := by
  simp only [session, trackStates, Session.mk.injEq] at h
  obtain ⟨h1, h2, h3, h4, h5, h6, h7, h8⟩ := h
  have hlen : w.tab.tracks.length = v.tab.tracks.length := by
    have := congrArg List.length h5
    simpa using this
  cases media with
  | error e => cases e <;> simp [startLocalStream, showNotification, session, trackStates, *]
  | ok kinds => simp [startLocalStream, session, trackStates, *]

theorem listenForParticipants_session (w v : World) (h : session w = session v) :
    session (listenForParticipants w) = session (listenForParticipants v) := by
  simp only [session, trackStates, Session.mk.injEq] at h
  obtain ⟨h1, h2, h3, h4, h5, h6, h7, h8⟩ := h
  unfold listenForParticipants
  rw [h1, h2]
  split <;> simp [session, trackStates, *]

theorem addToRoomParticipantsBegin_session (w v : World) (h : session w = session v) :
    addToRoomParticipantsBegin w = addToRoomParticipantsBegin v := by
  simp only [session, trackStates, Session.mk.injEq] at h
  obtain ⟨h1, h2, h3, h4, h5, h6, h7, h8⟩ := h
  unfold addToRoomParticipantsBegin
  rw [h1, h2, h3]

theorem addToRoomParticipantsResume_session (participantsRef : RoomId × ParticipantId)
    (setOk : Bool) (w v : World) (h : session w = session v) :
    session (addToRoomParticipantsResume participantsRef setOk w).1 =
      session (addToRoomParticipantsResume participantsRef setOk v).1 ∧
    (addToRoomParticipantsResume participantsRef setOk w).2 =
      (addToRoomParticipantsResume participantsRef setOk v).2 := by
  simp only [session, trackStates, Session.mk.injEq] at h
  obtain ⟨h1, h2, h3, h4, h5, h6, h7, h8⟩ := h
  cases setOk <;> simp [addToRoomParticipantsResume, session, trackStates, *]

/-- When no `joinRoom` or `leaveRoom` call runs while `joinRoom` is suspended, it
returns what it returns when nothing runs meanwhile, and leaves the same session
part. -/
theorem joinRoomRun_session (link : Link) (roomId : RoomId)
    (media : Except MediaError (List TrackKind)) (setOk : Bool) (during1 during2 : List Action)
    (w : World) (h1 : ∀ a ∈ during1, a.entersOrLeaves = false)
    (h2 : ∀ a ∈ during2, a.entersOrLeaves = false) :
    session (joinRoomRun link roomId media setOk during1 during2 w).1 =
      session (joinRoom roomId media setOk w).1 ∧
    (joinRoomRun link roomId media setOk during1 during2 w).2 =
      (joinRoom roomId media setOk w).2 := by
  rw [← joinRoomRun_nil link]
  unfold joinRoomRun
  have hs := startLocalStream_session media _ _
    (exec_session link during1 (joinRoomBegin roomId w) h1)
  simp only [exec_nil] at hs ⊢
  generalize startLocalStream media (exec link during1 (joinRoomBegin roomId w)) = r at hs
  generalize startLocalStream media (joinRoomBegin roomId w) = r0 at hs
  obtain ⟨w2, b⟩ := r
  obtain ⟨v2, b0⟩ := r0
  obtain ⟨hs1, hs2⟩ := hs
  simp only at hs1 hs2
  subst hs2
  cases b with
  | false => exact ⟨hs1, rfl⟩
  | true =>
    have hl := listenForParticipants_session w2 v2 hs1
    simp only
    rw [addToRoomParticipantsBegin_session _ _ hl]
    cases addToRoomParticipantsBegin (listenForParticipants v2) with
    | none => exact ⟨hl, rfl⟩
    | some participantsRef =>
      have hr := addToRoomParticipantsResume_session participantsRef setOk _ _
        ((exec_session link during2 _ h2).trans hl)
      simp only
      generalize addToRoomParticipantsResume participantsRef setOk
        (exec link during2 (listenForParticipants w2)) = r at hr
      generalize addToRoomParticipantsResume participantsRef setOk
        (listenForParticipants v2) = r0 at hr
      obtain ⟨w3, c⟩ := r
      obtain ⟨v3, c0⟩ := r0
      obtain ⟨hr1, hr2⟩ := hr
      simp only at hr1 hr2
      subst hr2
      cases c with
      | false => exact ⟨hr1, rfl⟩
      | true => exact ⟨hr1, rfl⟩

theorem act_createdAfter (link : Link) (n : Nat) (a : Action) (w : World)
    (h : CreatedAfter n w) : CreatedAfter n (act link a w) := by
  cases a with
  | joinRoom roomId media setOk =>
    have hj := joinRoom_registry roomId media setOk w
    exact ⟨by rw [show (act link (Action.joinRoom roomId media setOk) w).tab.conns =
        w.tab.conns from hj.2]; exact h.1,
      fun e he => h.2 e (by
        rw [show (act link (Action.joinRoom roomId media setOk) w).tab.peerConnections =
          w.tab.peerConnections from hj.1] at he
        exact he)⟩
  | leaveRoom removeOk =>
    show CreatedAfter n (leaveRoom removeOk w)
    rcases leaveRoom_cases removeOk w with hl | ⟨records, hl⟩
    · rw [hl]
      exact h
    · rw [hl]
      refine ⟨?_, ?_⟩
      · show n ≤ (List.foldl closeConn w.tab.conns _).length
        rw [foldl_closeConn_length]
        exact h.1
      · intro e he
        exact absurd he (List.not_mem_nil e)
  | toggleVideo =>
    show CreatedAfter n (toggleVideo w)
    exact ⟨by rw [(toggle_frame w).2.2.1]; exact h.1,
      fun e he => h.2 e (by rw [(toggle_frame w).2.1] at he; exact he)⟩
  | toggleAudio =>
    show CreatedAfter n (toggleAudio w)
    exact ⟨by rw [(toggle_frame w).2.2.2.2.2]; exact h.1,
      fun e he => h.2 e (by rw [(toggle_frame w).2.2.2.2.1] at he; exact he)⟩
  | iceCandidate p c =>
    show CreatedAfter n (onIceCandidate p c w)
    exact ⟨by rw [onIceCandidate_tab]; exact h.1,
      fun e he => h.2 e (by rw [onIceCandidate_tab] at he; exact he)⟩
  | callback e => exact handle_createdAfter link n e w h

theorem exec_createdAfter (link : Link) (n : Nat) (actions : List Action) (w : World)
    (h : CreatedAfter n w) : CreatedAfter n (exec link actions w) := by
  induction actions generalizing w with
  | nil => exact h
  | cons a rest ih =>
    rw [exec_cons]
    exact ih _ (act_createdAfter link n a w h)

/-- The steps of `joinRoom` itself touch neither the registry nor the heap of
connection objects, so whatever runs while it is suspended, the registry holds no
object older than it did before. -/
theorem joinRoomRun_createdAfter (link : Link) (n : Nat) (roomId : RoomId)
    (media : Except MediaError (List TrackKind)) (setOk : Bool) (during1 during2 : List Action)
    (w : World) (h : CreatedAfter n w) :
    CreatedAfter n (joinRoomRun link roomId media setOk during1 during2 w).1 := by
  have hstep : ∀ v v1 : World, v1.tab.conns = v.tab.conns →
      v1.tab.peerConnections = v.tab.peerConnections → CreatedAfter n v →
      CreatedAfter n v1 := by
    intro v v1 hc hp hv
    exact ⟨by rw [hc]; exact hv.1, fun e he => hv.2 e (by rw [hp] at he; exact he)⟩
  have hstart : ∀ v : World, (startLocalStream media v).1.tab.conns = v.tab.conns ∧
      (startLocalStream media v).1.tab.peerConnections = v.tab.peerConnections := by
    intro v
    cases media with
    | error e => cases e <;> exact ⟨rfl, rfl⟩
    | ok kinds => exact ⟨rfl, rfl⟩
  have hlisten : ∀ v : World, (listenForParticipants v).tab.conns = v.tab.conns ∧
      (listenForParticipants v).tab.peerConnections = v.tab.peerConnections := by
    intro v
    unfold listenForParticipants
    split <;> exact ⟨rfl, rfl⟩
  have hresume : ∀ (r : RoomId × ParticipantId) (v : World),
      (addToRoomParticipantsResume r setOk v).1.tab = v.tab := by
    intro r v
    unfold addToRoomParticipantsResume
    split <;> rfl
  have h1 : CreatedAfter n (exec link during1 (joinRoomBegin roomId w)) :=
    exec_createdAfter link n during1 _ (hstep w _ rfl rfl h)
  have h2 := hstep _ _ (hstart _).1 (hstart _).2 h1
  unfold joinRoomRun
  generalize startLocalStream media (exec link during1 (joinRoomBegin roomId w)) = r at h2
  obtain ⟨w2, b⟩ := r
  cases b with
  | false => exact hstep _ _ rfl rfl h2
  | true =>
    have h3 := hstep _ _ (hlisten w2).1 (hlisten w2).2 h2
    simp only
    cases addToRoomParticipantsBegin (listenForParticipants w2) with
    | none => exact h3
    | some participantsRef =>
      have h4 := exec_createdAfter link n during2 _ h3
      have h5 := hstep _ _ (congrArg (fun t => t.conns) (hresume participantsRef _))
        (congrArg (fun t => t.peerConnections) (hresume participantsRef _)) h4
      simp only
      generalize addToRoomParticipantsResume participantsRef setOk
        (exec link during2 (listenForParticipants w2)) = r at h5
      obtain ⟨w3, c⟩ := r
      cases c with
      | false => exact hstep _ _ rfl rfl h5
      | true => exact h5

/-! ## C10: leave then rejoin -/

/-- C10, on concrete runs from the state where user 1 is in room 7 with a
connection to participant 2.  (a) `leaveRoom` runs through and the following
`joinRoom(7)` fails to get the camera: it returns `false` and no presence record
of user 1 is left.  (b) The `remove()` of `leaveRoom` is rejected and the
following `joinRoom(7)` succeeds: the registry still holds object 0, created in
the session before.  (c) `leaveRoom` runs through, `joinRoom(7)` follows, and a
second `leaveRoom` runs while `getUserMedia` is pending: `joinRoom` returns `true`
and no presence record of user 1 is left. -/
theorem C10_leave_then_rejoin_counterexample :
    (joinRoom 7 (Except.error MediaError.notAllowed) true (leaveRoom true withPeer)).2 = false ∧
    (joinRoom 7 (Except.error MediaError.notAllowed) true
      (leaveRoom true withPeer)).1.db.roomParticipants.count (7, 1) = 0 ∧
    (joinRoom 7 cameraAndMic true (leaveRoom false withPeer)).2 = true ∧
    (joinRoom 7 cameraAndMic true (leaveRoom false withPeer)).1.tab.peerConnections =
      [(2, 0)] ∧
    withPeer.tab.conns.length = 1 ∧
    (joinRoomRun browserLink 7 cameraAndMic true [Action.leaveRoom true] []
      (leaveRoom true withPeer)).2 = true ∧
    (joinRoomRun browserLink 7 cameraAndMic true [Action.leaveRoom true] []
      (leaveRoom true withPeer)).1.db.roomParticipants.count (7, 1) = 0 := by
  decide

/-- C10 as amended.  The database is available and a user is signed in and in a
room; `leaveRoom` runs with its `remove()` not rejected and `joinRoom` of the same
room follows, other actions running while it waits for `getUserMedia` and for
`set()`.  When `joinRoom` returns `true` and none of these actions is a call of
`leaveRoom` or `joinRoom`, exactly one presence record of the user is left under the
room.  And in every such run, when `joinRoom` returns and whatever runs
afterwards, no object in the registry is one of those that existed before the
leave. -/
theorem C10_leave_then_rejoin (link : Link) (w : World) (room : RoomId)
    (uid : ParticipantId) (media : Except MediaError (List TrackKind)) (setOk : Bool)
    (during1 during2 : List Action)
    (hdb : w.tab.rtdb = true) (hroom : w.tab.roomId = some room)
    (huser : w.tab.currentUser = some uid) :
    ((∀ a ∈ during1, a.entersOrLeaves = false) → (∀ a ∈ during2, a.entersOrLeaves = false) →
      (joinRoomRun link room media setOk during1 during2 (leaveRoom true w)).2 = true →
      (joinRoomRun link room media setOk during1 during2
        (leaveRoom true w)).1.db.roomParticipants.count (room, uid) = 1) ∧
    (∀ (after : List Action),
      ∀ e ∈ (exec link after (joinRoomRun link room media setOk during1 during2
          (leaveRoom true w)).1).tab.peerConnections,
        w.tab.conns.length ≤ e.2) := by
  obtain ⟨records, heq, hrec⟩ := leaveRoom_true_eq w
  have hrecords := hrec room uid hdb hroom huser
  have hldb : (leaveRoom true w).tab.rtdb = true := by rw [heq]; exact hdb
  have hluser : (leaveRoom true w).tab.currentUser = some uid := by rw [heq]; exact huser
  have hlrec : (leaveRoom true w).db.roomParticipants =
      dbRemove w.db.roomParticipants room uid := by rw [heq]; exact hrecords
  have hlpcs : (leaveRoom true w).tab.peerConnections = [] := by rw [heq]; rfl
  have hlconns : (leaveRoom true w).tab.conns.length = w.tab.conns.length := by
    rw [heq]
    exact foldl_closeConn_length _ _
  refine ⟨?_, ?_⟩
  · intro h1 h2 hjoin
    obtain ⟨hs, hb⟩ := joinRoomRun_session link room media setOk during1 during2
      (leaveRoom true w) h1 h2
    rw [hb] at hjoin
    have hp : (joinRoomRun link room media setOk during1 during2
        (leaveRoom true w)).1.db.roomParticipants =
        (joinRoom room media setOk (leaveRoom true w)).1.db.roomParticipants :=
      congrArg Session.roomParticipants hs
    rw [hp, joinRoom_records room media setOk _ uid hldb hluser hjoin, hlrec]
    exact count_dbSet_dbRemove _ _ _
  · intro after e he
    have h0 : CreatedAfter w.tab.conns.length (leaveRoom true w) := by
      refine ⟨Nat.le_of_eq hlconns.symm, ?_⟩
      intro x hx
      rw [hlpcs] at hx
      exact absurd hx (List.not_mem_nil x)
    exact (exec_createdAfter link _ after _
      (joinRoomRun_createdAfter link _ room media setOk during1 during2 _ h0)).2 e he

theorem C10_leave_then_rejoin_witness :
    withPeer.tab.rtdb = true ∧ withPeer.tab.roomId = some 7 ∧
    withPeer.tab.currentUser = some 1 ∧
    (joinRoomRun browserLink 7 cameraAndMic true [Action.callback (Event.childAdded 3)]
      [Action.callback (Event.childAdded 2), Action.toggleVideo]
      (leaveRoom true withPeer)).2 = true ∧
    (joinRoomRun browserLink 7 cameraAndMic true [Action.callback (Event.childAdded 3)]
      [Action.callback (Event.childAdded 2), Action.toggleVideo]
      (leaveRoom true withPeer)).1.db.roomParticipants.count (7, 1) = 1 ∧
    (joinRoomRun browserLink 7 cameraAndMic true [Action.callback (Event.childAdded 3)]
      [Action.callback (Event.childAdded 2), Action.toggleVideo]
      (leaveRoom true withPeer)).1.tab.peerConnections = [(3, 1), (2, 2)] ∧
    (∀ e ∈ (exec browserLink [Action.leaveRoom false, Action.callback (Event.childRemoved 3)]
        (joinRoomRun browserLink 7 cameraAndMic true [Action.callback (Event.childAdded 3)]
          [Action.callback (Event.childAdded 2), Action.toggleVideo]
          (leaveRoom true withPeer)).1).tab.peerConnections,
      withPeer.tab.conns.length ≤ e.2) :=
  have h := C10_leave_then_rejoin browserLink withPeer 7 1 cameraAndMic true
    [Action.callback (Event.childAdded 3)]
    [Action.callback (Event.childAdded 2), Action.toggleVideo] rfl (by decide) rfl
  ⟨rfl, by decide, rfl, by decide, h.1 (by decide) (by decide) (by decide), by decide,
    h.2 [Action.leaveRoom false, Action.callback (Event.childRemoved 3)]⟩

/-! ## C11: a failed joinRoom -/

/-- C11, on concrete runs from a fresh tab of user 1.  (a) `getUserMedia` resolves
and the awaited `set()` is rejected: `joinRoom(7)` returns `false` with `roomId`
set to 7, the local stream kept with both tracks live, and its presence
subscription registered.  (b) `getUserMedia` is rejected: `joinRoom(7)` returns
`false` with `roomId` set to 7.  (c) `leaveRoom` runs while `getUserMedia` is
pending, and `getUserMedia` is then rejected: `joinRoom(7)` returns `false` with
`roomId` null, so what a failed `joinRoom` leaves in `roomId` depends on what ran
while it was suspended. -/
theorem C11_joinRoom_rollback_counterexample :
    (World.mk (freshTab 1) emptyDb).tab.roomId = none ∧
    (joinRoom 7 cameraAndMic false (World.mk (freshTab 1) emptyDb)).2 = false ∧
    (joinRoom 7 cameraAndMic false (World.mk (freshTab 1) emptyDb)).1.tab.roomId = some 7 ∧
    (joinRoom 7 cameraAndMic false (World.mk (freshTab 1) emptyDb)).1.tab.localStream =
      some [0, 1] ∧
    (joinRoom 7 cameraAndMic false (World.mk (freshTab 1) emptyDb)).1.tab.tracks.map
      (fun t => t.stopped) = [false, false] ∧
    (joinRoom 7 cameraAndMic false
      (World.mk (freshTab 1) emptyDb)).1.tab.participantListeners = [7] ∧
    (joinRoom 7 (Except.error MediaError.notFound) true
      (World.mk (freshTab 1) emptyDb)).2 = false ∧
    (joinRoom 7 (Except.error MediaError.notFound) true
      (World.mk (freshTab 1) emptyDb)).1.tab.roomId = some 7 ∧
    (joinRoomRun browserLink 7 (Except.error MediaError.notFound) true [Action.leaveRoom true] []
      (World.mk (freshTab 1) emptyDb)).2 = false ∧
    (joinRoomRun browserLink 7 (Except.error MediaError.notFound) true [Action.leaveRoom true] []
      (World.mk (freshTab 1) emptyDb)).1.tab.roomId = none := by
  decide

/-- C11 as amended.  `joinRoom` rolls nothing back.  Other actions run while it
waits for `getUserMedia` and for `set()`, none of them a call of `leaveRoom` or
`joinRoom`.  Whenever it returns `false`, the presence records and the
`onDisconnect` hooks are as before the call (no presence record was published),
but `roomId` is the requested room; when `getUserMedia` was rejected, the local
stream and the presence subscriptions are as before the call and no track has been
added or stopped; when the `set()` was rejected, the acquired stream is kept, its
tracks not stopped, and the presence subscription registered by the call
remains. -/
theorem C11_joinRoom_failure_state (link : Link) (room : RoomId)
    (media : Except MediaError (List TrackKind)) (setOk : Bool) (during1 during2 : List Action)
    (w : World) (h1 : ∀ a ∈ during1, a.entersOrLeaves = false)
    (h2 : ∀ a ∈ during2, a.entersOrLeaves = false)
    (h : (joinRoomRun link room media setOk during1 during2 w).2 = false) :
    (joinRoomRun link room media setOk during1 during2 w).1.tab.roomId = some room ∧
    (joinRoomRun link room media setOk during1 during2 w).1.db.roomParticipants =
      w.db.roomParticipants ∧
    (joinRoomRun link room media setOk during1 during2 w).1.db.onDisconnect =
      w.db.onDisconnect ∧
    (∀ e, media = Except.error e →
      (joinRoomRun link room media setOk during1 during2 w).1.tab.localStream =
        w.tab.localStream ∧
      trackStates (joinRoomRun link room media setOk during1 during2 w).1 = trackStates w ∧
      (joinRoomRun link room media setOk during1 during2 w).1.tab.participantListeners =
        w.tab.participantListeners) ∧
    (∀ kinds, media = Except.ok kinds →
      (joinRoomRun link room media setOk during1 during2 w).1.tab.localStream =
        some (List.range' w.tab.tracks.length kinds.length) ∧
      trackStates (joinRoomRun link room media setOk during1 during2 w).1 =
        trackStates w ++ kinds.map (fun kind => (kind, false)) ∧
      (joinRoomRun link room media setOk during1 during2 w).1.tab.participantListeners =
        w.tab.participantListeners ++ [room]) := by
  obtain ⟨hs, hb⟩ := joinRoomRun_session link room media setOk during1 during2 w h1 h2
  rw [hb] at h
  have hroomId := congrArg Session.roomId hs
  have hrecords := congrArg Session.roomParticipants hs
  have hhooks := congrArg Session.onDisconnect hs
  have hstream := congrArg Session.localStream hs
  have hstates := congrArg Session.trackStates hs
  have hlisteners := congrArg Session.participantListeners hs
  simp only [session] at hroomId hrecords hhooks hstream hstates hlisteners
  rw [hroomId, hrecords, hhooks, hstream, hstates, hlisteners]
  cases media with
  | error e =>
    rw [joinRoom_media_error]
    refine ⟨rfl, rfl, rfl, ?_, ?_⟩
    · intro _ _
      exact ⟨rfl, rfl, rfl⟩
    · intro kinds hk
      cases hk
  | ok kinds =>
    obtain ⟨_, heq⟩ := joinRoom_set_rejected room kinds setOk w h
    rw [heq]
    refine ⟨rfl, rfl, rfl, ?_, ?_⟩
    · intro e he
      cases he
    · intro kinds1 hk
      cases hk
      refine ⟨rfl, ?_, rfl⟩
      simp [trackStates, showNotification, newTrack, Function.comp_def]

theorem C11_joinRoom_failure_state_witness :
    (joinRoomRun browserLink 7 cameraAndMic false [Action.callback (Event.childAdded 3)]
      [Action.callback (Event.childAdded 2), Action.toggleVideo]
      (World.mk (freshTab 1) emptyDb)).2 = false ∧
    (joinRoomRun browserLink 7 cameraAndMic false [Action.callback (Event.childAdded 3)]
      [Action.callback (Event.childAdded 2), Action.toggleVideo]
      (World.mk (freshTab 1) emptyDb)).1.tab.roomId = some 7 ∧
    (joinRoomRun browserLink 7 cameraAndMic false [Action.callback (Event.childAdded 3)]
      [Action.callback (Event.childAdded 2), Action.toggleVideo]
      (World.mk (freshTab 1) emptyDb)).1.db.roomParticipants = emptyDb.roomParticipants ∧
    trackStates (joinRoomRun browserLink 7 cameraAndMic false
      [Action.callback (Event.childAdded 3)]
      [Action.callback (Event.childAdded 2), Action.toggleVideo]
      (World.mk (freshTab 1) emptyDb)).1 =
        trackStates (World.mk (freshTab 1) emptyDb) ++
          [TrackKind.video, TrackKind.audio].map (fun kind => (kind, false)) ∧
    (joinRoomRun browserLink 7 cameraAndMic false [Action.callback (Event.childAdded 3)]
      [Action.callback (Event.childAdded 2), Action.toggleVideo]
      (World.mk (freshTab 1) emptyDb)).1.tab.participantListeners =
        (World.mk (freshTab 1) emptyDb).tab.participantListeners ++ [7] ∧
    (joinRoomRun browserLink 7 cameraAndMic false [Action.callback (Event.childAdded 3)]
      [Action.callback (Event.childAdded 2), Action.toggleVideo]
      (World.mk (freshTab 1) emptyDb)).1.tab.peerConnections = [(3, 0), (2, 1)] :=
  have h := C11_joinRoom_failure_state browserLink 7 cameraAndMic false
    [Action.callback (Event.childAdded 3)]
    [Action.callback (Event.childAdded 2), Action.toggleVideo]
    (World.mk (freshTab 1) emptyDb) (by decide) (by decide) (by decide)
  ⟨by decide, h.1, h.2.1, (h.2.2.2.2 _ rfl).2.1, (h.2.2.2.2 _ rfl).2.2, by decide⟩

/-! ## C12: a successful joinRoom -/

/-- C12, on concrete runs of `joinRoom(7)` with camera and microphone granted.
(a) Nobody is signed in: it returns `true` and no presence record exists.  (b) The
database is unavailable: it returns `true`, no presence record exists and no
presence subscription is registered.  (c) User 1 is signed in and the database is
available, and `leaveRoom` runs while `getUserMedia` is pending: `joinRoom` returns
`true` with `roomId` null, no presence record and no presence subscription. -/
theorem C12_joinRoom_success_counterexample :
    (joinRoom 7 cameraAndMic true (World.mk signedOutTab emptyDb)).2 = true ∧
    (joinRoom 7 cameraAndMic true (World.mk signedOutTab emptyDb)).1.db.roomParticipants = [] ∧
    (joinRoom 7 cameraAndMic true (World.mk noDatabaseTab emptyDb)).2 = true ∧
    (joinRoom 7 cameraAndMic true (World.mk noDatabaseTab emptyDb)).1.db.roomParticipants = [] ∧
    (joinRoom 7 cameraAndMic true
      (World.mk noDatabaseTab emptyDb)).1.tab.participantListeners = [] ∧
    (joinRoomRun browserLink 7 cameraAndMic true [Action.leaveRoom true] []
      (World.mk (freshTab 1) emptyDb)).2 = true ∧
    (joinRoomRun browserLink 7 cameraAndMic true [Action.leaveRoom true] []
      (World.mk (freshTab 1) emptyDb)).1.tab.roomId = none ∧
    (joinRoomRun browserLink 7 cameraAndMic true [Action.leaveRoom true] []
      (World.mk (freshTab 1) emptyDb)).1.db.roomParticipants = [] ∧
    (joinRoomRun browserLink 7 cameraAndMic true [Action.leaveRoom true] []
      (World.mk (freshTab 1) emptyDb)).1.tab.participantListeners = [] := by
  decide

/-- C12 as amended.  Other actions run while `joinRoom(roomId)` waits for
`getUserMedia` and for `set()`, none of them a call of `leaveRoom` or `joinRoom`.
Whenever `joinRoom(roomId)` returns `true`, local media has been acquired
(`localStream` is non-null) and `roomId` is set; when the database is available the
manager is subscribed to the presence events of the room; and when moreover a user
is signed in, that user's presence record exists under the room. -/
theorem C12_joinRoom_success (link : Link) (room : RoomId)
    (media : Except MediaError (List TrackKind)) (setOk : Bool) (during1 during2 : List Action)
    (w : World) (h1 : ∀ a ∈ during1, a.entersOrLeaves = false)
    (h2 : ∀ a ∈ during2, a.entersOrLeaves = false)
    (h : (joinRoomRun link room media setOk during1 during2 w).2 = true) :
    (joinRoomRun link room media setOk during1 during2 w).1.tab.localStream ≠ none ∧
    (joinRoomRun link room media setOk during1 during2 w).1.tab.roomId = some room ∧
    (w.tab.rtdb = true →
      room ∈ (joinRoomRun link room media setOk during1 during2 w).1.tab.participantListeners) ∧
    (∀ uid, w.tab.rtdb = true → w.tab.currentUser = some uid →
      (room, uid) ∈
        (joinRoomRun link room media setOk during1 during2 w).1.db.roomParticipants) := by
  obtain ⟨hs, hb⟩ := joinRoomRun_session link room media setOk during1 during2 w h1 h2
  rw [hb] at h
  have hroomId := congrArg Session.roomId hs
  have hrecords := congrArg Session.roomParticipants hs
  have hstream := congrArg Session.localStream hs
  have hlisteners := congrArg Session.participantListeners hs
  simp only [session] at hroomId hrecords hstream hlisteners
  rw [hroomId, hrecords, hstream, hlisteners]
  obtain ⟨kinds, hm, htab⟩ := joinRoom_success room media setOk w h
  refine ⟨?_, ?_, ?_, ?_⟩
  · rw [htab]
    simp
  · rw [htab]
  · intro hdb
    rw [htab]
    simp [hdb]
  · intro uid hdb hu
    rw [joinRoom_records room media setOk w uid hdb hu h]
    unfold dbSet
    split
    · assumption
    · simp

theorem C12_joinRoom_success_witness :
    (joinRoomRun browserLink 7 cameraAndMic true [Action.callback (Event.childAdded 3)]
      [Action.callback (Event.childAdded 2), Action.toggleVideo]
      (World.mk (freshTab 1) emptyDb)).2 = true ∧
    (World.mk (freshTab 1) emptyDb).tab.rtdb = true ∧
    (World.mk (freshTab 1) emptyDb).tab.currentUser = some 1 ∧
    (joinRoomRun browserLink 7 cameraAndMic true [Action.callback (Event.childAdded 3)]
      [Action.callback (Event.childAdded 2), Action.toggleVideo]
      (World.mk (freshTab 1) emptyDb)).1.tab.localStream ≠ none ∧
    7 ∈ (joinRoomRun browserLink 7 cameraAndMic true [Action.callback (Event.childAdded 3)]
      [Action.callback (Event.childAdded 2), Action.toggleVideo]
      (World.mk (freshTab 1) emptyDb)).1.tab.participantListeners ∧
    (7, 1) ∈ (joinRoomRun browserLink 7 cameraAndMic true [Action.callback (Event.childAdded 3)]
      [Action.callback (Event.childAdded 2), Action.toggleVideo]
      (World.mk (freshTab 1) emptyDb)).1.db.roomParticipants ∧
    (joinRoomRun browserLink 7 cameraAndMic true [Action.callback (Event.childAdded 3)]
      [Action.callback (Event.childAdded 2), Action.toggleVideo]
      (World.mk (freshTab 1) emptyDb)).1.tab.peerConnections = [(3, 0), (2, 1)] :=
  have h := C12_joinRoom_success browserLink 7 cameraAndMic true
    [Action.callback (Event.childAdded 3)]
    [Action.callback (Event.childAdded 2), Action.toggleVideo]
    (World.mk (freshTab 1) emptyDb) (by decide) (by decide) (by decide)
  ⟨by decide, rfl, rfl, h.1, h.2.2.1 rfl, h.2.2.2 1 rfl rfl, by decide⟩

end Dejes
